import Mathlib

/-!
# Passport photo generator: transform and crop engine

Shallow embedding of `src/script.js`.

* JavaScript numbers are modelled twice. The first set of definitions reads the
  arithmetic of the script as exact, over the rationals (`ℚ`); it is used where every
  value of a run is a binary64 number computed without rounding. The second set, in
  the namespace `Binary64`, rounds the result of every arithmetic operation to the
  nearest binary64 number (`fl`), as the script does; it is used wherever a property
  depends on rounding. `Math.max`, `Math.min` are `max`, `min`, and `Math.round x` is
  `⌊x + 1/2⌋`.
* The global variables of the script are the fields of `State`; every handler is a
  function `State → … → State`, written statement by statement after the source.
* DOM side effects (messages, cursors, styles, text read-outs) carry no engine
  state and are left out; the only DOM state kept is the size of `previewCanvas`,
  which `zoomIn` and `zoomOut` read back.
-/

namespace PassportGenerator

/-! ## Data model -/

/-- One entry of the `formats` table. -/
structure Format where
  name : String
  mmWidth : ℚ
  mmHeight : ℚ
  pxWidth : ℚ
  pxHeight : ℚ
  maxFileSize : ℚ
  deriving DecidableEq

/-- The keys of the `formats` table, the values `currentFormat` ranges over. -/
inductive FormatKey where
  | napa
  | heslb
  | custom
  deriving DecidableEq

/-- The `formats` object: three entries, of which `custom` is mutated at run time. -/
structure Formats where
  napa : Format
  heslb : Format
  custom : Format
  deriving DecidableEq

/-- The decoded image: only its intrinsic pixel size matters to the engine. -/
structure Image where
  width : ℚ
  height : ℚ
  deriving DecidableEq

/-- A pair of coordinates, as in `imagePosition` and `dragStart`. -/
structure Point where
  x : ℚ
  y : ℚ
  deriving DecidableEq

/-- A rectangle, as in `cropBox`. -/
structure Box where
  x : ℚ
  y : ℚ
  width : ℚ
  height : ℚ
  deriving DecidableEq

/-- The `type` field of a resize handle. -/
inductive HandleType where
  | nw
  | ne
  | sw
  | se
  deriving DecidableEq

/-- The global variables of the script, plus the size of `previewCanvas`. -/
structure State where
  uploadedImage : Option Image
  currentFormat : FormatKey
  formats : Formats
  zoomLevel : ℚ
  imagePosition : Point
  isDragging : Bool
  dragStart : Point
  isResizing : Bool
  resizeHandle : Option HandleType
  cropBox : Box
  canvasWidth : ℚ
  canvasHeight : ℚ
  deriving DecidableEq

/-- The `formats` table as the script declares it. -/
def formats : Formats where
  napa := ⟨"NAPA Format", 30, 30, 300, 300, 500⟩
  heslb := ⟨"HESLB Format", 12, 15, 120, 150, 1000⟩
  custom := ⟨"Custom Format", 35, 45, 413, 531, 500⟩

/-- The state right after the script is loaded. The canvas starts with the size an
HTML canvas has by default; `showPreview` overwrites it before any handler reads it. -/
def initialState : State where
  uploadedImage := none
  currentFormat := FormatKey.napa
  formats := formats
  zoomLevel := 1
  imagePosition := ⟨0, 0⟩
  isDragging := false
  dragStart := ⟨0, 0⟩
  isResizing := false
  resizeHandle := none
  cropBox := ⟨0, 0, 0, 0⟩
  canvasWidth := 300
  canvasHeight := 150

/-! ## Helpers -/

/-- `Math.round`: the nearest integer, halves rounded up. -/
def mathRound (x : ℚ) : ℤ := ⌊x + 1 / 2⌋

/-- `formats[currentFormat]`. -/
def getCurrentFormat (s : State) : Format :=
  match s.currentFormat with
  | FormatKey.napa => s.formats.napa
  | FormatKey.heslb => s.formats.heslb
  | FormatKey.custom => s.formats.custom

/-- Side of the square corner handles. -/
def handleSize : ℚ := 12

/-- The four handles in the order the script lists them: top-left corner of the
handle square and its type. -/
def handles (cropBox : Box) : List (ℚ × ℚ × HandleType) :=
  [ (cropBox.x - handleSize / 2, cropBox.y - handleSize / 2, HandleType.nw),
    (cropBox.x + cropBox.width - handleSize / 2, cropBox.y - handleSize / 2, HandleType.ne),
    (cropBox.x - handleSize / 2, cropBox.y + cropBox.height - handleSize / 2, HandleType.sw),
    (cropBox.x + cropBox.width - handleSize / 2, cropBox.y + cropBox.height - handleSize / 2,
      HandleType.se) ]

/-- First handle whose square contains the point, if any. -/
def getResizeHandle (cropBox : Box) (x y : ℚ) : Option HandleType :=
  ((handles cropBox).find? (fun h =>
    decide (x ≥ h.1 ∧ x ≤ h.1 + handleSize ∧ y ≥ h.2.1 ∧ y ≤ h.2.1 + handleSize))).map
    (fun h => h.2.2)

/-- Whether the point lies in the closed crop rectangle. -/
def isInsideCropBox (cropBox : Box) (x y : ℚ) : Bool :=
  decide (x ≥ cropBox.x ∧ x ≤ cropBox.x + cropBox.width ∧
          y ≥ cropBox.y ∧ y ≤ cropBox.y + cropBox.height)

/-! ## Rendering -/

/-- The part of `drawCropOverlay` that touches state: the crop box is set to the
centred default when its width or height is zero. -/
def drawCropOverlay (s : State) (format : Format) : State :=
  if s.cropBox.width = 0 ∨ s.cropBox.height = 0 then
    let canvasAspect := format.pxWidth / format.pxHeight
    let maxSize := min (format.pxWidth * (8 / 10)) (format.pxHeight * (8 / 10))
    let c1 : Box := { s.cropBox with width := maxSize }
    let c2 : Box := { c1 with height := maxSize / canvasAspect }
    let c3 : Box := { c2 with x := (format.pxWidth - c2.width) / 2 }
    let c4 : Box := { c3 with y := (format.pxHeight - c3.height) / 2 }
    { s with cropBox := c4 }
  else s

/-- The state effect of `showPreview`: the canvas takes the size of the current
format and, with an image loaded, the crop overlay is drawn. -/
def showPreview (s : State) : State :=
  let format := getCurrentFormat s
  let s1 := { s with canvasWidth := format.pxWidth, canvasHeight := format.pxHeight }
  match s1.uploadedImage with
  | some _ => drawCropOverlay s1 format
  | none => s1

/-! ## Image load and fit -/

/-- The body of `img.onload` in `loadImage`. -/
def loadImage (s : State) (img : Image) : State :=
  let s1 := { s with uploadedImage := some img, zoomLevel := 1, imagePosition := ⟨0, 0⟩,
                     cropBox := ⟨0, 0, 0, 0⟩ }
  let format := getCurrentFormat s1
  let imageAspect := img.width / img.height
  let canvasAspect := format.pxWidth / format.pxHeight
  let s2 :=
    if imageAspect > canvasAspect then
      let scale := format.pxHeight / img.height
      { s1 with zoomLevel := scale,
                imagePosition := ⟨(format.pxWidth - img.width * scale) / 2, 0⟩ }
    else
      let scale := format.pxWidth / img.width
      { s1 with zoomLevel := scale,
                imagePosition := ⟨0, (format.pxHeight - img.height * scale) / 2⟩ }
  showPreview s2

/-- Reset to the fit of the image in the current format; a no-op without image. -/
def resetZoom (s : State) : State :=
  match s.uploadedImage with
  | none => s
  | some img =>
    let format := getCurrentFormat s
    let imageAspect := img.width / img.height
    let canvasAspect := format.pxWidth / format.pxHeight
    let s1 :=
      if imageAspect > canvasAspect then
        let scale := format.pxHeight / img.height
        { s with zoomLevel := scale,
                 imagePosition := ⟨(format.pxWidth - img.width * scale) / 2, 0⟩ }
      else
        let scale := format.pxWidth / img.width
        { s with zoomLevel := scale,
                 imagePosition := ⟨0, (format.pxHeight - img.height * scale) / 2⟩ }
    showPreview s1

/-! ## Pointer interaction -/

/-- The crop box after `resizeCropBox(x, y)`: the corner named by `resizeHandle`
follows the pointer, the height is derived from the width, and the box is then
clamped to the frame. Without a handle the script fails before any assignment. -/
def resizeCropBox (s : State) (x _y : ℚ) : State :=
  match s.resizeHandle with
  | none => s
  | some handle =>
    let format := getCurrentFormat s
    let aspectRatio := format.pxWidth / format.pxHeight
    let cb := s.cropBox
    let cb1 : Box :=
      match handle with
      | HandleType.nw =>
        let newWidth := cb.x + cb.width - x
        let newHeight := newWidth / aspectRatio
        if newWidth > 20 ∧ newHeight > 20 then
          let b1 : Box := { cb with width := newWidth }
          let b2 : Box := { b1 with height := newHeight }
          let b3 : Box := { b2 with x := x }
          { b3 with y := b3.y + (b3.height - newHeight) }
        else cb
      | HandleType.ne =>
        let width := x - cb.x
        let height := width / aspectRatio
        if width > 20 ∧ height > 20 then
          let b1 : Box := { cb with width := width }
          { b1 with height := height }
        else cb
      | HandleType.sw =>
        let w := cb.x + cb.width - x
        let h := w / aspectRatio
        if w > 20 ∧ h > 20 then
          let b1 : Box := { cb with width := w }
          let b2 : Box := { b1 with height := h }
          { b2 with x := x }
        else cb
      | HandleType.se =>
        let ww := x - cb.x
        let hh := ww / aspectRatio
        if ww > 20 ∧ hh > 20 then
          let b1 : Box := { cb with width := ww }
          { b1 with height := hh }
        else cb
    let cb2 : Box := { cb1 with x := max 0 (min cb1.x (format.pxWidth - cb1.width)) }
    let cb3 : Box := { cb2 with y := max 0 (min cb2.y (format.pxHeight - cb2.height)) }
    let cb4 : Box := { cb3 with width := min cb3.width (format.pxWidth - cb3.x) }
    let cb5 : Box := { cb4 with height := min cb4.height (format.pxHeight - cb4.y) }
    { s with cropBox := cb5 }

/-- Pointer-down at canvas position `(x, y)`. -/
def handleCanvasMouseDown (s : State) (x y : ℚ) : State :=
  match s.uploadedImage with
  | none => s
  | some _ =>
    match getResizeHandle s.cropBox x y with
    | some handle => { s with isResizing := true, resizeHandle := some handle }
    | none =>
      if isInsideCropBox s.cropBox x y then
        { s with isDragging := true, dragStart := ⟨x - s.cropBox.x, y - s.cropBox.y⟩ }
      else
        { s with isDragging := true,
                 dragStart := ⟨x - s.imagePosition.x, y - s.imagePosition.y⟩ }

/-- Pointer-move to canvas position `(x, y)`. -/
def handleCanvasMouseMove (s : State) (x y : ℚ) : State :=
  match s.uploadedImage with
  | none => s
  | some _ =>
    if s.isResizing ∧ s.resizeHandle.isSome then
      showPreview (resizeCropBox s x y)
    else if s.isDragging then
      if isInsideCropBox s.cropBox (s.dragStart.x + s.cropBox.x) (s.dragStart.y + s.cropBox.y) then
        let c1 : Box := { s.cropBox with x := x - s.dragStart.x }
        let c2 : Box := { c1 with y := y - s.dragStart.y }
        let format := getCurrentFormat s
        let c3 : Box := { c2 with x := max 0 (min c2.x (format.pxWidth - c2.width)) }
        let c4 : Box := { c3 with y := max 0 (min c3.y (format.pxHeight - c3.height)) }
        showPreview { s with cropBox := c4 }
      else
        showPreview { s with imagePosition := ⟨x - s.dragStart.x, y - s.dragStart.y⟩ }
    else s

/-- Pointer-up: the gesture ends. -/
def handleCanvasMouseUp (s : State) : State :=
  { s with isDragging := false, isResizing := false, resizeHandle := none }

/-! ## Zoom -/

/-- Wheel event with vertical delta `deltaY` at canvas position `(mouseX, mouseY)`. -/
def handleCanvasWheel (s : State) (deltaY mouseX mouseY : ℚ) : State :=
  match s.uploadedImage with
  | none => s
  | some _ =>
    let zoomFactor : ℚ := if deltaY > 0 then 9 / 10 else 11 / 10
    let newZoomLevel := max (1 / 10) (min 5 (s.zoomLevel * zoomFactor))
    let zoomRatio := newZoomLevel / s.zoomLevel
    let p1 : Point := { s.imagePosition with
      x := mouseX - (mouseX - s.imagePosition.x) * zoomRatio }
    let p2 : Point := { p1 with y := mouseY - (mouseY - p1.y) * zoomRatio }
    showPreview { s with imagePosition := p2, zoomLevel := newZoomLevel }

/-- The zoom-in button. -/
def zoomIn (s : State) : State :=
  match s.uploadedImage with
  | none => s
  | some _ =>
    let newZoomLevel := min 5 (s.zoomLevel * (12 / 10))
    let centerX := s.canvasWidth / 2
    let centerY := s.canvasHeight / 2
    let zoomRatio := newZoomLevel / s.zoomLevel
    let p1 : Point := { s.imagePosition with
      x := centerX - (centerX - s.imagePosition.x) * zoomRatio }
    let p2 : Point := { p1 with y := centerY - (centerY - p1.y) * zoomRatio }
    showPreview { s with imagePosition := p2, zoomLevel := newZoomLevel }

/-- The zoom-out button. -/
def zoomOut (s : State) : State :=
  match s.uploadedImage with
  | none => s
  | some _ =>
    let newZoomLevel := max (1 / 10) (s.zoomLevel * (8 / 10))
    let centerX := s.canvasWidth / 2
    let centerY := s.canvasHeight / 2
    let zoomRatio := newZoomLevel / s.zoomLevel
    let p1 : Point := { s.imagePosition with
      x := centerX - (centerX - s.imagePosition.x) * zoomRatio }
    let p2 : Point := { p1 with y := centerY - (centerY - p1.y) * zoomRatio }
    showPreview { s with imagePosition := p2, zoomLevel := newZoomLevel }

/-! ## Formats -/

/-- A format radio button was selected. -/
def handleFormatChange (s : State) (value : FormatKey) : State :=
  let s1 := { s with currentFormat := value }
  match s1.uploadedImage with
  | some _ => showPreview s1
  | none => s1

/-- The script's `parseInt(input.value) || dflt`: `none` stands for a text that does
not parse (`NaN`); `NaN` and `0` are falsy, so both give the default. -/
def parseIntOr (value : Option ℤ) (dflt : ℤ) : ℤ :=
  match value with
  | none => dflt
  | some n => if n = 0 then dflt else n

/-- An input event on one of the custom fields, with the parsed contents of the
three fields. -/
def updateCustomFormat (s : State) (widthInput heightInput fileSizeInput : Option ℤ) : State :=
  if s.currentFormat ≠ FormatKey.custom then s
  else
    let width := parseIntOr widthInput 35
    let height := parseIntOr heightInput 45
    let fileSize := parseIntOr fileSizeInput 500
    if width < 10 ∨ width > 100 then s
    else if height < 10 ∨ height > 150 then s
    else if fileSize < 50 ∨ fileSize > 2000 then s
    else
      let c1 : Format := { s.formats.custom with mmWidth := width }
      let c2 : Format := { c1 with mmHeight := height }
      let c3 : Format := { c2 with pxWidth := mathRound (width * (118 / 10)) }
      let c4 : Format := { c3 with pxHeight := mathRound (height * (118 / 10)) }
      let c5 : Format := { c4 with maxFileSize := fileSize }
      let s1 := { s with formats := { s.formats with custom := c5 } }
      match s1.uploadedImage with
      | some _ => showPreview s1
      | none => s1

/-! ## Export -/

/-- What `downloadImage` hands to `drawImage`: the size of the output canvas and the
rectangle of the source image that is stretched over it. -/
structure Export where
  canvasWidth : ℚ
  canvasHeight : ℚ
  sourceX : ℚ
  sourceY : ℚ
  sourceWidth : ℚ
  sourceHeight : ℚ
  deriving DecidableEq

/-- The export; `none` when no image is loaded (an error message is shown instead). -/
def downloadImage (s : State) : Option Export :=
  match s.uploadedImage with
  | none => none
  | some img =>
    let format := getCurrentFormat s
    let scaleX := img.width / (img.width * s.zoomLevel)
    let scaleY := img.height / (img.height * s.zoomLevel)
    let sourceX := max 0 ((s.cropBox.x - s.imagePosition.x) * scaleX)
    let sourceY := max 0 ((s.cropBox.y - s.imagePosition.y) * scaleY)
    let sourceWidth := min (img.width - sourceX) (s.cropBox.width * scaleX)
    let sourceHeight := min (img.height - sourceY) (s.cropBox.height * scaleY)
    some ⟨format.pxWidth, format.pxHeight, sourceX, sourceY, sourceWidth, sourceHeight⟩

/-- The reset button. -/
def resetTool (s : State) : State :=
  { s with uploadedImage := none, zoomLevel := 1, imagePosition := ⟨0, 0⟩,
           cropBox := ⟨0, 0, 0, 0⟩, isDragging := false, isResizing := false,
           resizeHandle := none, currentFormat := FormatKey.napa }

/-! ## The engine as a transition system -/

/-- The inputs the engine reacts to. -/
inductive Event where
  | imageLoaded (img : Image)
  | formatChange (value : FormatKey)
  | customInput (widthInput heightInput fileSizeInput : Option ℤ)
  | mouseDown (x y : ℚ)
  | mouseMove (x y : ℚ)
  | mouseUp
  | wheel (deltaY mouseX mouseY : ℚ)
  | zoomInButton
  | zoomOutButton
  | resetZoomButton
  | resetButton

/-- One handler call. -/
def step (s : State) : Event → State
  | Event.imageLoaded img => loadImage s img
  | Event.formatChange value => handleFormatChange s value
  | Event.customInput w h f => updateCustomFormat s w h f
  | Event.mouseDown x y => handleCanvasMouseDown s x y
  | Event.mouseMove x y => handleCanvasMouseMove s x y
  | Event.mouseUp => handleCanvasMouseUp s
  | Event.wheel d x y => handleCanvasWheel s d x y
  | Event.zoomInButton => zoomIn s
  | Event.zoomOutButton => zoomOut s
  | Event.resetZoomButton => resetZoom s
  | Event.resetButton => resetTool s

/-- Handlers run to completion, one event after the other. -/
def run (s : State) (events : List Event) : State :=
  events.foldl step s

/-! ## Specification predicates -/

/-- The image-space point shown under the canvas point `(px, py)` in state `s` is
shown at `(px, py)` again in state `t`, under `canvasPt = offset + zoom * imagePt`. -/
def PivotFixed (s t : State) (px py : ℚ) : Prop :=
  t.imagePosition.x + t.zoomLevel * ((px - s.imagePosition.x) / s.zoomLevel) = px ∧
  t.imagePosition.y + t.zoomLevel * ((py - s.imagePosition.y) / s.zoomLevel) = py

/-- A state with a 1000 × 1500 image loaded into the NAPA format. -/
def napaPortrait : State := loadImage initialState ⟨1000, 1500⟩

/-- The exported source rectangle, seen through the view transform, is the crop
rectangle. -/
def ExportShowsCropBox (s : State) (e : Export) : Prop :=
  s.imagePosition.x + s.zoomLevel * e.sourceX = s.cropBox.x ∧
  s.imagePosition.y + s.zoomLevel * e.sourceY = s.cropBox.y ∧
  s.zoomLevel * e.sourceWidth = s.cropBox.width ∧
  s.zoomLevel * e.sourceHeight = s.cropBox.height

/-- The crop rectangle lies within the image as displayed, that is within
`[offset, offset + zoom * size]` on both axes. -/
def CropBoxInsideImage (s : State) (img : Image) : Prop :=
  s.imagePosition.x ≤ s.cropBox.x ∧
  s.imagePosition.y ≤ s.cropBox.y ∧
  s.cropBox.x + s.cropBox.width ≤ s.imagePosition.x + s.zoomLevel * img.width ∧
  s.cropBox.y + s.cropBox.height ≤ s.imagePosition.y + s.zoomLevel * img.height

/-- The box has the aspect ratio of the format: `width / height = pxWidth / pxHeight`. -/
def HasFormatAspect (f : Format) (b : Box) : Prop :=
  b.width / b.height = f.pxWidth / f.pxHeight

/-- The box lies within the frame `[0, pxWidth] × [0, pxHeight]` of the format. -/
def InFrame (f : Format) (b : Box) : Prop :=
  0 ≤ b.x ∧ 0 ≤ b.y ∧ b.x + b.width ≤ f.pxWidth ∧ b.y + b.height ≤ f.pxHeight

/-- A 1000 × 1500 image is loaded into the NAPA format, the format is switched to
HESLB, and the crop box is grabbed at `(50, 50)` and dragged to `(60, 60)`. -/
def draggedAfterFormatChange : State :=
  run initialState [Event.imageLoaded ⟨1000, 1500⟩, Event.formatChange FormatKey.heslb,
    Event.mouseDown 50 50, Event.mouseMove 60 60]

/-- In state `t` the image `img` is displayed filling the frame of `f` on one axis
(offset 0, scaled size equal to the frame size), centred on the other, and covering
the whole frame. -/
def FitCoversFrame (f : Format) (img : Image) (t : State) : Prop :=
  ((t.imagePosition.x = 0 ∧ t.zoomLevel * img.width = f.pxWidth ∧
      t.imagePosition.y = (f.pxHeight - t.zoomLevel * img.height) / 2) ∨
   (t.imagePosition.y = 0 ∧ t.zoomLevel * img.height = f.pxHeight ∧
      t.imagePosition.x = (f.pxWidth - t.zoomLevel * img.width) / 2)) ∧
  t.imagePosition.x ≤ 0 ∧ t.imagePosition.y ≤ 0 ∧
  f.pxWidth ≤ t.imagePosition.x + t.zoomLevel * img.width ∧
  f.pxHeight ≤ t.imagePosition.y + t.zoomLevel * img.height

/-- The zoom level lies in `[0.1, 5.0]`. -/
def ZoomInBounds (s : State) : Prop := 1 / 10 ≤ s.zoomLevel ∧ s.zoomLevel ≤ 5

/-- The value `v` clamped to `[lo, hi]`. -/
def clamp (v lo hi : ℚ) : ℚ := max lo (min hi v)

/-- The zoom factor of a wheel event: 0.9 when scrolling down, 1.1 otherwise. -/
def wheelFactor (deltaY : ℚ) : ℚ := if deltaY > 0 then 9 / 10 else 11 / 10

/-- The events that zoom by a factor: wheel and the two zoom buttons. -/
def Event.isZoom : Event → Bool
  | Event.wheel _ _ _ => true
  | Event.zoomInButton => true
  | Event.zoomOutButton => true
  | _ => false

/-- A 4000 × 6000 image loaded into the NAPA format. -/
def largePortrait : State := loadImage initialState ⟨4000, 6000⟩

/-- A rectangle of the source image, in image pixels. -/
structure SourceRect where
  srcX : ℚ
  srcY : ℚ
  srcW : ℚ
  srcH : ℚ
  deriving DecidableEq

/-- The export mapping as the specification words it, directly through `1 / zoom`:
`srcX = (cropBox.x − offset.x) / zoom` and `srcY` alike, floored at 0;
`srcW = cropBox.width / zoom` and `srcH` alike, capped so that origin plus extent
stays within the image. -/
def specSourceRect (img : Image) (zoom : ℚ) (offset : Point) (cropBox : Box) : SourceRect :=
  let srcX := max 0 ((cropBox.x - offset.x) / zoom)
  let srcY := max 0 ((cropBox.y - offset.y) / zoom)
  let srcW := min (img.width - srcX) (cropBox.width / zoom)
  let srcH := min (img.height - srcY) (cropBox.height / zoom)
  ⟨srcX, srcY, srcW, srcH⟩

/-- The custom format is selected, no image loaded, custom spec as declared. -/
def customActive : State := run initialState [Event.formatChange FormatKey.custom]

/-! The predicates above are decidable: they can be evaluated on any concrete state. -/

instance (s t : State) (px py : ℚ) : Decidable (PivotFixed s t px py) := by
  unfold PivotFixed; infer_instance

instance (s : State) (e : Export) : Decidable (ExportShowsCropBox s e) := by
  unfold ExportShowsCropBox; infer_instance

instance (s : State) (img : Image) : Decidable (CropBoxInsideImage s img) := by
  unfold CropBoxInsideImage; infer_instance

instance (f : Format) (b : Box) : Decidable (HasFormatAspect f b) := by
  unfold HasFormatAspect; infer_instance

instance (f : Format) (b : Box) : Decidable (InFrame f b) := by
  unfold InFrame; infer_instance

instance (f : Format) (img : Image) (t : State) : Decidable (FitCoversFrame f img t) := by
  unfold FitCoversFrame; infer_instance

instance (s : State) : Decidable (ZoomInBounds s) := by
  unfold ZoomInBounds; infer_instance

/-- A 1000 × 1500 image is loaded into the NAPA format; the pointer goes down at
`(10, 10)`, outside the crop box and off every handle, and moves to `(110, 10)`. -/
def panTurnedCropDrag : State :=
  run initialState [Event.imageLoaded ⟨1000, 1500⟩, Event.mouseDown 10 10,
    Event.mouseMove 110 10]

/-- A 1000 × 1500 image is loaded into the NAPA format and the pointer goes down on
the top-left handle of the default crop box. -/
def resizingNw : State :=
  run initialState [Event.imageLoaded ⟨1000, 1500⟩, Event.mouseDown 30 30]

/-- A 1000 × 1500 image is loaded into the NAPA format and the format is switched to
HESLB, which renders the preview once. -/
def formatChanged : State :=
  run initialState [Event.imageLoaded ⟨1000, 1500⟩, Event.formatChange FormatKey.heslb]

/-- The centred default box as the specification words it:
`width = 0.8 * min(pxWidth, pxHeight)`, `height = width / (pxWidth / pxHeight)`,
`x = (pxWidth - width) / 2`, `y = (pxHeight - height) / 2`. -/
def defaultCropBox (f : Format) : Box :=
  let width := (8 / 10) * min f.pxWidth f.pxHeight
  let height := width / (f.pxWidth / f.pxHeight)
  ⟨(f.pxWidth - width) / 2, (f.pxHeight - height) / 2, width, height⟩

/-! ## Binary64 arithmetic

The script computes in IEEE 754 binary64 numbers. The definitions above read its
arithmetic as exact; the definitions of this section round the result of every
arithmetic operation to the nearest binary64 number, ties to even, as JavaScript
does. Finite values only: a result of magnitude `2 ^ 1024` or more (an infinity in
the script) and a division by zero are outside the model, and the sign of zero is
not kept. -/

/-- Round to the nearest integer, ties to the even one. -/
def roundHalfEven (q : ℚ) : ℤ :=
  let f := ⌊q⌋
  let r := q - f
  if r < 1 / 2 then f else if 1 / 2 < r then f + 1 else if f % 2 = 0 then f else f + 1

/-- The number of binary digits of `n`, found by halving at most `fuel` times. -/
def bitLength : ℕ → ℕ → ℕ
  | 0, _ => 0
  | fuel + 1, n => if n = 0 then 0 else bitLength fuel (n / 2) + 1

/-- The integer `e` with `2 ^ e ≤ |q| < 2 ^ (e + 1)`, for `q ≠ 0`. -/
def floorLog2 (q : ℚ) : ℤ :=
  let e0 : ℤ := (bitLength q.num.natAbs q.num.natAbs : ℤ) - (bitLength q.den q.den : ℤ)
  if (2 : ℚ) ^ e0 ≤ |q| then e0 else e0 - 1

/-- The exponent of the spacing of binary64 numbers around `q`: 53 significant bits,
and never finer than `2 ^ (-1074)`, the spacing of the subnormal numbers. -/
def ulpExp (q : ℚ) : ℤ := max (floorLog2 q - 52) (-1074)

/-- The binary64 number nearest to `q`, ties to even: the value of a JavaScript
arithmetic operation, or of a decimal literal, whose exact value is `q`. -/
def fl (q : ℚ) : ℚ := roundHalfEven (q / 2 ^ ulpExp q) * 2 ^ ulpExp q

namespace Binary64

/-- The handles of `getResizeHandle`, in binary64. -/
def handles (cropBox : Box) : List (ℚ × ℚ × HandleType) :=
  [ (fl (cropBox.x - fl (handleSize / 2)), fl (cropBox.y - fl (handleSize / 2)),
      HandleType.nw),
    (fl (fl (cropBox.x + cropBox.width) - fl (handleSize / 2)),
      fl (cropBox.y - fl (handleSize / 2)), HandleType.ne),
    (fl (cropBox.x - fl (handleSize / 2)),
      fl (fl (cropBox.y + cropBox.height) - fl (handleSize / 2)), HandleType.sw),
    (fl (fl (cropBox.x + cropBox.width) - fl (handleSize / 2)),
      fl (fl (cropBox.y + cropBox.height) - fl (handleSize / 2)), HandleType.se) ]

/-- First handle whose square contains the point, if any. -/
def getResizeHandle (cropBox : Box) (x y : ℚ) : Option HandleType :=
  ((handles cropBox).find? (fun h =>
    decide (x ≥ h.1 ∧ x ≤ fl (h.1 + handleSize) ∧ y ≥ h.2.1 ∧ y ≤ fl (h.2.1 + handleSize)))).map
    (fun h => h.2.2)

/-- Whether the point lies in the closed crop rectangle. -/
def isInsideCropBox (cropBox : Box) (x y : ℚ) : Bool :=
  decide (x ≥ cropBox.x ∧ x ≤ fl (cropBox.x + cropBox.width) ∧
          y ≥ cropBox.y ∧ y ≤ fl (cropBox.y + cropBox.height))

/-- The state effect of `drawCropOverlay`. -/
def drawCropOverlay (s : State) (format : Format) : State :=
  if s.cropBox.width = 0 ∨ s.cropBox.height = 0 then
    let canvasAspect := fl (format.pxWidth / format.pxHeight)
    let maxSize := min (fl (format.pxWidth * fl (8 / 10))) (fl (format.pxHeight * fl (8 / 10)))
    let c1 : Box := { s.cropBox with width := maxSize }
    let c2 : Box := { c1 with height := fl (maxSize / canvasAspect) }
    let c3 : Box := { c2 with x := fl (fl (format.pxWidth - c2.width) / 2) }
    let c4 : Box := { c3 with y := fl (fl (format.pxHeight - c3.height) / 2) }
    { s with cropBox := c4 }
  else s

/-- The state effect of `showPreview`. -/
def showPreview (s : State) : State :=
  let format := getCurrentFormat s
  let s1 := { s with canvasWidth := format.pxWidth, canvasHeight := format.pxHeight }
  match s1.uploadedImage with
  | some _ => drawCropOverlay s1 format
  | none => s1

/-- The body of `img.onload` in `loadImage`. -/
def loadImage (s : State) (img : Image) : State :=
  let s1 := { s with uploadedImage := some img, zoomLevel := 1, imagePosition := ⟨0, 0⟩,
                     cropBox := ⟨0, 0, 0, 0⟩ }
  let format := getCurrentFormat s1
  let imageAspect := fl (img.width / img.height)
  let canvasAspect := fl (format.pxWidth / format.pxHeight)
  let s2 :=
    if imageAspect > canvasAspect then
      let scale := fl (format.pxHeight / img.height)
      { s1 with zoomLevel := scale,
                imagePosition := ⟨fl (fl (format.pxWidth - fl (img.width * scale)) / 2), 0⟩ }
    else
      let scale := fl (format.pxWidth / img.width)
      { s1 with zoomLevel := scale,
                imagePosition := ⟨0, fl (fl (format.pxHeight - fl (img.height * scale)) / 2)⟩ }
  showPreview s2

/-- Reset to the fit of the image in the current format; a no-op without image. -/
def resetZoom (s : State) : State :=
  match s.uploadedImage with
  | none => s
  | some img =>
    let format := getCurrentFormat s
    let imageAspect := fl (img.width / img.height)
    let canvasAspect := fl (format.pxWidth / format.pxHeight)
    let s1 :=
      if imageAspect > canvasAspect then
        let scale := fl (format.pxHeight / img.height)
        { s with zoomLevel := scale,
                 imagePosition := ⟨fl (fl (format.pxWidth - fl (img.width * scale)) / 2), 0⟩ }
      else
        let scale := fl (format.pxWidth / img.width)
        { s with zoomLevel := scale,
                 imagePosition := ⟨0, fl (fl (format.pxHeight - fl (img.height * scale)) / 2)⟩ }
    showPreview s1

/-- The crop box after `resizeCropBox(x, y)`. -/
def resizeCropBox (s : State) (x _y : ℚ) : State :=
  match s.resizeHandle with
  | none => s
  | some handle =>
    let format := getCurrentFormat s
    let aspectRatio := fl (format.pxWidth / format.pxHeight)
    let cb := s.cropBox
    let cb1 : Box :=
      match handle with
      | HandleType.nw =>
        let newWidth := fl (fl (cb.x + cb.width) - x)
        let newHeight := fl (newWidth / aspectRatio)
        if newWidth > 20 ∧ newHeight > 20 then
          let b1 : Box := { cb with width := newWidth }
          let b2 : Box := { b1 with height := newHeight }
          let b3 : Box := { b2 with x := x }
          { b3 with y := fl (b3.y + fl (b3.height - newHeight)) }
        else cb
      | HandleType.ne =>
        let width := fl (x - cb.x)
        let height := fl (width / aspectRatio)
        if width > 20 ∧ height > 20 then
          let b1 : Box := { cb with width := width }
          { b1 with height := height }
        else cb
      | HandleType.sw =>
        let w := fl (fl (cb.x + cb.width) - x)
        let h := fl (w / aspectRatio)
        if w > 20 ∧ h > 20 then
          let b1 : Box := { cb with width := w }
          let b2 : Box := { b1 with height := h }
          { b2 with x := x }
        else cb
      | HandleType.se =>
        let ww := fl (x - cb.x)
        let hh := fl (ww / aspectRatio)
        if ww > 20 ∧ hh > 20 then
          let b1 : Box := { cb with width := ww }
          { b1 with height := hh }
        else cb
    let cb2 : Box := { cb1 with x := max 0 (min cb1.x (fl (format.pxWidth - cb1.width))) }
    let cb3 : Box := { cb2 with y := max 0 (min cb2.y (fl (format.pxHeight - cb2.height))) }
    let cb4 : Box := { cb3 with width := min cb3.width (fl (format.pxWidth - cb3.x)) }
    let cb5 : Box := { cb4 with height := min cb4.height (fl (format.pxHeight - cb4.y)) }
    { s with cropBox := cb5 }

/-- Pointer-down at canvas position `(x, y)`. -/
def handleCanvasMouseDown (s : State) (x y : ℚ) : State :=
  match s.uploadedImage with
  | none => s
  | some _ =>
    match getResizeHandle s.cropBox x y with
    | some handle => { s with isResizing := true, resizeHandle := some handle }
    | none =>
      if isInsideCropBox s.cropBox x y then
        { s with isDragging := true,
                 dragStart := ⟨fl (x - s.cropBox.x), fl (y - s.cropBox.y)⟩ }
      else
        { s with isDragging := true,
                 dragStart := ⟨fl (x - s.imagePosition.x), fl (y - s.imagePosition.y)⟩ }

/-- Pointer-move to canvas position `(x, y)`. -/
def handleCanvasMouseMove (s : State) (x y : ℚ) : State :=
  match s.uploadedImage with
  | none => s
  | some _ =>
    if s.isResizing ∧ s.resizeHandle.isSome then
      showPreview (resizeCropBox s x y)
    else if s.isDragging then
      if isInsideCropBox s.cropBox (fl (s.dragStart.x + s.cropBox.x))
          (fl (s.dragStart.y + s.cropBox.y)) then
        let c1 : Box := { s.cropBox with x := fl (x - s.dragStart.x) }
        let c2 : Box := { c1 with y := fl (y - s.dragStart.y) }
        let format := getCurrentFormat s
        let c3 : Box := { c2 with x := max 0 (min c2.x (fl (format.pxWidth - c2.width))) }
        let c4 : Box := { c3 with y := max 0 (min c3.y (fl (format.pxHeight - c3.height))) }
        showPreview { s with cropBox := c4 }
      else
        showPreview { s with
          imagePosition := ⟨fl (x - s.dragStart.x), fl (y - s.dragStart.y)⟩ }
    else s

/-- Wheel event with vertical delta `deltaY` at canvas position `(mouseX, mouseY)`. -/
def handleCanvasWheel (s : State) (deltaY mouseX mouseY : ℚ) : State :=
  match s.uploadedImage with
  | none => s
  | some _ =>
    let zoomFactor : ℚ := if deltaY > 0 then fl (9 / 10) else fl (11 / 10)
    let newZoomLevel := max (fl (1 / 10)) (min 5 (fl (s.zoomLevel * zoomFactor)))
    let zoomRatio := fl (newZoomLevel / s.zoomLevel)
    let p1 : Point := { s.imagePosition with
      x := fl (mouseX - fl (fl (mouseX - s.imagePosition.x) * zoomRatio)) }
    let p2 : Point := { p1 with y := fl (mouseY - fl (fl (mouseY - p1.y) * zoomRatio)) }
    showPreview { s with imagePosition := p2, zoomLevel := newZoomLevel }

/-- The zoom-in button. -/
def zoomIn (s : State) : State :=
  match s.uploadedImage with
  | none => s
  | some _ =>
    let newZoomLevel := min 5 (fl (s.zoomLevel * fl (12 / 10)))
    let centerX := fl (s.canvasWidth / 2)
    let centerY := fl (s.canvasHeight / 2)
    let zoomRatio := fl (newZoomLevel / s.zoomLevel)
    let p1 : Point := { s.imagePosition with
      x := fl (centerX - fl (fl (centerX - s.imagePosition.x) * zoomRatio)) }
    let p2 : Point := { p1 with y := fl (centerY - fl (fl (centerY - p1.y) * zoomRatio)) }
    showPreview { s with imagePosition := p2, zoomLevel := newZoomLevel }

/-- The zoom-out button. -/
def zoomOut (s : State) : State :=
  match s.uploadedImage with
  | none => s
  | some _ =>
    let newZoomLevel := max (fl (1 / 10)) (fl (s.zoomLevel * fl (8 / 10)))
    let centerX := fl (s.canvasWidth / 2)
    let centerY := fl (s.canvasHeight / 2)
    let zoomRatio := fl (newZoomLevel / s.zoomLevel)
    let p1 : Point := { s.imagePosition with
      x := fl (centerX - fl (fl (centerX - s.imagePosition.x) * zoomRatio)) }
    let p2 : Point := { p1 with y := fl (centerY - fl (fl (centerY - p1.y) * zoomRatio)) }
    showPreview { s with imagePosition := p2, zoomLevel := newZoomLevel }

/-- A format radio button was selected. -/
def handleFormatChange (s : State) (value : FormatKey) : State :=
  let s1 := { s with currentFormat := value }
  match s1.uploadedImage with
  | some _ => showPreview s1
  | none => s1

/-- An input event on one of the custom fields. -/
def updateCustomFormat (s : State) (widthInput heightInput fileSizeInput : Option ℤ) : State :=
  if s.currentFormat ≠ FormatKey.custom then s
  else
    let width := parseIntOr widthInput 35
    let height := parseIntOr heightInput 45
    let fileSize := parseIntOr fileSizeInput 500
    if width < 10 ∨ width > 100 then s
    else if height < 10 ∨ height > 150 then s
    else if fileSize < 50 ∨ fileSize > 2000 then s
    else
      let c1 : Format := { s.formats.custom with mmWidth := width }
      let c2 : Format := { c1 with mmHeight := height }
      let c3 : Format := { c2 with pxWidth := mathRound (fl (width * fl (118 / 10))) }
      let c4 : Format := { c3 with pxHeight := mathRound (fl (height * fl (118 / 10))) }
      let c5 : Format := { c4 with maxFileSize := fileSize }
      let s1 := { s with formats := { s.formats with custom := c5 } }
      match s1.uploadedImage with
      | some _ => showPreview s1
      | none => s1

/-- The export; `none` when no image is loaded. -/
def downloadImage (s : State) : Option Export :=
  match s.uploadedImage with
  | none => none
  | some img =>
    let format := getCurrentFormat s
    let scaleX := fl (img.width / fl (img.width * s.zoomLevel))
    let scaleY := fl (img.height / fl (img.height * s.zoomLevel))
    let sourceX := max 0 (fl (fl (s.cropBox.x - s.imagePosition.x) * scaleX))
    let sourceY := max 0 (fl (fl (s.cropBox.y - s.imagePosition.y) * scaleY))
    let sourceWidth := min (fl (img.width - sourceX)) (fl (s.cropBox.width * scaleX))
    let sourceHeight := min (fl (img.height - sourceY)) (fl (s.cropBox.height * scaleY))
    some ⟨format.pxWidth, format.pxHeight, sourceX, sourceY, sourceWidth, sourceHeight⟩

/-- One handler call, in binary64. -/
def step (s : State) : Event → State
  | Event.imageLoaded img => loadImage s img
  | Event.formatChange value => handleFormatChange s value
  | Event.customInput w h f => updateCustomFormat s w h f
  | Event.mouseDown x y => handleCanvasMouseDown s x y
  | Event.mouseMove x y => handleCanvasMouseMove s x y
  | Event.mouseUp => handleCanvasMouseUp s
  | Event.wheel d x y => handleCanvasWheel s d x y
  | Event.zoomInButton => zoomIn s
  | Event.zoomOutButton => zoomOut s
  | Event.resetZoomButton => resetZoom s
  | Event.resetButton => resetTool s

/-- Handlers run to completion, one event after the other, in binary64. -/
def run (s : State) (events : List Event) : State :=
  events.foldl step s

end Binary64

/-! ## Specification predicates, up to rounding -/

/-- The image-space point shown under the canvas point `(px, py)` in state `s` is
shown in state `t` within rounding distance of `(px, py)`: on each axis within
`(|p| + (zoom' / zoom) * |p - offset|) / 2 ^ 50 + 2 ^ (-960)`. -/
def PivotFixedWithin (s t : State) (px py : ℚ) : Prop :=
  |t.imagePosition.x + t.zoomLevel * ((px - s.imagePosition.x) / s.zoomLevel) - px| ≤
    (|px| + t.zoomLevel / s.zoomLevel * |px - s.imagePosition.x|) / 2 ^ 50
      + 2 ^ (-960 : ℤ) ∧
  |t.imagePosition.y + t.zoomLevel * ((py - s.imagePosition.y) / s.zoomLevel) - py| ≤
    (|py| + t.zoomLevel / s.zoomLevel * |py - s.imagePosition.y|) / 2 ^ 50
      + 2 ^ (-960 : ℤ)

/-- The zoom lies in `[2 ^ (-100), 2 ^ 100]` and the image offset and the canvas size
have magnitude at most `2 ^ 100`: far inside the finite binary64 numbers. -/
def ViewInRange (s : State) : Prop :=
  2 ^ (-100 : ℤ) ≤ s.zoomLevel ∧ s.zoomLevel ≤ 2 ^ 100 ∧
  |s.imagePosition.x| ≤ 2 ^ 100 ∧ |s.imagePosition.y| ≤ 2 ^ 100 ∧
  |s.canvasWidth| ≤ 2 ^ 100 ∧ |s.canvasHeight| ≤ 2 ^ 100

/-- A 1920 × 1080 image loaded into the NAPA format, in binary64. -/
def wideLoaded : State := Binary64.loadImage initialState ⟨1920, 1080⟩

/-- The scaled image is displayed, in state `t`, filling the frame of `f` on one axis,
centred on the other and covering the frame, each up to rounding. -/
def FitCoversFrameWithin (f : Format) (img : Image) (t : State) : Prop :=
  ((t.imagePosition.x = 0 ∧
      |t.zoomLevel * img.width - f.pxWidth| ≤ f.pxWidth / 2 ^ 52 + 2 ^ (-1000 : ℤ) ∧
      |t.imagePosition.y - (f.pxHeight - t.zoomLevel * img.height) / 2| ≤
        (f.pxHeight + t.zoomLevel * img.height) / 2 ^ 51 + 2 ^ (-1000 : ℤ)) ∨
   (t.imagePosition.y = 0 ∧
      |t.zoomLevel * img.height - f.pxHeight| ≤ f.pxHeight / 2 ^ 52 + 2 ^ (-1000 : ℤ) ∧
      |t.imagePosition.x - (f.pxWidth - t.zoomLevel * img.width) / 2| ≤
        (f.pxWidth + t.zoomLevel * img.width) / 2 ^ 51 + 2 ^ (-1000 : ℤ))) ∧
  t.imagePosition.x ≤ (f.pxWidth + t.zoomLevel * img.width) / 2 ^ 50 + 2 ^ (-1000 : ℤ) ∧
  t.imagePosition.y ≤ (f.pxHeight + t.zoomLevel * img.height) / 2 ^ 50 + 2 ^ (-1000 : ℤ) ∧
  f.pxWidth - ((f.pxWidth + t.zoomLevel * img.width) / 2 ^ 50 + 2 ^ (-1000 : ℤ)) ≤
    t.imagePosition.x + t.zoomLevel * img.width ∧
  f.pxHeight - ((f.pxHeight + t.zoomLevel * img.height) / 2 ^ 50 + 2 ^ (-1000 : ℤ)) ≤
    t.imagePosition.y + t.zoomLevel * img.height

/-- The sizes of image and frame are between 1 and `2 ^ 30` pixels. -/
def SizesInRange (f : Format) (img : Image) : Prop :=
  (1 ≤ img.width ∧ img.width ≤ 2 ^ 30) ∧ (1 ≤ img.height ∧ img.height ≤ 2 ^ 30) ∧
  (1 ≤ f.pxWidth ∧ f.pxWidth ≤ 2 ^ 30) ∧ (1 ≤ f.pxHeight ∧ f.pxHeight ≤ 2 ^ 30)

/-- The image is between 1 and `2 ^ 30` pixels on each side, the zoom lies in
`[2 ^ (-100), 2 ^ 100]`, and the image offset and the crop box have coordinates of
magnitude at most `2 ^ 100`: far inside the finite binary64 numbers. -/
def ExportInRange (s : State) (img : Image) : Prop :=
  (1 ≤ img.width ∧ img.width ≤ 2 ^ 30) ∧ (1 ≤ img.height ∧ img.height ≤ 2 ^ 30) ∧
  (2 ^ (-100 : ℤ) ≤ s.zoomLevel ∧ s.zoomLevel ≤ 2 ^ 100) ∧
  (|s.imagePosition.x| ≤ 2 ^ 100 ∧ |s.imagePosition.y| ≤ 2 ^ 100) ∧
  (|s.cropBox.x| ≤ 2 ^ 100 ∧ |s.cropBox.y| ≤ 2 ^ 100) ∧
  (|s.cropBox.width| ≤ 2 ^ 100 ∧ |s.cropBox.height| ≤ 2 ^ 100)

/-- The exported source rectangle `e` agrees with the rectangle `r` of the
specification up to rounding: the origin within `|crop - offset| / zoom / 2 ^ 48`, the
extent within `(size + |crop - offset| / zoom + |extent| / zoom) / 2 ^ 47`, each plus
`2 ^ (-900)`. -/
def SourceRectWithin (img : Image) (zoom : ℚ) (offset : Point) (cropBox : Box)
    (e : Export) (r : SourceRect) : Prop :=
  |e.sourceX - r.srcX| ≤ |cropBox.x - offset.x| / zoom / 2 ^ 48 + 2 ^ (-900 : ℤ) ∧
  |e.sourceY - r.srcY| ≤ |cropBox.y - offset.y| / zoom / 2 ^ 48 + 2 ^ (-900 : ℤ) ∧
  |e.sourceWidth - r.srcW| ≤
    (img.width + |cropBox.x - offset.x| / zoom + |cropBox.width| / zoom) / 2 ^ 47
      + 2 ^ (-900 : ℤ) ∧
  |e.sourceHeight - r.srcH| ≤
    (img.height + |cropBox.y - offset.y| / zoom + |cropBox.height| / zoom) / 2 ^ 47
      + 2 ^ (-900 : ℤ)

/-- The exported source rectangle starts inside the image and ends inside it up to
the rounding of one subtraction. -/
def SourceRectInImageWithin (img : Image) (e : Export) : Prop :=
  0 ≤ e.sourceX ∧ 0 ≤ e.sourceY ∧
  e.sourceX + e.sourceWidth ≤
    img.width + (img.width + e.sourceX) / 2 ^ 53 + 2 ^ (-1075 : ℤ) ∧
  e.sourceY + e.sourceHeight ≤
    img.height + (img.height + e.sourceY) / 2 ^ 53 + 2 ^ (-1075 : ℤ)

/-- The export mapping as the specification words it, every operation rounded to
binary64. -/
def Binary64.specSourceRect (img : Image) (zoom : ℚ) (offset : Point) (cropBox : Box) :
    SourceRect :=
  let srcX := max 0 (fl (fl (cropBox.x - offset.x) / zoom))
  let srcY := max 0 (fl (fl (cropBox.y - offset.y) / zoom))
  let srcW := min (fl (img.width - srcX)) (fl (cropBox.width / zoom))
  let srcH := min (fl (img.height - srcY)) (fl (cropBox.height / zoom))
  ⟨srcX, srcY, srcW, srcH⟩

/-- The source rectangle `e`, mapped through `canvasPt = offset + zoom * imagePt`, is
the crop rectangle up to rounding: the origin within
`|crop - offset| / 2 ^ 48 + zoom * 2 ^ (-900)`, the extent within
`(zoom * size + |crop - offset| + |extent|) / 2 ^ 47 + zoom * 2 ^ (-900)`. -/
def ExportShowsCropBoxWithin (s : State) (img : Image) (e : Export) : Prop :=
  |s.imagePosition.x + s.zoomLevel * e.sourceX - s.cropBox.x| ≤
    |s.cropBox.x - s.imagePosition.x| / 2 ^ 48 + s.zoomLevel * 2 ^ (-900 : ℤ) ∧
  |s.imagePosition.y + s.zoomLevel * e.sourceY - s.cropBox.y| ≤
    |s.cropBox.y - s.imagePosition.y| / 2 ^ 48 + s.zoomLevel * 2 ^ (-900 : ℤ) ∧
  |s.zoomLevel * e.sourceWidth - s.cropBox.width| ≤
    (s.zoomLevel * img.width + |s.cropBox.x - s.imagePosition.x| + |s.cropBox.width|)
      / 2 ^ 47 + s.zoomLevel * 2 ^ (-900 : ℤ) ∧
  |s.zoomLevel * e.sourceHeight - s.cropBox.height| ≤
    (s.zoomLevel * img.height + |s.cropBox.y - s.imagePosition.y| + |s.cropBox.height|)
      / 2 ^ 47 + s.zoomLevel * 2 ^ (-900 : ℤ)

/-- The image offset of `t` is that of `s` up to the rounding of one recentring about
the canvas centre: on each axis within
`(|offset| + |centre - offset|) / 2 ^ 50 + 2 ^ (-1073)`. -/
def OffsetKeptWithin (s t : State) : Prop :=
  |t.imagePosition.x - s.imagePosition.x| ≤
    (|s.imagePosition.x| + |fl (s.canvasWidth / 2) - s.imagePosition.x|) / 2 ^ 50
      + 2 ^ (-1073 : ℤ) ∧
  |t.imagePosition.y - s.imagePosition.y| ≤
    (|s.imagePosition.y| + |fl (s.canvasHeight / 2) - s.imagePosition.y|) / 2 ^ 50
      + 2 ^ (-1073 : ℤ)

/-- A 61 × 61 image loaded into the NAPA format and zoomed once with the wheel at
`(10, 20)`, in binary64: the zoom is 5. -/
def smallWheeled : State :=
  Binary64.run initialState [Event.imageLoaded ⟨61, 61⟩, Event.wheel (-1) 10 20]

/-- The box has the aspect ratio of the format up to the relative tolerance `tol`. -/
def HasFormatAspectWithin (f : Format) (b : Box) (tol : ℚ) : Prop :=
  |b.width / b.height - f.pxWidth / f.pxHeight| ≤ tol * (f.pxWidth / f.pxHeight)

/-- The frame of the active format is between 1 and 2048 pixels on each side, the
crop box is at least one pixel wide and high, and the crop box and the pointer
position `x` have magnitude at most `2 ^ 100`: far inside the finite binary64
numbers. -/
def ResizeInRange (s : State) (x : ℚ) : Prop :=
  (1 ≤ (getCurrentFormat s).pxWidth ∧ (getCurrentFormat s).pxWidth ≤ 2 ^ 11) ∧
  (1 ≤ (getCurrentFormat s).pxHeight ∧ (getCurrentFormat s).pxHeight ≤ 2 ^ 11) ∧
  (1 ≤ s.cropBox.width ∧ s.cropBox.width ≤ 2 ^ 100) ∧
  (1 ≤ s.cropBox.height ∧ s.cropBox.height ≤ 2 ^ 100) ∧
  (|s.cropBox.x| ≤ 2 ^ 100 ∧ |s.cropBox.y| ≤ 2 ^ 100) ∧ |x| ≤ 2 ^ 100

/-- The fit scale of the specification, not clamped: `pxHeight / imgHeight` when the
image is relatively wider than the frame, `pxWidth / imgWidth` otherwise. -/
def fitScale (f : Format) (img : Image) : ℚ :=
  if img.width / img.height > f.pxWidth / f.pxHeight then f.pxHeight / img.height
  else f.pxWidth / img.width

/-- The fit scale with every quotient rounded to binary64. -/
def Binary64.fitScale (f : Format) (img : Image) : ℚ :=
  if fl (img.width / img.height) > fl (f.pxWidth / f.pxHeight) then fl (f.pxHeight / img.height)
  else fl (f.pxWidth / img.width)

/-- The factor of one wheel notch as binary64 numbers: the literal `0.9` to zoom out,
`1.1` to zoom in. -/
def Binary64.wheelFactor (deltaY : ℚ) : ℚ := if deltaY > 0 then fl (9 / 10) else fl (11 / 10)

/-- A 1000 × 1500 image loaded into the NAPA format, then zoomed out twice with the
button, in binary64. -/
def zoomedOutTwice : State :=
  Binary64.run initialState
    [Event.imageLoaded ⟨1000, 1500⟩, Event.zoomOutButton, Event.zoomOutButton]

/-- A 281 × 281 image loaded into the NAPA format, in binary64. -/
def squareLoaded : State := Binary64.loadImage initialState ⟨281, 281⟩

/-- The custom format (413 × 531) with a 1000 × 1500 image, in binary64: the
bottom-left handle of the default crop box is dragged to `x = 0` and released, then
the bottom-right handle is grabbed and dragged to `x = 21`. The crop box is then
21 × 27, of ratio 7 / 9 = 413 / 531, and the bottom-right handle is still held. -/
def customResized : State :=
  Binary64.run initialState
    [Event.formatChange FormatKey.custom, Event.imageLoaded ⟨1000, 1500⟩,
      Event.mouseDown 41 478, Event.mouseMove 0 478, Event.mouseUp,
      Event.mouseDown 372 531, Event.mouseMove 21 531]

/-- The state `wideLoaded` with the zoom set to `2 ^ (-1074)`, the smallest positive
binary64 number. -/
def tinyZoom : State := { wideLoaded with zoomLevel := 2 ^ (-1074 : ℤ) }

/-! The predicates of this section are decidable as well. -/

instance (s t : State) (px py : ℚ) : Decidable (PivotFixedWithin s t px py) := by
  unfold PivotFixedWithin; infer_instance

instance (s : State) : Decidable (ViewInRange s) := by
  unfold ViewInRange; infer_instance

instance (f : Format) (img : Image) (t : State) : Decidable (FitCoversFrameWithin f img t) := by
  unfold FitCoversFrameWithin; infer_instance

instance (f : Format) (img : Image) : Decidable (SizesInRange f img) := by
  unfold SizesInRange; infer_instance

instance (s : State) (img : Image) : Decidable (ExportInRange s img) := by
  unfold ExportInRange; infer_instance

instance (img : Image) (zoom : ℚ) (offset : Point) (cropBox : Box) (e : Export)
    (r : SourceRect) : Decidable (SourceRectWithin img zoom offset cropBox e r) := by
  unfold SourceRectWithin; infer_instance

instance (img : Image) (e : Export) : Decidable (SourceRectInImageWithin img e) := by
  unfold SourceRectInImageWithin; infer_instance

instance (s : State) (img : Image) (e : Export) :
    Decidable (ExportShowsCropBoxWithin s img e) := by
  unfold ExportShowsCropBoxWithin; infer_instance

instance (s t : State) : Decidable (OffsetKeptWithin s t) := by
  unfold OffsetKeptWithin; infer_instance

instance (f : Format) (b : Box) (tol : ℚ) : Decidable (HasFormatAspectWithin f b tol) := by
  unfold HasFormatAspectWithin; infer_instance

instance (s : State) (x : ℚ) : Decidable (ResizeInRange s x) := by
  unfold ResizeInRange; infer_instance

/-! ## Rendering leaves the view transform alone -/

@[simp]
theorem drawCropOverlay_zoomLevel (s : State) (f : Format) :
    (drawCropOverlay s f).zoomLevel = s.zoomLevel := by
  unfold drawCropOverlay; split <;> rfl

@[simp]
theorem drawCropOverlay_imagePosition (s : State) (f : Format) :
    (drawCropOverlay s f).imagePosition = s.imagePosition := by
  unfold drawCropOverlay; split <;> rfl

@[simp]
theorem drawCropOverlay_uploadedImage (s : State) (f : Format) :
    (drawCropOverlay s f).uploadedImage = s.uploadedImage := by
  unfold drawCropOverlay; split <;> rfl

@[simp]
theorem drawCropOverlay_currentFormat (s : State) (f : Format) :
    (drawCropOverlay s f).currentFormat = s.currentFormat := by
  unfold drawCropOverlay; split <;> rfl

@[simp]
theorem drawCropOverlay_formats (s : State) (f : Format) :
    (drawCropOverlay s f).formats = s.formats := by
  unfold drawCropOverlay; split <;> rfl

@[simp]
theorem showPreview_zoomLevel (s : State) : (showPreview s).zoomLevel = s.zoomLevel := by
  unfold showPreview; dsimp only; split <;> simp

@[simp]
theorem showPreview_imagePosition (s : State) :
    (showPreview s).imagePosition = s.imagePosition := by
  unfold showPreview; dsimp only; split <;> simp

@[simp]
theorem showPreview_uploadedImage (s : State) :
    (showPreview s).uploadedImage = s.uploadedImage := by
  unfold showPreview; dsimp only; split <;> simp

@[simp]
theorem showPreview_currentFormat (s : State) :
    (showPreview s).currentFormat = s.currentFormat := by
  unfold showPreview; dsimp only; split <;> simp

@[simp]
theorem showPreview_formats (s : State) : (showPreview s).formats = s.formats := by
  unfold showPreview; dsimp only; split <;> simp

@[simp]
theorem getCurrentFormat_showPreview (s : State) :
    getCurrentFormat (showPreview s) = getCurrentFormat s := by
  simp [getCurrentFormat]

/-! ## Concrete runs -/

/-- The state after loading a 1000 × 1500 image into the NAPA format. -/
theorem napaPortrait_eq : napaPortrait =
    { uploadedImage := some ⟨1000, 1500⟩, currentFormat := FormatKey.napa, formats := formats,
      zoomLevel := 3 / 10, imagePosition := ⟨0, -75⟩, isDragging := false, dragStart := ⟨0, 0⟩,
      isResizing := false, resizeHandle := none, cropBox := ⟨30, 30, 240, 240⟩,
      canvasWidth := 300, canvasHeight := 300 } := by
  simp [napaPortrait, loadImage, initialState, formats, getCurrentFormat, showPreview,
    drawCropOverlay]
  norm_num

/-! ## The crop box and the frame -/

/-- The state reached by `draggedAfterFormatChange`. -/
theorem draggedAfterFormatChange_eq : draggedAfterFormatChange =
    { uploadedImage := some ⟨1000, 1500⟩, currentFormat := FormatKey.heslb, formats := formats,
      zoomLevel := 3 / 10, imagePosition := ⟨0, -75⟩, isDragging := true, dragStart := ⟨20, 20⟩,
      isResizing := false, resizeHandle := none, cropBox := ⟨0, 0, 240, 240⟩,
      canvasWidth := 120, canvasHeight := 150 } := by
  have h : draggedAfterFormatChange =
      handleCanvasMouseMove (handleCanvasMouseDown
        (handleFormatChange napaPortrait FormatKey.heslb) 50 50) 60 60 := rfl
  rw [h, napaPortrait_eq]
  simp [handleFormatChange, handleCanvasMouseDown, handleCanvasMouseMove, getResizeHandle,
    handles, handleSize, isInsideCropBox, formats, getCurrentFormat, showPreview,
    drawCropOverlay]
  norm_num

/-- C3, the failing run: the crop box initialised for NAPA (240 × 240) is kept when
the format becomes HESLB (120 × 150), and the drag clamp then leaves it at
`(0, 0, 240, 240)`, outside the 120 × 150 frame. -/
theorem crop_drag_leaves_frame :
    getCurrentFormat draggedAfterFormatChange = formats.heslb ∧
    draggedAfterFormatChange.cropBox = ⟨0, 0, 240, 240⟩ ∧
    ¬ InFrame (getCurrentFormat draggedAfterFormatChange) draggedAfterFormatChange.cropBox := by
  rw [draggedAfterFormatChange_eq]
  refine ⟨rfl, rfl, ?_⟩
  simp [InFrame, getCurrentFormat, formats]
  norm_num

/-- Shrinking an extent to what is left of the frame keeps the far edge inside. -/
theorem add_min_sub_le (a w W : ℚ) : a + min w (W - a) ≤ W := by
  linarith [min_le_right w (W - a)]

/-- After `resizeCropBox` the crop box is within the frame, from any state. -/
theorem resizeCropBox_inFrame (s : State) (handle : HandleType) (x y : ℚ)
    (hh : s.resizeHandle = some handle) :
    InFrame (getCurrentFormat s) (resizeCropBox s x y).cropBox := by
  unfold resizeCropBox
  simp only [hh, InFrame]
  exact ⟨le_max_left _ _, le_max_left _ _, add_min_sub_le _ _ _, add_min_sub_le _ _ _⟩

/-- The drag clamp on one axis keeps the far edge inside exactly when the box is no
larger than the frame. -/
theorem drag_clamp_le_iff (a w W : ℚ) : max 0 (min a (W - w)) + w ≤ W ↔ w ≤ W := by
  constructor
  · intro h
    linarith [le_max_left 0 (min a (W - w))]
  · intro h
    have : max 0 (min a (W - w)) ≤ W - w := max_le (by linarith) (min_le_right _ _)
    linarith

/-- The crop-drag branch of pointer-move leaves the box in the frame exactly when the
box is no larger than the frame. -/
theorem drag_inFrame_iff (s : State) (img : Image) (x y : ℚ)
    (himg : s.uploadedImage = some img) (hres : s.isResizing = false)
    (hdrag : s.isDragging = true)
    (hin : isInsideCropBox s.cropBox (s.dragStart.x + s.cropBox.x)
      (s.dragStart.y + s.cropBox.y) = true)
    (hw : s.cropBox.width ≠ 0) (hh : s.cropBox.height ≠ 0) :
    InFrame (getCurrentFormat s) (handleCanvasMouseMove s x y).cropBox ↔
      (s.cropBox.width ≤ (getCurrentFormat s).pxWidth ∧
       s.cropBox.height ≤ (getCurrentFormat s).pxHeight) := by
  have hc : (handleCanvasMouseMove s x y).cropBox =
      ⟨max 0 (min (x - s.dragStart.x) ((getCurrentFormat s).pxWidth - s.cropBox.width)),
       max 0 (min (y - s.dragStart.y) ((getCurrentFormat s).pxHeight - s.cropBox.height)),
       s.cropBox.width, s.cropBox.height⟩ := by
    unfold handleCanvasMouseMove
    simp only [himg, hres, hdrag, hin]
    simp [showPreview, drawCropOverlay, hw, hh]
  rw [hc]
  simp only [InFrame, drag_clamp_le_iff]
  constructor
  · rintro ⟨_, _, a, b⟩
    exact ⟨a, b⟩
  · rintro ⟨a, b⟩
    exact ⟨le_max_left _ _, le_max_left _ _, a, b⟩

/-! ## Initial fit -/

/-- C6, as amended: a 1000 × 1500 image loaded into the NAPA format (300 × 300) gets
zoom 300/1000 = 3/10 and offset `(0, (300 - 1500 * 3/10) / 2) = (0, -75)`. -/
theorem fit_scenario_napa :
    getCurrentFormat initialState = formats.napa ∧
    formats.napa.pxWidth = 300 ∧ formats.napa.pxHeight = 300 ∧
    (loadImage initialState ⟨1000, 1500⟩).zoomLevel = 3 / 10 ∧
    (loadImage initialState ⟨1000, 1500⟩).imagePosition = ⟨0, -75⟩ := by
  have h : loadImage initialState ⟨1000, 1500⟩ = napaPortrait := rfl
  rw [h, napaPortrait_eq]
  exact ⟨rfl, rfl, rfl, rfl, rfl⟩

/-- C6 fails as stated: the offset after the fit is not `(0, 450)`. -/
theorem fit_scenario_offset_not_450 :
    ¬ ((loadImage initialState ⟨1000, 1500⟩).zoomLevel = 3 / 10 ∧
       (loadImage initialState ⟨1000, 1500⟩).imagePosition = ⟨0, 450⟩) := by
  have h : loadImage initialState ⟨1000, 1500⟩ = napaPortrait := rfl
  rw [h, napaPortrait_eq]
  simp
  norm_num

/-! ## Zoom bounds, in exact arithmetic -/

/-- The state after loading a 4000 × 6000 image into the NAPA format. -/
theorem largePortrait_eq : largePortrait =
    { uploadedImage := some ⟨4000, 6000⟩, currentFormat := FormatKey.napa, formats := formats,
      zoomLevel := 3 / 40, imagePosition := ⟨0, -75⟩, isDragging := false, dragStart := ⟨0, 0⟩,
      isResizing := false, resizeHandle := none, cropBox := ⟨30, 30, 240, 240⟩,
      canvasWidth := 300, canvasHeight := 300 } := by
  simp [largePortrait, loadImage, initialState, formats, getCurrentFormat, showPreview,
    drawCropOverlay]
  norm_num

/-- C7 fails as stated: the fit of a 4000 × 6000 image in the NAPA format sets the
zoom to 300/4000 = 0.075, below 0.1, and `zoomIn` then gives 0.09, not
`clamp(0.075 * 1.2, 0.1, 5.0) = 0.1`. -/
theorem fit_zoom_out_of_bounds :
    largePortrait.uploadedImage = some ⟨4000, 6000⟩ ∧
    largePortrait.zoomLevel = 3 / 40 ∧
    ¬ ZoomInBounds largePortrait ∧
    (zoomIn largePortrait).zoomLevel = 9 / 100 ∧
    (zoomIn largePortrait).zoomLevel ≠ clamp (largePortrait.zoomLevel * (12 / 10)) (1 / 10) 5 := by
  rw [largePortrait_eq]
  refine ⟨rfl, rfl, ?_, ?_, ?_⟩
  · simp [ZoomInBounds]; norm_num
  · simp [zoomIn]; norm_num
  · simp [zoomIn, clamp]; norm_num

/-- The wheel handler clamps on both sides, from any zoom. -/
theorem wheel_zoomLevel (s : State) (img : Image) (d x y : ℚ)
    (himg : s.uploadedImage = some img) :
    (handleCanvasWheel s d x y).zoomLevel = clamp (s.zoomLevel * wheelFactor d) (1 / 10) 5 := by
  simp only [handleCanvasWheel, himg, showPreview_zoomLevel, clamp, wheelFactor]

/-- The zoom-in button clamps from above only. -/
theorem zoomIn_zoomLevel (s : State) (img : Image) (himg : s.uploadedImage = some img) :
    (zoomIn s).zoomLevel = min 5 (s.zoomLevel * (12 / 10)) := by
  simp only [zoomIn, himg, showPreview_zoomLevel]

/-- The zoom-out button clamps from below only. -/
theorem zoomOut_zoomLevel (s : State) (img : Image) (himg : s.uploadedImage = some img) :
    (zoomOut s).zoomLevel = max (1 / 10) (s.zoomLevel * (8 / 10)) := by
  simp only [zoomOut, himg, showPreview_zoomLevel]

/-- A value clamped to `[0.1, 5.0]` lies in `[0.1, 5.0]`. -/
theorem clamp_bounds (v : ℚ) : 1 / 10 ≤ clamp v (1 / 10) 5 ∧ clamp v (1 / 10) 5 ≤ 5 :=
  ⟨le_max_left _ _, max_le (by norm_num) (min_le_left _ _)⟩

/-- From a zoom of at least 0.1 the one-sided clamp of `zoomIn` is the full clamp. -/
theorem zoomIn_eq_clamp (z : ℚ) (hz : 1 / 10 ≤ z) :
    min 5 (z * (12 / 10)) = clamp (z * (12 / 10)) (1 / 10) 5 := by
  unfold clamp
  rw [max_eq_right (le_min (by norm_num) (by linarith))]

/-- From a zoom of at most 5 the one-sided clamp of `zoomOut` is the full clamp. -/
theorem zoomOut_eq_clamp (z : ℚ) (hz : z ≤ 5) :
    max (1 / 10) (z * (8 / 10)) = clamp (z * (8 / 10)) (1 / 10) 5 := by
  unfold clamp
  rw [min_eq_right (by linarith)]

/-- The wheel handler keeps the image. -/
theorem wheel_uploadedImage (s : State) (d x y : ℚ) :
    (handleCanvasWheel s d x y).uploadedImage = s.uploadedImage := by
  unfold handleCanvasWheel; split <;> simp [*]

/-- The zoom-in button keeps the image. -/
theorem zoomIn_uploadedImage (s : State) : (zoomIn s).uploadedImage = s.uploadedImage := by
  unfold zoomIn; split <;> simp [*]

/-- The zoom-out button keeps the image. -/
theorem zoomOut_uploadedImage (s : State) : (zoomOut s).uploadedImage = s.uploadedImage := by
  unfold zoomOut; split <;> simp [*]

/-- One zoom event keeps the image and the zoom bounds. -/
theorem step_zoom_invariant (s : State) (img : Image) (e : Event) (he : e.isZoom = true)
    (himg : s.uploadedImage = some img) (hb : ZoomInBounds s) :
    (step s e).uploadedImage = some img ∧ ZoomInBounds (step s e) := by
  cases e <;> simp only [Event.isZoom] at he <;> try exact absurd he (by decide)
  · refine ⟨by simp only [step, wheel_uploadedImage, himg], ?_⟩
    simp only [step, ZoomInBounds, wheel_zoomLevel s img _ _ _ himg]
    exact clamp_bounds _
  · refine ⟨by simp only [step, zoomIn_uploadedImage, himg], ?_⟩
    simp only [step, ZoomInBounds, zoomIn_zoomLevel s img himg, zoomIn_eq_clamp _ hb.1]
    exact clamp_bounds _
  · refine ⟨by simp only [step, zoomOut_uploadedImage, himg], ?_⟩
    simp only [step, ZoomInBounds, zoomOut_zoomLevel s img himg, zoomOut_eq_clamp _ hb.2]
    exact clamp_bounds _

/-- Any sequence of zoom events keeps the image and the zoom bounds. -/
theorem run_zoom_invariant (events : List Event) :
    ∀ (s : State) (img : Image), events.all Event.isZoom = true →
      s.uploadedImage = some img → ZoomInBounds s →
      (run s events).uploadedImage = some img ∧ ZoomInBounds (run s events) := by
  induction events with
  | nil => intro s img _ himg hb; exact ⟨himg, hb⟩
  | cons e es ih =>
    intro s img hev himg hb
    simp only [List.all_cons, Bool.and_eq_true] at hev
    have h1 := step_zoom_invariant s img e hev.1 himg hb
    exact ih (step s e) img hev.2 h1.1 h1.2

/-! ## Custom format -/

/-- The state reached by `customActive`. -/
theorem customActive_eq : customActive = { initialState with currentFormat := FormatKey.custom } := by
  rfl

/-- When one of the values the script validates (the parsed input, or the default in
its place) is out of range, `updateCustomFormat` changes nothing. -/
theorem updateCustomFormat_rejects (s : State) (w h f : Option ℤ)
    (hbad : parseIntOr w 35 < 10 ∨ parseIntOr w 35 > 100 ∨
      parseIntOr h 45 < 10 ∨ parseIntOr h 45 > 150 ∨
      parseIntOr f 500 < 50 ∨ parseIntOr f 500 > 2000) :
    updateCustomFormat s w h f = s := by
  unfold updateCustomFormat
  dsimp only
  split_ifs with h1 h2 h3 h4
  · rfl
  · rfl
  · rfl
  · rfl
  · exfalso
    rcases hbad with h | h | h | h | h | h
    exacts [h2 (Or.inl h), h2 (Or.inr h), h3 (Or.inl h), h3 (Or.inr h), h4 (Or.inl h),
      h4 (Or.inr h)]

/-- C9, the failing input: width 0 is outside `[10, 100]`, yet with height 50 and file
size 500 the custom spec changes from 35 × 45 mm (413 × 531 px) to 35 × 50 mm
(413 × 590 px): the 0 is replaced by the default 35 before validation. -/
theorem zero_width_accepted :
    customActive.currentFormat = FormatKey.custom ∧
    customActive.formats.custom = ⟨"Custom Format", 35, 45, 413, 531, 500⟩ ∧
    (updateCustomFormat customActive (some 0) (some 50) (some 500)).formats.custom =
      ⟨"Custom Format", 35, 50, 413, 590, 500⟩ ∧
    (updateCustomFormat customActive (some 0) (some 50) (some 500)).formats.custom ≠
      customActive.formats.custom := by
  rw [customActive_eq]
  have hr1 : mathRound (35 * (118 / 10)) = 413 := by
    simp only [mathRound]; norm_num [Int.floor_eq_iff]
  have hr2 : mathRound (50 * (118 / 10)) = 590 := by
    simp only [mathRound]; norm_num [Int.floor_eq_iff]
  simp [updateCustomFormat, parseIntOr, initialState, formats, hr1, hr2]

/-- A non-zero parsed value is used as it is. -/
theorem parseIntOr_some (n d : ℤ) (hn : n ≠ 0) : parseIntOr (some n) d = n := by
  simp [parseIntOr, hn]

/-- For an integer number of millimetres, `mm * 11.8` is never half-way between two
integers: the rounded value is within less than 1/2 of it. -/
theorem mathRound_mm_near (n : ℤ) :
    |((mathRound (n * (118 / 10)) : ℤ) : ℚ) - n * (118 / 10)| < 1 / 2 := by
  unfold mathRound
  have h1 := Int.floor_le ((n : ℚ) * (118 / 10) + 1 / 2)
  have h2 := Int.lt_floor_add_one ((n : ℚ) * (118 / 10) + 1 / 2)
  have h3 : ((⌊(n : ℚ) * (118 / 10) + 1 / 2⌋ : ℤ) : ℚ) ≠ (n : ℚ) * (118 / 10) + 1 / 2 := by
    intro h
    have h4 : ((10 * ⌊(n : ℚ) * (118 / 10) + 1 / 2⌋ : ℤ) : ℚ) = ((118 * n + 5 : ℤ) : ℚ) := by
      push_cast
      rw [h]
      ring
    have h5 := Int.cast_injective h4
    omega
  rw [abs_lt]
  constructor
  · linarith
  · rcases lt_or_eq_of_le h1 with h | h
    · linarith
    · exact absurd h h3

/-- The custom spec after an accepted update. -/
theorem updateCustomFormat_custom (s : State) (width height fileSize : ℤ)
    (hc : s.currentFormat = FormatKey.custom)
    (hw : 10 ≤ width ∧ width ≤ 100) (hh : 10 ≤ height ∧ height ≤ 150)
    (hf : 50 ≤ fileSize ∧ fileSize ≤ 2000) :
    (updateCustomFormat s (some width) (some height) (some fileSize)).formats.custom =
      { name := s.formats.custom.name, mmWidth := width, mmHeight := height,
        pxWidth := mathRound (width * (118 / 10)),
        pxHeight := mathRound (height * (118 / 10)), maxFileSize := fileSize } := by
  unfold updateCustomFormat
  rw [parseIntOr_some _ _ (by omega), parseIntOr_some _ _ (by omega),
    parseIntOr_some _ _ (by omega)]
  simp only [hc, ne_eq, not_true_eq_false, if_false]
  rw [if_neg (by omega), if_neg (by omega), if_neg (by omega)]
  split <;> simp

/-- C10: with the custom format active and integer inputs in range,
`updateCustomFormat` sets `mmWidth`, `mmHeight` and `maxFileSize` to the inputs and
`pxWidth`, `pxHeight` to `round(mm * 11.8)`, the nearest integer without ties; for
width 40 and height 50 this is 472 and 590. -/
theorem updateCustomFormat_derives_px (s : State) (width height fileSize : ℤ)
    (hc : s.currentFormat = FormatKey.custom)
    (hw : 10 ≤ width ∧ width ≤ 100) (hh : 10 ≤ height ∧ height ≤ 150)
    (hf : 50 ≤ fileSize ∧ fileSize ≤ 2000) :
    (updateCustomFormat s (some width) (some height) (some fileSize)).formats.custom.mmWidth
      = width ∧
    (updateCustomFormat s (some width) (some height) (some fileSize)).formats.custom.mmHeight
      = height ∧
    (updateCustomFormat s (some width) (some height) (some fileSize)).formats.custom.pxWidth
      = mathRound (width * (118 / 10)) ∧
    (updateCustomFormat s (some width) (some height) (some fileSize)).formats.custom.pxHeight
      = mathRound (height * (118 / 10)) ∧
    (updateCustomFormat s (some width) (some height) (some fileSize)).formats.custom.maxFileSize
      = fileSize ∧
    |((mathRound (width * (118 / 10)) : ℤ) : ℚ) - width * (118 / 10)| < 1 / 2 ∧
    |((mathRound (height * (118 / 10)) : ℤ) : ℚ) - height * (118 / 10)| < 1 / 2 ∧
    (width = 40 → (updateCustomFormat s (some width) (some height)
      (some fileSize)).formats.custom.pxWidth = 472) ∧
    (height = 50 → (updateCustomFormat s (some width) (some height)
      (some fileSize)).formats.custom.pxHeight = 590) := by
  rw [updateCustomFormat_custom s width height fileSize hc hw hh hf]
  refine ⟨rfl, rfl, rfl, rfl, rfl, mathRound_mm_near _, mathRound_mm_near _, ?_, ?_⟩
  · rintro rfl
    simp only [mathRound]; norm_num [Int.floor_eq_iff]
  · rintro rfl
    simp only [mathRound]; norm_num [Int.floor_eq_iff]

/-- C10, at the scenario of the specification: 40 mm × 50 mm, 500 KB. -/
theorem updateCustomFormat_derives_px_witness :
    customActive.currentFormat = FormatKey.custom ∧
    ((10 : ℤ) ≤ 40 ∧ (40 : ℤ) ≤ 100) ∧ ((10 : ℤ) ≤ 50 ∧ (50 : ℤ) ≤ 150) ∧
    ((50 : ℤ) ≤ 500 ∧ (500 : ℤ) ≤ 2000) ∧
    (updateCustomFormat customActive (some 40) (some 50) (some 500)).formats.custom.mmWidth
      = 40 ∧
    (updateCustomFormat customActive (some 40) (some 50) (some 500)).formats.custom.mmHeight
      = 50 ∧
    (updateCustomFormat customActive (some 40) (some 50) (some 500)).formats.custom.pxWidth
      = 472 ∧
    (updateCustomFormat customActive (some 40) (some 50) (some 500)).formats.custom.pxHeight
      = 590 ∧
    (updateCustomFormat customActive (some 40) (some 50)
      (some 500)).formats.custom.maxFileSize = 500 :=
  have h := updateCustomFormat_derives_px customActive 40 50 500 rfl (by decide) (by decide)
    (by decide)
  ⟨rfl, by decide, by decide, by decide, by simpa using h.1, by simpa using h.2.1,
    h.2.2.2.2.2.2.2.1 rfl, h.2.2.2.2.2.2.2.2 rfl, by simpa using h.2.2.2.2.1⟩

/-! ## Image panning -/

/-- The state reached by `panTurnedCropDrag`. -/
theorem panTurnedCropDrag_eq : panTurnedCropDrag =
    { uploadedImage := some ⟨1000, 1500⟩, currentFormat := FormatKey.napa, formats := formats,
      zoomLevel := 3 / 10, imagePosition := ⟨0, -75⟩, isDragging := true, dragStart := ⟨10, 85⟩,
      isResizing := false, resizeHandle := none, cropBox := ⟨60, 0, 240, 240⟩,
      canvasWidth := 300, canvasHeight := 300 } := by
  have h : panTurnedCropDrag =
      handleCanvasMouseMove (handleCanvasMouseDown napaPortrait 10 10) 110 10 := rfl
  rw [h, napaPortrait_eq]
  simp [handleCanvasMouseDown, handleCanvasMouseMove, getResizeHandle,
    handles, handleSize, isInsideCropBox, formats, getCurrentFormat, showPreview,
    drawCropOverlay]
  norm_num

/-- A pointer-move of a drag for which the point `dragStart + cropBox origin` is
outside the crop box moves the image to `pointer - dragStart`, unclamped, and
leaves the crop box alone. -/
theorem handleCanvasMouseMove_image_drag (s : State) (img : Image) (x y : ℚ)
    (himg : s.uploadedImage = some img) (hres : s.isResizing = false)
    (hdrag : s.isDragging = true)
    (hout : isInsideCropBox s.cropBox (s.dragStart.x + s.cropBox.x)
      (s.dragStart.y + s.cropBox.y) = false)
    (hw : s.cropBox.width ≠ 0) (hh : s.cropBox.height ≠ 0) :
    (handleCanvasMouseMove s x y).imagePosition = ⟨x - s.dragStart.x, y - s.dragStart.y⟩ ∧
    (handleCanvasMouseMove s x y).cropBox = s.cropBox := by
  unfold handleCanvasMouseMove
  simp only [himg, hres, hdrag, hout]
  simp [showPreview, drawCropOverlay, hw, hh]

/-- A pointer-move of a drag for which the point `dragStart + cropBox origin` is
inside the crop box leaves the image where it is. -/
theorem handleCanvasMouseMove_crop_drag (s : State) (img : Image) (x y : ℚ)
    (himg : s.uploadedImage = some img) (hres : s.isResizing = false)
    (hdrag : s.isDragging = true)
    (hin : isInsideCropBox s.cropBox (s.dragStart.x + s.cropBox.x)
      (s.dragStart.y + s.cropBox.y) = true) :
    (handleCanvasMouseMove s x y).imagePosition = s.imagePosition := by
  unfold handleCanvasMouseMove
  simp only [himg, hres, hdrag, hin]
  simp

/-- C11, the failing run: the pointer goes down at `(10, 10)`, on no handle and
outside the crop box `(30, 30, 240, 240)`, and the offset `(10, 85)` from the image
origin `(0, -75)` is recorded; on the move to `(110, 10)` the image stays at
`(0, -75)` instead of going to `(100, -75)`, and the crop box is moved to
`(60, 0, 240, 240)`. -/
theorem pan_moves_crop_box :
    napaPortrait.uploadedImage = some ⟨1000, 1500⟩ ∧
    getResizeHandle napaPortrait.cropBox 10 10 = none ∧
    isInsideCropBox napaPortrait.cropBox 10 10 = false ∧
    (handleCanvasMouseDown napaPortrait 10 10).dragStart = ⟨10, 85⟩ ∧
    panTurnedCropDrag.imagePosition = napaPortrait.imagePosition ∧
    panTurnedCropDrag.imagePosition ≠ ⟨110 - 10, 10 - 85⟩ ∧
    napaPortrait.cropBox = ⟨30, 30, 240, 240⟩ ∧
    panTurnedCropDrag.cropBox = ⟨60, 0, 240, 240⟩ := by
  rw [panTurnedCropDrag_eq, napaPortrait_eq]
  refine ⟨rfl, ?_, ?_, ?_, rfl, ?_, rfl, rfl⟩
  · simp [getResizeHandle, handles, handleSize]; norm_num
  · simp [isInsideCropBox]; norm_num
  · simp [handleCanvasMouseDown, getResizeHandle, handles, handleSize, isInsideCropBox]
    norm_num
  · simp; norm_num

/-! ## The top-left handle -/

/-- The state reached by `resizingNw`. -/
theorem resizingNw_eq : resizingNw =
    { uploadedImage := some ⟨1000, 1500⟩, currentFormat := FormatKey.napa, formats := formats,
      zoomLevel := 3 / 10, imagePosition := ⟨0, -75⟩, isDragging := false, dragStart := ⟨0, 0⟩,
      isResizing := true, resizeHandle := some HandleType.nw, cropBox := ⟨30, 30, 240, 240⟩,
      canvasWidth := 300, canvasHeight := 300 } := by
  have h : resizingNw = handleCanvasMouseDown napaPortrait 30 30 := rfl
  rw [h, napaPortrait_eq]
  simp [handleCanvasMouseDown, getResizeHandle, handles, handleSize]
  norm_num

/-- An accepted resize with the top-left handle, for a crop box inside the frame and a
pointer with `x ≥ 0`: the left edge goes to the pointer, the right edge stays, the
height is derived from the width, and `y` is kept, or pushed up when the taller box
would leave the frame. -/
theorem resizeCropBox_nw_accepted (s : State) (x y : ℚ)
    (hh : s.resizeHandle = some HandleType.nw)
    (hW : 0 < (getCurrentFormat s).pxWidth) (hH : 0 < (getCurrentFormat s).pxHeight)
    (hin : InFrame (getCurrentFormat s) s.cropBox) (hx : 0 ≤ x)
    (hacc : s.cropBox.x + s.cropBox.width - x > 20 ∧
      (s.cropBox.x + s.cropBox.width - x) /
        ((getCurrentFormat s).pxWidth / (getCurrentFormat s).pxHeight) > 20) :
    (resizeCropBox s x y).cropBox =
      ⟨x, min s.cropBox.y ((getCurrentFormat s).pxHeight - (s.cropBox.x + s.cropBox.width - x) /
          ((getCurrentFormat s).pxWidth / (getCurrentFormat s).pxHeight)),
        s.cropBox.x + s.cropBox.width - x,
        (s.cropBox.x + s.cropBox.width - x) /
          ((getCurrentFormat s).pxWidth / (getCurrentFormat s).pxHeight)⟩ := by
  obtain ⟨h0x, h0y, hxw, hyh⟩ := hin
  unfold resizeCropBox
  simp only [hh, hacc, and_self, if_true]
  generalize hnw : s.cropBox.x + s.cropBox.width - x = nw at hacc ⊢
  generalize hnh : nw / ((getCurrentFormat s).pxWidth / (getCurrentFormat s).pxHeight) = nh
    at hacc ⊢
  have hnwW : nw ≤ (getCurrentFormat s).pxWidth - x := by rw [← hnw]; linarith
  have hnhH : nh ≤ (getCurrentFormat s).pxHeight := by
    rw [← hnh, div_le_iff₀ (div_pos hW hH)]
    have : (getCurrentFormat s).pxHeight *
        ((getCurrentFormat s).pxWidth / (getCurrentFormat s).pxHeight) =
        (getCurrentFormat s).pxWidth := by field_simp
    rw [this]; linarith
  have e1 : max 0 (min x ((getCurrentFormat s).pxWidth - nw)) = x := by
    rw [min_eq_left (by linarith), max_eq_right hx]
  have e2 : max 0 (min (s.cropBox.y + (nh - nh)) ((getCurrentFormat s).pxHeight - nh)) =
      min s.cropBox.y ((getCurrentFormat s).pxHeight - nh) := by
    rw [sub_self, add_zero, max_eq_right (le_min h0y (by linarith))]
  have e3 : min nw ((getCurrentFormat s).pxWidth - x) = nw := min_eq_left hnwW
  have e4 : min nh ((getCurrentFormat s).pxHeight -
      min s.cropBox.y ((getCurrentFormat s).pxHeight - nh)) = nh :=
    min_eq_left (by linarith [min_le_right s.cropBox.y ((getCurrentFormat s).pxHeight - nh)])
  rw [e1, e2, e3, e4]

/-- C12, the failing input: the crop box `(30, 30, 240, 240)` in the NAPA format,
resized with the top-left handle to the pointer `(130, 130)`, becomes
`(130, 30, 140, 140)`: x, width, height and the right edge are as claimed, but the
bottom edge moves from 270 to 170. -/
theorem nw_resize_moves_bottom_edge :
    resizingNw.resizeHandle = some HandleType.nw ∧
    resizingNw.cropBox = ⟨30, 30, 240, 240⟩ ∧
    (resizeCropBox resizingNw 130 130).cropBox = ⟨130, 30, 140, 140⟩ ∧
    (resizeCropBox resizingNw 130 130).cropBox.y + (resizeCropBox resizingNw 130 130).cropBox.height
      ≠ resizingNw.cropBox.y + resizingNw.cropBox.height := by
  have h : (resizeCropBox resizingNw 130 130).cropBox = ⟨130, 30, 140, 140⟩ := by
    rw [resizingNw_eq]
    simp [resizeCropBox, getCurrentFormat, formats]
    norm_num
  rw [h, resizingNw_eq]
  refine ⟨rfl, rfl, rfl, ?_⟩
  norm_num

/-! ## Lazy initialisation of the crop box -/

/-- The state reached by `formatChanged`. -/
theorem formatChanged_eq : formatChanged =
    { uploadedImage := some ⟨1000, 1500⟩, currentFormat := FormatKey.heslb, formats := formats,
      zoomLevel := 3 / 10, imagePosition := ⟨0, -75⟩, isDragging := false, dragStart := ⟨0, 0⟩,
      isResizing := false, resizeHandle := none, cropBox := ⟨30, 30, 240, 240⟩,
      canvasWidth := 120, canvasHeight := 150 } := by
  have h : formatChanged = handleFormatChange napaPortrait FormatKey.heslb := rfl
  rw [h, napaPortrait_eq]
  simp [handleFormatChange, formats, getCurrentFormat, showPreview, drawCropOverlay]

/-- The script takes the minimum of the scaled sides, the specification scales the
minimum: the same number. -/
theorem min_mul_eight_tenths (W H : ℚ) :
    min (W * (8 / 10)) (H * (8 / 10)) = (8 / 10) * min W H := by
  rw [mul_comm W, mul_comm H, mul_min_of_nonneg _ _ (by norm_num : (0 : ℚ) ≤ 8 / 10)]

/-- Drawing the overlay over an uninitialised crop box sets it to the default box. -/
theorem drawCropOverlay_of_zero (s : State) (f : Format)
    (h0 : s.cropBox.width = 0 ∨ s.cropBox.height = 0) :
    (drawCropOverlay s f).cropBox = defaultCropBox f := by
  unfold drawCropOverlay defaultCropBox
  simp only [h0, if_true, min_mul_eight_tenths]

/-- Drawing the overlay over an initialised crop box changes nothing. -/
theorem drawCropOverlay_of_ne_zero (s : State) (f : Format)
    (hw : s.cropBox.width ≠ 0) (hh : s.cropBox.height ≠ 0) :
    drawCropOverlay s f = s := by
  unfold drawCropOverlay
  simp [hw, hh]

/-- Drawing the overlay keeps an initialised crop box. -/
theorem drawCropOverlay_cropBox_of_ne_zero (s : State) (f : Format)
    (hw : s.cropBox.width ≠ 0) (hh : s.cropBox.height ≠ 0) :
    (drawCropOverlay s f).cropBox = s.cropBox := by
  rw [drawCropOverlay_of_ne_zero s f hw hh]

/-- A render keeps an initialised crop box. -/
theorem showPreview_cropBox_of_ne_zero (s : State)
    (hw : s.cropBox.width ≠ 0) (hh : s.cropBox.height ≠ 0) :
    (showPreview s).cropBox = s.cropBox := by
  unfold showPreview
  dsimp only
  split
  · exact drawCropOverlay_cropBox_of_ne_zero _ _ hw hh
  · rfl

/-- The render at the end of an image load leaves the default box of the active
format. -/
theorem loadImage_cropBox (s : State) (img : Image) :
    (loadImage s img).cropBox = defaultCropBox (getCurrentFormat s) := by
  unfold loadImage showPreview
  dsimp only
  split_ifs <;> exact drawCropOverlay_of_zero _ _ (Or.inl rfl)

/-- A format change with an image loaded keeps an initialised crop box as it is,
whatever the new format. -/
theorem handleFormatChange_cropBox (s : State) (img : Image) (value : FormatKey)
    (himg : s.uploadedImage = some img)
    (hw : s.cropBox.width ≠ 0) (hh : s.cropBox.height ≠ 0) :
    (handleFormatChange s value).cropBox = s.cropBox := by
  unfold handleFormatChange
  simp only [himg]
  exact showPreview_cropBox_of_ne_zero _ hw hh

/-- The default box of a format of positive pixel size lies within its frame. -/
theorem defaultCropBox_inFrame (f : Format) (hW : 0 < f.pxWidth) (hH : 0 < f.pxHeight) :
    InFrame f (defaultCropBox f) := by
  unfold InFrame defaultCropBox
  dsimp only
  have hm1 : min f.pxWidth f.pxHeight ≤ f.pxWidth := min_le_left _ _
  have hm2 : min f.pxWidth f.pxHeight ≤ f.pxHeight := min_le_right _ _
  have hm0 : 0 < min f.pxWidth f.pxHeight := lt_min hW hH
  have hh : 8 / 10 * min f.pxWidth f.pxHeight / (f.pxWidth / f.pxHeight) ≤
      8 / 10 * f.pxHeight := by
    rw [div_le_iff₀ (div_pos hW hH)]
    have : 8 / 10 * f.pxHeight * (f.pxWidth / f.pxHeight) = 8 / 10 * f.pxWidth := by
      field_simp
      ring
    rw [this]
    linarith
  have hh0 : 0 ≤ 8 / 10 * min f.pxWidth f.pxHeight / (f.pxWidth / f.pxHeight) :=
    div_nonneg (by linarith) (div_pos hW hH).le
  refine ⟨by linarith, by linarith, by linarith, by linarith⟩

/-- C13, the failing run: after the image load the crop box is the default box of NAPA,
`(30, 30, 240, 240)`; the render after the change to HESLB (120 × 150) keeps it,
although the default box of HESLB is `(12, 15, 96, 120)`, and the kept box is not
within the HESLB frame. -/
theorem format_change_keeps_crop_box :
    getCurrentFormat formatChanged = formats.heslb ∧
    formatChanged.cropBox = ⟨30, 30, 240, 240⟩ ∧
    defaultCropBox (getCurrentFormat formatChanged) = ⟨12, 15, 96, 120⟩ ∧
    formatChanged.cropBox ≠ defaultCropBox (getCurrentFormat formatChanged) ∧
    ¬ InFrame (getCurrentFormat formatChanged) formatChanged.cropBox := by
  have hd : defaultCropBox formats.heslb = ⟨12, 15, 96, 120⟩ := by
    simp [defaultCropBox, formats]; norm_num
  have hf : getCurrentFormat formatChanged = formats.heslb := by
    rw [formatChanged_eq]; rfl
  rw [hf, hd, formatChanged_eq]
  refine ⟨rfl, rfl, rfl, ?_, ?_⟩
  · simp
  · simp [InFrame, formats]; norm_num

/-! ## Binary64: rounding error -/

/-- With enough fuel `bitLength n` is the number of binary digits of `n`. -/
theorem bitLength_spec (fuel : ℕ) : ∀ n : ℕ, n ≤ fuel → n ≠ 0 →
    1 ≤ bitLength fuel n ∧ 2 ^ (bitLength fuel n - 1) ≤ n ∧ n < 2 ^ bitLength fuel n := by
  induction fuel with
  | zero => intro n h0 hn; omega
  | succ k ih =>
    intro n hk hn
    simp only [bitLength, hn, if_false, Nat.add_sub_cancel]
    refine ⟨by omega, ?_⟩
    by_cases h2 : n / 2 = 0
    · have h1 : n = 1 := by omega
      subst h1
      cases k <;> simp [bitLength]
    · obtain ⟨hpos, ha, hb⟩ := ih (n / 2) (by omega) h2
      constructor
      · have : 2 ^ bitLength k (n / 2) = 2 * 2 ^ (bitLength k (n / 2) - 1) := by
          rw [← pow_succ']
          congr 1
          omega
        rw [this]
        omega
      · rw [pow_succ]
        omega

/-- The magnitude of a rational, as a quotient of naturals. -/
theorem abs_eq_natAbs_div (q : ℚ) : |q| = (q.num.natAbs : ℚ) / (q.den : ℚ) := by
  conv_lhs => rw [← Rat.num_div_den q]
  rw [abs_div, Nat.abs_cast, Nat.cast_natAbs, Int.cast_abs]

/-- The lower bound of `floorLog2`: `2 ^ floorLog2 q ≤ |q|`. -/
theorem floorLog2_le (q : ℚ) (hq : q ≠ 0) : (2 : ℚ) ^ floorLog2 q ≤ |q| := by
  unfold floorLog2
  dsimp only
  split_ifs with h
  · exact h
  · have hn : q.num.natAbs ≠ 0 := by
      simpa using (Rat.num_ne_zero.2 hq)
    obtain ⟨ha1, ha, _⟩ := bitLength_spec _ q.num.natAbs le_rfl hn
    obtain ⟨_, _, hb⟩ := bitLength_spec _ q.den le_rfl q.den_ne_zero
    rw [abs_eq_natAbs_div]
    generalize bitLength q.num.natAbs q.num.natAbs = a at ha1 ha
    generalize bitLength q.den q.den = b at hb
    have hD : (0 : ℚ) < q.den := by exact_mod_cast q.den_pos
    have e1 : (2 : ℚ) ^ ((a : ℤ) - (b : ℤ) - 1) = (2 : ℚ) ^ (a - 1) / 2 ^ b := by
      have : (a : ℤ) - (b : ℤ) - 1 = ((a - 1 : ℕ) : ℤ) - (b : ℤ) := by omega
      rw [this, zpow_sub₀ (by norm_num : (2 : ℚ) ≠ 0), zpow_natCast, zpow_natCast]
    rw [e1, div_le_div_iff₀ (by positivity) hD]
    have h1 : ((2 ^ (a - 1) : ℕ) : ℚ) ≤ (q.num.natAbs : ℚ) := by exact_mod_cast ha
    have h2 : ((q.den : ℕ) : ℚ) ≤ ((2 ^ b : ℕ) : ℚ) := by exact_mod_cast hb.le
    push_cast at h1 h2
    calc (2 : ℚ) ^ (a - 1) * q.den ≤ q.num.natAbs * q.den :=
          mul_le_mul_of_nonneg_right h1 hD.le
      _ ≤ q.num.natAbs * 2 ^ b := mul_le_mul_of_nonneg_left h2 (by positivity)

/-- The upper bound of `floorLog2`: `|q| < 2 ^ (floorLog2 q + 1)`. -/
theorem lt_floorLog2_succ (q : ℚ) (hq : q ≠ 0) : |q| < (2 : ℚ) ^ (floorLog2 q + 1) := by
  unfold floorLog2
  dsimp only
  have hn : q.num.natAbs ≠ 0 := by
    simpa using (Rat.num_ne_zero.2 hq)
  obtain ⟨_, _, ha⟩ := bitLength_spec _ q.num.natAbs le_rfl hn
  obtain ⟨hb1, hb, _⟩ := bitLength_spec _ q.den le_rfl q.den_ne_zero
  split_ifs with h
  · rw [abs_eq_natAbs_div]
    generalize bitLength q.num.natAbs q.num.natAbs = a at ha
    generalize bitLength q.den q.den = b at hb1 hb
    have hD : (0 : ℚ) < q.den := by exact_mod_cast q.den_pos
    have e1 : (2 : ℚ) ^ ((a : ℤ) - (b : ℤ) + 1) = (2 : ℚ) ^ a / 2 ^ (b - 1) := by
      have : (a : ℤ) - (b : ℤ) + 1 = (a : ℤ) - ((b - 1 : ℕ) : ℤ) := by omega
      rw [this, zpow_sub₀ (by norm_num : (2 : ℚ) ≠ 0), zpow_natCast, zpow_natCast]
    rw [e1, div_lt_div_iff₀ hD (by positivity)]
    have h1 : ((q.num.natAbs : ℕ) : ℚ) < ((2 ^ a : ℕ) : ℚ) := by exact_mod_cast ha
    have h2 : ((2 ^ (b - 1) : ℕ) : ℚ) ≤ ((q.den : ℕ) : ℚ) := by exact_mod_cast hb
    push_cast at h1 h2
    calc (q.num.natAbs : ℚ) * 2 ^ (b - 1) ≤ q.num.natAbs * q.den :=
          mul_le_mul_of_nonneg_left h2 (by positivity)
      _ < 2 ^ a * q.den := mul_lt_mul_of_pos_right h1 hD
  · rw [sub_add_cancel]
    exact not_le.1 h

/-- The spacing around `q` is at most `|q| / 2 ^ 52`, or the subnormal spacing. -/
theorem two_zpow_ulpExp_le (q : ℚ) (hq0 : q ≠ 0) :
    (2 : ℚ) ^ ulpExp q ≤ |q| / 2 ^ 52 + 2 ^ (-1074 : ℤ) := by
  unfold ulpExp
  rcases le_total (floorLog2 q - 52) (-1074) with h | h
  · rw [max_eq_right h]
    have : (0 : ℚ) ≤ |q| / 2 ^ 52 := by positivity
    linarith
  · rw [max_eq_left h]
    have hl := floorLog2_le q hq0
    have h3 : (2 : ℚ) ^ (floorLog2 q - 52) = (2 : ℚ) ^ floorLog2 q / 2 ^ 52 := by
      rw [zpow_sub₀ (by norm_num : (2 : ℚ) ≠ 0)]
      norm_num
    rw [h3]
    have : (2 : ℚ) ^ floorLog2 q / 2 ^ 52 ≤ |q| / 2 ^ 52 :=
      div_le_div_of_nonneg_right hl (by positivity)
    have : (0 : ℚ) < 2 ^ (-1074 : ℤ) := by positivity
    linarith

/-- Rounding to an integer moves a number by at most one half. -/
theorem roundHalfEven_err (t : ℚ) : |(roundHalfEven t : ℚ) - t| ≤ 1 / 2 := by
  have h1 := Int.floor_le t
  have h2 := Int.lt_floor_add_one t
  unfold roundHalfEven
  dsimp only
  rw [abs_le]
  split_ifs <;> push_cast <;> constructor <;> linarith

/-- Zero is a binary64 number. -/
theorem fl_zero : fl 0 = 0 := by
  simp [fl, roundHalfEven]

/-- The rounding error of binary64: at most `|q| / 2 ^ 53`, or half the subnormal
spacing. -/
theorem fl_err (q : ℚ) : |fl q - q| ≤ |q| / 2 ^ 53 + 2 ^ (-1075 : ℤ) := by
  by_cases hq0 : q = 0
  · rw [hq0, fl_zero]
    simp
    positivity
  have hpos : (0 : ℚ) < 2 ^ ulpExp q := by positivity
  have h := roundHalfEven_err (q / 2 ^ ulpExp q)
  have h2 : fl q - q =
      ((roundHalfEven (q / 2 ^ ulpExp q) : ℚ) - q / 2 ^ ulpExp q) * 2 ^ ulpExp q := by
    unfold fl
    field_simp
  rw [h2, abs_mul, abs_of_pos hpos]
  have h3 := two_zpow_ulpExp_le q hq0
  have h4 : (2 : ℚ) ^ (-1075 : ℤ) = 2 ^ (-1074 : ℤ) / 2 := by
    rw [show (-1075 : ℤ) = -1074 - 1 by norm_num, zpow_sub₀ (by norm_num : (2 : ℚ) ≠ 0)]
    norm_num
  rw [h4]
  calc |(roundHalfEven (q / 2 ^ ulpExp q) : ℚ) - q / 2 ^ ulpExp q| * 2 ^ ulpExp q
      ≤ 1 / 2 * 2 ^ ulpExp q := mul_le_mul_of_nonneg_right h hpos.le
    _ ≤ 1 / 2 * (|q| / 2 ^ 52 + 2 ^ (-1074 : ℤ)) :=
        mul_le_mul_of_nonneg_left h3 (by norm_num)
    _ = |q| / 2 ^ 53 + 2 ^ (-1074 : ℤ) / 2 := by ring

/-- Rounding to an integer keeps a number non-negative. -/
theorem roundHalfEven_nonneg (t : ℚ) (ht : 0 ≤ t) : 0 ≤ roundHalfEven t := by
  have h0 : 0 ≤ ⌊t⌋ := Int.floor_nonneg.2 ht
  unfold roundHalfEven
  dsimp only
  split_ifs <;> omega

/-- Rounding to binary64 keeps a number non-negative. -/
theorem fl_nonneg (q : ℚ) (hq : 0 ≤ q) : 0 ≤ fl q := by
  unfold fl
  have h1 : 0 ≤ q / 2 ^ ulpExp q := div_nonneg hq (by positivity)
  have h2 := roundHalfEven_nonneg _ h1
  have h3 : (0 : ℚ) ≤ (roundHalfEven (q / 2 ^ ulpExp q) : ℚ) := by exact_mod_cast h2
  exact mul_nonneg h3 (by positivity)

/-- The spacing constant: half a unit in the last place, relative. -/
theorem fl_sub_le (q : ℚ) : fl q - q ≤ |q| / 2 ^ 53 + 2 ^ (-1075 : ℤ) :=
  (le_abs_self _).trans (fl_err q)

/-- The rounding error of binary64, downward. -/
theorem sub_fl_le (q : ℚ) : q - fl q ≤ |q| / 2 ^ 53 + 2 ^ (-1075 : ℤ) := by
  have := fl_err q
  rw [abs_sub_comm] at this
  exact (le_abs_self _).trans this

/-- Half the subnormal spacing is positive. -/
theorem tiny_pos : (0 : ℚ) < 2 ^ (-1075 : ℤ) := by positivity

/-- In binary64, `drawCropOverlay` changes the crop box only. -/
theorem b64_drawCropOverlay_view (s : State) (f : Format) :
    (Binary64.drawCropOverlay s f).zoomLevel = s.zoomLevel ∧
    (Binary64.drawCropOverlay s f).imagePosition = s.imagePosition ∧
    (Binary64.drawCropOverlay s f).uploadedImage = s.uploadedImage ∧
    (Binary64.drawCropOverlay s f).currentFormat = s.currentFormat ∧
    (Binary64.drawCropOverlay s f).formats = s.formats := by
  unfold Binary64.drawCropOverlay
  split <;> exact ⟨rfl, rfl, rfl, rfl, rfl⟩

/-- In binary64, `showPreview` leaves zoom, offset, image and formats alone. -/
theorem b64_showPreview_view (s : State) :
    (Binary64.showPreview s).zoomLevel = s.zoomLevel ∧
    (Binary64.showPreview s).imagePosition = s.imagePosition ∧
    (Binary64.showPreview s).uploadedImage = s.uploadedImage ∧
    (Binary64.showPreview s).currentFormat = s.currentFormat ∧
    (Binary64.showPreview s).formats = s.formats := by
  unfold Binary64.showPreview
  dsimp only
  split
  · exact b64_drawCropOverlay_view _ _
  · exact ⟨rfl, rfl, rfl, rfl, rfl⟩

/-- The product of two approximations. -/
theorem abs_mul_sub_mul_le (a b a1 b1 : ℚ) :
    |a1 * b1 - a * b| ≤ |a1| * |b1 - b| + |b| * |a1 - a| := by
  have e : a1 * b1 - a * b = a1 * (b1 - b) + b * (a1 - a) := by ring
  rw [e]
  refine (abs_add _ _).trans ?_
  rw [abs_mul, abs_mul]

/-- A magnitude against a nearby one. -/
theorem abs_le_add_abs_sub (a a1 : ℚ) : |a1| ≤ |a| + |a1 - a| := by
  have := abs_add a (a1 - a)
  simpa using this

/-- Three terms, two of them negated. -/
theorem abs_add_neg_neg_le (a b c : ℚ) : |a + (-b + -c)| ≤ |a| + (|b| + |c|) := by
  refine (abs_add _ _).trans (add_le_add le_rfl ?_)
  refine (abs_add _ _).trans ?_
  rw [abs_neg, abs_neg]

/-- Error propagation through `fl (p - fl (d1 * r1))`, in numbers. -/
theorem pivot_arith (P D r η δo δm δp δd δr D1 R1 W : ℚ)
    (hr0 : 0 ≤ r) (hr : r ≤ 2 ^ 104) (hD : 0 ≤ D) (hd : D ≤ 2 ^ 101) (hP : 0 ≤ P)
    (hη0 : 0 < η) (hη1 : η ≤ 1)
    (hD10 : 0 ≤ D1)
    (hδd : δd ≤ D / 2 ^ 53 + η) (hδr : δr ≤ r / 2 ^ 53 + η)
    (hD1 : D1 ≤ D + δd) (hR1 : R1 ≤ r + δr)
    (hδm : δm ≤ D1 * R1 / 2 ^ 53 + η) (hδp : δp ≤ D1 * δr + r * δd)
    (hW : W ≤ P + (D1 * R1 + δm)) (hδo : δo ≤ W / 2 ^ 53 + η) :
    δo + (δp + δm) ≤ (P + r * D) / 2 ^ 50 + 2 ^ 115 * η := by
  have hX : 0 ≤ r * D := mul_nonneg hr0 hD
  have s1 : D1 ≤ D * (1 + 1 / 2 ^ 53) + η := by linarith
  have s1b : D1 ≤ 2 ^ 102 := by
    have : D * (1 + 1 / 2 ^ 53) ≤ 2 ^ 101 * (1 + 1 / 2 ^ 53) :=
      mul_le_mul_of_nonneg_right hd (by norm_num)
    norm_num at this ⊢
    linarith
  have s2 : R1 ≤ r * (1 + 1 / 2 ^ 53) + η := by linarith
  have hD1r : D1 * r ≤ r * D * (1 + 1 / 2 ^ 53) + η * r := by
    have := mul_le_mul_of_nonneg_right s1 hr0
    linarith
  have hηr : η * r ≤ η * 2 ^ 104 := mul_le_mul_of_nonneg_left hr hη0.le
  have hηD1 : η * D1 ≤ η * 2 ^ 102 := mul_le_mul_of_nonneg_left s1b hη0.le
  have s3 : D1 * δr ≤ r * D * (1 + 1 / 2 ^ 53) / 2 ^ 53 + η * 2 ^ 103 := by
    have h := mul_le_mul_of_nonneg_left hδr hD10
    have e : D1 * (r / 2 ^ 53 + η) = D1 * r / 2 ^ 53 + η * D1 := by ring
    rw [e] at h
    have : D1 * r / 2 ^ 53 ≤ (r * D * (1 + 1 / 2 ^ 53) + η * r) / 2 ^ 53 :=
      div_le_div_of_nonneg_right hD1r (by positivity)
    norm_num at this hηr hηD1 h ⊢
    linarith
  have s4 : r * δd ≤ r * D / 2 ^ 53 + η * 2 ^ 104 := by
    have h := mul_le_mul_of_nonneg_left hδd hr0
    have e : r * (D / 2 ^ 53 + η) = r * D / 2 ^ 53 + η * r := by ring
    rw [e] at h
    linarith
  have s5 : D1 * R1 ≤ r * D * (1 + 1 / 2 ^ 53) ^ 2 + η * 2 ^ 106 := by
    have h := mul_le_mul_of_nonneg_left s2 hD10
    have e : D1 * (r * (1 + 1 / 2 ^ 53) + η) = D1 * r * (1 + 1 / 2 ^ 53) + η * D1 := by ring
    rw [e] at h
    have : D1 * r * (1 + 1 / 2 ^ 53) ≤
        (r * D * (1 + 1 / 2 ^ 53) + η * r) * (1 + 1 / 2 ^ 53) :=
      mul_le_mul_of_nonneg_right hD1r (by norm_num)
    norm_num at this hηr hηD1 h ⊢
    linarith
  norm_num at s3 s4 s5 hδm hW hδo hδp ⊢
  linarith

/-- Zoom toward a pivot in binary64: the offset `fl (p - fl (fl (p - o) * fl r))` keeps
the image point under the pivot in place up to rounding. -/
theorem pivot_rounding (p o r : ℚ) (hr0 : 0 ≤ r) (hr : r ≤ 2 ^ 104)
    (hd : |p - o| ≤ 2 ^ 101) :
    |fl (p - fl (fl (p - o) * fl r)) + r * (p - o) - p| ≤
      (|p| + r * |p - o|) / 2 ^ 50 + 2 ^ (-960 : ℤ) := by
  have hδd := fl_err (p - o)
  have hδr := fl_err r
  have hδm := fl_err (fl (p - o) * fl r)
  have hδo := fl_err (p - fl (fl (p - o) * fl r))
  rw [abs_of_nonneg hr0] at hδr
  have hD1 := abs_le_add_abs_sub (p - o) (fl (p - o))
  have hR1 := abs_le_add_abs_sub r (fl r)
  rw [abs_of_nonneg hr0] at hR1
  have hprod := abs_mul_sub_mul_le (p - o) r (fl (p - o)) (fl r)
  rw [abs_of_nonneg hr0] at hprod
  rw [abs_mul] at hδm
  have hW : |p - fl (fl (p - o) * fl r)| ≤
      |p| + (|fl (p - o)| * |fl r| + |fl (fl (p - o) * fl r) - fl (p - o) * fl r|) := by
    have e : p - fl (fl (p - o) * fl r) =
        p + (-(fl (p - o) * fl r) + -(fl (fl (p - o) * fl r) - fl (p - o) * fl r)) := by ring
    rw [e, ← abs_mul]
    exact abs_add_neg_neg_le _ _ _
  have hE : |fl (p - fl (fl (p - o) * fl r)) + r * (p - o) - p| ≤
      |fl (p - fl (fl (p - o) * fl r)) - (p - fl (fl (p - o) * fl r))| +
        (|fl (p - o) * fl r - (p - o) * r| +
          |fl (fl (p - o) * fl r) - fl (p - o) * fl r|) := by
    have e : fl (p - fl (fl (p - o) * fl r)) + r * (p - o) - p =
        (fl (p - fl (fl (p - o) * fl r)) - (p - fl (fl (p - o) * fl r))) +
          (-(fl (p - o) * fl r - (p - o) * r) +
            -(fl (fl (p - o) * fl r) - fl (p - o) * fl r)) := by ring
    rw [e]
    exact abs_add_neg_neg_le _ _ _
  refine hE.trans ?_
  have hη : (2 : ℚ) ^ (-960 : ℤ) = 2 ^ 115 * 2 ^ (-1075 : ℤ) := by
    rw [show (-960 : ℤ) = 115 + -1075 by norm_num, zpow_add₀ (by norm_num : (2 : ℚ) ≠ 0)]
    norm_num
  rw [hη]
  exact pivot_arith |p| |p - o| r (2 ^ (-1075 : ℤ)) _ _ _ _ _ |fl (p - o)| |fl r| _
    hr0 hr (abs_nonneg _) hd (abs_nonneg _) (by positivity)
    (zpow_le_one_of_nonpos₀ (by norm_num) (by norm_num)) (abs_nonneg _)
    hδd hδr hD1 hR1 hδm hprod hW hδo

/-! ## Zoom toward a pivot -/

/-- One axis of a zoom step in binary64. -/
theorem pivot_step (z z' p o : ℚ) (hz0 : 0 < z) (hz' : 0 ≤ z') (hr : z' / z ≤ 2 ^ 104)
    (hd : |p - o| ≤ 2 ^ 101) :
    |fl (p - fl (fl (p - o) * fl (z' / z))) + z' * ((p - o) / z) - p| ≤
      (|p| + z' / z * |p - o|) / 2 ^ 50 + 2 ^ (-960 : ℤ) := by
  have h := pivot_rounding p o (z' / z) (div_nonneg hz' hz0.le) hr hd
  have e : z' * ((p - o) / z) = z' / z * (p - o) := by
    field_simp
  rw [e]
  exact h

/-- The distance of two coordinates of magnitude at most `2 ^ 100`. -/
theorem abs_sub_le_of_abs_le (p o : ℚ) (hp : |p| ≤ 2 ^ 100) (ho : |o| ≤ 2 ^ 100) :
    |p - o| ≤ 2 ^ 101 := by
  have := abs_sub p o
  norm_num at hp ho this ⊢
  linarith

/-- The ratio of a new zoom of at most 5 to a zoom of at least `2 ^ (-100)`. -/
theorem ratio_le_of_le_five (z z' : ℚ) (hz : 2 ^ (-100 : ℤ) ≤ z) (hz' : z' ≤ 5) :
    z' / z ≤ 2 ^ 104 := by
  have hz0 : (0 : ℚ) < z := lt_of_lt_of_le (by positivity) hz
  rw [div_le_iff₀ hz0]
  have h1 : (2 : ℚ) ^ 104 * 2 ^ (-100 : ℤ) ≤ 2 ^ 104 * z :=
    mul_le_mul_of_nonneg_left hz (by positivity)
  have h2 : (2 : ℚ) ^ 104 * 2 ^ (-100 : ℤ) = 16 := by
    rw [← zpow_natCast, ← zpow_add₀ (by norm_num : (2 : ℚ) ≠ 0)]
    norm_num
  linarith

/-- The decimal literals of the zoom handlers, as binary64 numbers. -/
theorem fl_literals : fl (1 / 10) = 3602879701896397 / 2 ^ 55 ∧
    fl (8 / 10) = 3602879701896397 / 2 ^ 52 ∧ fl (9 / 10) = 8106479329266893 / 2 ^ 53 ∧
    fl (11 / 10) = 2476979795053773 / 2 ^ 51 ∧ fl (12 / 10) = 5404319552844595 / 2 ^ 52 := by
  decide!

/-- Half of a size of magnitude at most `2 ^ 100`, rounded. -/
theorem abs_fl_half_le (w : ℚ) (hw : |w| ≤ 2 ^ 100) : |fl (w / 2)| ≤ 2 ^ 100 := by
  have h1 := abs_le_add_abs_sub (w / 2) (fl (w / 2))
  have h2 := fl_err (w / 2)
  have h3 : |w / 2| = |w| / 2 := by rw [abs_div]; norm_num
  have hη : (2 : ℚ) ^ (-1075 : ℤ) ≤ 1 := zpow_le_one_of_nonpos₀ (by norm_num) (by norm_num)
  rw [h3] at h1 h2
  norm_num at hw h1 h2 ⊢
  linarith

/-- The ratio of a new zoom of at most `z + 5` to a zoom `z` of at least `2 ^ (-100)`. -/
theorem ratio_le (z z' : ℚ) (hz : 2 ^ (-100 : ℤ) ≤ z) (hz' : z' ≤ z + 5) :
    z' / z ≤ 2 ^ 104 := by
  have hz0 : (0 : ℚ) < z := lt_of_lt_of_le (by positivity) hz
  rw [div_le_iff₀ hz0]
  have h1 : (2 : ℚ) ^ 103 * 2 ^ (-100 : ℤ) ≤ 2 ^ 103 * z :=
    mul_le_mul_of_nonneg_left hz (by positivity)
  have h2 : (2 : ℚ) ^ 103 * 2 ^ (-100 : ℤ) = 8 := by
    rw [← zpow_natCast, ← zpow_add₀ (by norm_num : (2 : ℚ) ≠ 0)]
    norm_num
  norm_num at h1 h2 ⊢
  linarith

/-- The zoom-out product stays below the old zoom plus one. -/
theorem fl_mul_eight_tenths_le (z : ℚ) (hz0 : 0 ≤ z) : fl (z * fl (8 / 10)) ≤ z + 1 := by
  have h := fl_sub_le (z * fl (8 / 10))
  rw [fl_literals.2.1] at h ⊢
  rw [abs_of_nonneg (by positivity)] at h
  have hη : (2 : ℚ) ^ (-1075 : ℤ) ≤ 1 := zpow_le_one_of_nonpos₀ (by norm_num) (by norm_num)
  norm_num at h ⊢
  linarith

/-- C1, as amended: in binary64, for every state with a loaded image whose zoom lies in
`[2 ^ (-100), 2 ^ 100]` and whose offset, canvas size and pivot have magnitude at most
`2 ^ 100`, the image point under the pivot (the mouse position for the wheel, the
rounded canvas centre for `zoomIn` and `zoomOut`) is mapped back to the pivot up to
rounding: `|offset' + zoom' * ((p - offset) / zoom) - p|` is at most
`(|p| + (zoom' / zoom) * |p - offset|) / 2 ^ 50 + 2 ^ (-960)` on both axes, also when
the new zoom was clamped. -/
theorem zoom_toward_pivot_rounding (s : State) (img : Image) (deltaY mouseX mouseY : ℚ)
    (himg : s.uploadedImage = some img) (hs : ViewInRange s)
    (hmx : |mouseX| ≤ 2 ^ 100) (hmy : |mouseY| ≤ 2 ^ 100) :
    PivotFixedWithin s (Binary64.handleCanvasWheel s deltaY mouseX mouseY) mouseX mouseY ∧
    PivotFixedWithin s (Binary64.zoomIn s) (fl (s.canvasWidth / 2))
      (fl (s.canvasHeight / 2)) ∧
    PivotFixedWithin s (Binary64.zoomOut s) (fl (s.canvasWidth / 2))
      (fl (s.canvasHeight / 2)) := by
  obtain ⟨hz, _, hx, hy, hcw, hch⟩ := hs
  have hz0 : (0 : ℚ) < s.zoomLevel := lt_of_lt_of_le (by positivity) hz
  have ha : (0 : ℚ) ≤ fl (1 / 10) := fl_nonneg _ (by norm_num)
  have ha5 : fl (1 / 10) ≤ 5 := by rw [fl_literals.1]; norm_num
  have hcx := abs_fl_half_le _ hcw
  have hcy := abs_fl_half_le _ hch
  refine ⟨?_, ?_, ?_⟩
  · have hz'0 : ∀ b : ℚ, 0 ≤ max (fl (1 / 10)) (min 5 b) := fun b => le_max_of_le_left ha
    have hz'5 : ∀ b : ℚ, max (fl (1 / 10)) (min 5 b) ≤ s.zoomLevel + 5 := fun b =>
      (max_le ha5 (min_le_left _ _)).trans (by linarith)
    simp only [PivotFixedWithin, Binary64.handleCanvasWheel, himg,
      (b64_showPreview_view _).1, (b64_showPreview_view _).2.1]
    exact ⟨pivot_step _ _ _ _ hz0 (hz'0 _) (ratio_le _ _ hz (hz'5 _))
        (abs_sub_le_of_abs_le _ _ hmx hx),
      pivot_step _ _ _ _ hz0 (hz'0 _) (ratio_le _ _ hz (hz'5 _))
        (abs_sub_le_of_abs_le _ _ hmy hy)⟩
  · have hz'0 : (0 : ℚ) ≤ min 5 (fl (s.zoomLevel * fl (12 / 10))) :=
      le_min (by norm_num) (fl_nonneg _ (mul_nonneg hz0.le (fl_nonneg _ (by norm_num))))
    have hz'5 : min 5 (fl (s.zoomLevel * fl (12 / 10))) ≤ s.zoomLevel + 5 :=
      (min_le_left _ _).trans (by linarith)
    simp only [PivotFixedWithin, Binary64.zoomIn, himg,
      (b64_showPreview_view _).1, (b64_showPreview_view _).2.1]
    exact ⟨pivot_step _ _ _ _ hz0 hz'0 (ratio_le _ _ hz hz'5)
        (abs_sub_le_of_abs_le _ _ hcx hx),
      pivot_step _ _ _ _ hz0 hz'0 (ratio_le _ _ hz hz'5)
        (abs_sub_le_of_abs_le _ _ hcy hy)⟩
  · have hz'0 : (0 : ℚ) ≤ max (fl (1 / 10)) (fl (s.zoomLevel * fl (8 / 10))) :=
      le_max_of_le_left ha
    have hz'5 : max (fl (1 / 10)) (fl (s.zoomLevel * fl (8 / 10))) ≤ s.zoomLevel + 5 :=
      max_le (by linarith) ((fl_mul_eight_tenths_le _ hz0.le).trans (by linarith))
    simp only [PivotFixedWithin, Binary64.zoomOut, himg,
      (b64_showPreview_view _).1, (b64_showPreview_view _).2.1]
    exact ⟨pivot_step _ _ _ _ hz0 hz'0 (ratio_le _ _ hz hz'5)
        (abs_sub_le_of_abs_le _ _ hcx hx),
      pivot_step _ _ _ _ hz0 hz'0 (ratio_le _ _ hz hz'5)
        (abs_sub_le_of_abs_le _ _ hcy hy)⟩

/-- The state reached by `wideLoaded`. -/
theorem wideLoaded_eq : wideLoaded =
    { uploadedImage := some ⟨1920, 1080⟩, currentFormat := FormatKey.napa, formats := formats,
      zoomLevel := (2501999792983609 / 2 ^ 53), imagePosition := ⟨(-2052421705181867 / 2 ^ 44), 0⟩,
      isDragging := false, dragStart := ⟨0, 0⟩,
      isResizing := false, resizeHandle := none,
      cropBox := ⟨30, 30, 240, 240⟩,
      canvasWidth := 300, canvasHeight := 300 } := by decide!

/-! ## Export against the specification and the display -/

/-- The script's `width / (width * zoom)` in binary64 is `1 / zoom` up to rounding. -/
theorem scale_rounding (w z : ℚ) (hw : 1 ≤ w) (hz : 2 ^ (-100 : ℤ) ≤ z) :
    0 ≤ fl (w / fl (w * z)) ∧
    |fl (w / fl (w * z)) - 1 / z| ≤ 1 / z / 2 ^ 50 + 2 ^ (-1075 : ℤ) := by
  have hz0 : (0 : ℚ) < z := lt_of_lt_of_le (by positivity) hz
  have hw0 : (0 : ℚ) < w := by linarith
  have hq0 : 0 < w * z := mul_pos hw0 hz0
  have hq : 2 ^ (-100 : ℤ) ≤ w * z := by
    calc (2 : ℚ) ^ (-100 : ℤ) ≤ z := hz
      _ = 1 * z := (one_mul z).symm
      _ ≤ w * z := mul_le_mul_of_nonneg_right hw hz0.le
  have hη : (2 : ℚ) ^ (-1075 : ℤ) ≤ 2 ^ (-100 : ℤ) / 2 ^ 53 := by
    rw [← zpow_natCast, ← zpow_sub₀ (by norm_num : (2 : ℚ) ≠ 0)]
    exact zpow_le_zpow_right₀ (by norm_num) (by norm_num)
  have hη2 : (2 : ℚ) ^ (-1075 : ℤ) ≤ w * z / 2 ^ 53 :=
    hη.trans (div_le_div_of_nonneg_right hq (by positivity))
  have h1 := fl_err (w * z)
  rw [abs_of_pos hq0] at h1
  have h1' := abs_le.1 h1
  have hq1 : 0 < fl (w * z) := by
    norm_num at h1' hη2 ⊢
    linarith [h1'.1]
  have hg0 : 0 < w / fl (w * z) := div_pos hw0 hq1
  have h2 : |w / fl (w * z) - 1 / z| ≤ 1 / z / 2 ^ 51 := by
    have e : w / fl (w * z) - 1 / z = (w * z - fl (w * z)) / (fl (w * z) * z) := by
      field_simp
    have e2 : 1 / z / 2 ^ 51 = (fl (w * z) / 2 ^ 51) / (fl (w * z) * z) := by
      field_simp
      ring
    rw [e, e2, abs_div, abs_of_pos (mul_pos hq1 hz0)]
    apply div_le_div_of_nonneg_right _ (mul_pos hq1 hz0).le
    rw [abs_sub_comm]
    refine h1.trans ?_
    norm_num at h1' hη2 ⊢
    linarith [h1'.1]
  have h3 := fl_err (w / fl (w * z))
  rw [abs_of_pos hg0] at h3
  have h2' := abs_le.1 h2
  have hρ : (0 : ℚ) < 1 / z := by positivity
  refine ⟨fl_nonneg _ hg0.le, ?_⟩
  have e3 : fl (w / fl (w * z)) - 1 / z =
      (fl (w / fl (w * z)) - w / fl (w * z)) + (w / fl (w * z) - 1 / z) := by ring
  rw [e3]
  refine (abs_add _ _).trans ?_
  have hη0 : (0 : ℚ) < 2 ^ (-1075 : ℤ) := by positivity
  generalize (2 : ℚ) ^ (-1075 : ℤ) = η at *
  generalize |fl (w / fl (w * z)) - w / fl (w * z)| = δ at *
  generalize |w / fl (w * z) - 1 / z| = δ' at *
  generalize w / fl (w * z) = g at *
  generalize 1 / z = ρ at *
  norm_num at h2 h2' h3 ⊢
  linarith [h2'.1, h2'.2]

/-- Error propagation through `fl (d1 * r1)`, in numbers, for a factor `r1` within
`r / 2 ^ 50 + η` of `r`. -/
theorem prod_arith (D r η δm δp δd δr D1 R1 : ℚ)
    (hr0 : 0 ≤ r) (hr : r ≤ 2 ^ 104) (hD : 0 ≤ D) (hd : D ≤ 2 ^ 101)
    (hη0 : 0 < η) (hη1 : η ≤ 1) (hD10 : 0 ≤ D1)
    (hδd : δd ≤ D / 2 ^ 53 + η) (hδr : δr ≤ r / 2 ^ 50 + η)
    (hD1 : D1 ≤ D + δd) (hR1 : R1 ≤ r + δr)
    (hδm : δm ≤ D1 * R1 / 2 ^ 53 + η) (hδp : δp ≤ D1 * δr + r * δd) :
    δp + δm ≤ r * D / 2 ^ 48 + 2 ^ 110 * η := by
  have hX : 0 ≤ r * D := mul_nonneg hr0 hD
  have s1 : D1 ≤ D * (1 + 1 / 2 ^ 53) + η := by linarith
  have s1b : D1 ≤ 2 ^ 102 := by
    have : D * (1 + 1 / 2 ^ 53) ≤ 2 ^ 101 * (1 + 1 / 2 ^ 53) :=
      mul_le_mul_of_nonneg_right hd (by norm_num)
    norm_num at this ⊢
    linarith
  have s2 : R1 ≤ r * (1 + 1 / 2 ^ 50) + η := by linarith
  have hD1r : D1 * r ≤ r * D * (1 + 1 / 2 ^ 53) + η * r := by
    have := mul_le_mul_of_nonneg_right s1 hr0
    linarith
  have hηr : η * r ≤ η * 2 ^ 104 := mul_le_mul_of_nonneg_left hr hη0.le
  have hηD1 : η * D1 ≤ η * 2 ^ 102 := mul_le_mul_of_nonneg_left s1b hη0.le
  have s3 : D1 * δr ≤ r * D * (1 + 1 / 2 ^ 53) / 2 ^ 50 + η * 2 ^ 103 := by
    have h := mul_le_mul_of_nonneg_left hδr hD10
    have e : D1 * (r / 2 ^ 50 + η) = D1 * r / 2 ^ 50 + η * D1 := by ring
    rw [e] at h
    have : D1 * r / 2 ^ 50 ≤ (r * D * (1 + 1 / 2 ^ 53) + η * r) / 2 ^ 50 :=
      div_le_div_of_nonneg_right hD1r (by positivity)
    norm_num at this hηr hηD1 h ⊢
    linarith
  have s4 : r * δd ≤ r * D / 2 ^ 53 + η * 2 ^ 104 := by
    have h := mul_le_mul_of_nonneg_left hδd hr0
    have e : r * (D / 2 ^ 53 + η) = r * D / 2 ^ 53 + η * r := by ring
    rw [e] at h
    linarith
  have s5 : D1 * R1 ≤ r * D * (1 + 1 / 2 ^ 53) * (1 + 1 / 2 ^ 50) + η * 2 ^ 106 := by
    have h := mul_le_mul_of_nonneg_left s2 hD10
    have e : D1 * (r * (1 + 1 / 2 ^ 50) + η) = D1 * r * (1 + 1 / 2 ^ 50) + η * D1 := by ring
    rw [e] at h
    have : D1 * r * (1 + 1 / 2 ^ 50) ≤
        (r * D * (1 + 1 / 2 ^ 53) + η * r) * (1 + 1 / 2 ^ 50) :=
      mul_le_mul_of_nonneg_right hD1r (by norm_num)
    norm_num at this hηr hηD1 h ⊢
    linarith
  norm_num at s3 s4 s5 hδm hδp ⊢
  linarith

/-- A rounded difference times a rounded scale, against the exact quotient. -/
theorem scaled_diff_rounding (c o sc ρ : ℚ) (hρ0 : 0 ≤ ρ) (hρ : ρ ≤ 2 ^ 104)
    (hd : |c - o| ≤ 2 ^ 101) (hsc0 : 0 ≤ sc)
    (hsc : |sc - ρ| ≤ ρ / 2 ^ 50 + 2 ^ (-1075 : ℤ)) :
    |fl (fl (c - o) * sc) - (c - o) * ρ| ≤
      ρ * |c - o| / 2 ^ 48 + 2 ^ 110 * 2 ^ (-1075 : ℤ) := by
  have hδd := fl_err (c - o)
  have hδm := fl_err (fl (c - o) * sc)
  rw [abs_mul, abs_of_nonneg hsc0] at hδm
  have hD1 := abs_le_add_abs_sub (c - o) (fl (c - o))
  have hR1 : sc ≤ ρ + |sc - ρ| := by
    have := le_abs_self (sc - ρ)
    linarith
  have hprod := abs_mul_sub_mul_le (c - o) ρ (fl (c - o)) sc
  rw [abs_of_nonneg hρ0] at hprod
  have hE : |fl (fl (c - o) * sc) - (c - o) * ρ| ≤
      |fl (c - o) * sc - (c - o) * ρ| + |fl (fl (c - o) * sc) - fl (c - o) * sc| := by
    have e : fl (fl (c - o) * sc) - (c - o) * ρ =
        (fl (c - o) * sc - (c - o) * ρ) + (fl (fl (c - o) * sc) - fl (c - o) * sc) := by
      ring
    rw [e]
    exact abs_add _ _
  refine hE.trans ?_
  exact prod_arith |c - o| ρ (2 ^ (-1075 : ℤ)) _ _ _ _ |fl (c - o)| sc
    hρ0 hρ (abs_nonneg _) hd (by positivity)
    (zpow_le_one_of_nonpos₀ (by norm_num) (by norm_num)) (abs_nonneg _)
    hδd hsc hD1 hR1 hδm hprod

/-- An exact extent times a rounded scale, against the exact quotient. -/
theorem scaled_extent_rounding (cw sc ρ : ℚ) (hρ0 : 0 ≤ ρ) (hcw : |cw| ≤ 2 ^ 100)
    (hsc0 : 0 ≤ sc) (hsc : |sc - ρ| ≤ ρ / 2 ^ 50 + 2 ^ (-1075 : ℤ)) :
    |fl (cw * sc) - cw * ρ| ≤ ρ * |cw| / 2 ^ 49 + 2 ^ 102 * 2 ^ (-1075 : ℤ) := by
  have h1 := fl_err (cw * sc)
  rw [abs_mul, abs_of_nonneg hsc0] at h1
  have hR1 : sc ≤ ρ + |sc - ρ| := by
    have := le_abs_self (sc - ρ)
    linarith
  have hC := abs_nonneg cw
  have h2 : |cw * sc - cw * ρ| = |cw| * |sc - ρ| := by
    rw [← mul_sub, abs_mul]
  have hE : |fl (cw * sc) - cw * ρ| ≤
      |fl (cw * sc) - cw * sc| + |cw| * |sc - ρ| := by
    have e : fl (cw * sc) - cw * ρ = (fl (cw * sc) - cw * sc) + (cw * sc - cw * ρ) := by ring
    rw [e, ← h2]
    exact abs_add _ _
  refine hE.trans ?_
  have h3 := mul_le_mul_of_nonneg_left hsc hC
  have h4 := mul_le_mul_of_nonneg_left hR1 hC
  have hη0 : (0 : ℚ) < 2 ^ (-1075 : ℤ) := by positivity
  have h5 : |cw| * 2 ^ (-1075 : ℤ) ≤ 2 ^ 100 * 2 ^ (-1075 : ℤ) :=
    mul_le_mul_of_nonneg_right hcw hη0.le
  have hX : 0 ≤ ρ * |cw| := mul_nonneg hρ0 hC
  generalize (2 : ℚ) ^ (-1075 : ℤ) = η at *
  generalize |fl (cw * sc) - cw * sc| = δ at *
  generalize |sc - ρ| = δs at *
  generalize |cw| = C at *
  have e1 : C * (ρ / 2 ^ 50 + η) = ρ * C / 2 ^ 50 + C * η := by ring
  have e2 : C * (ρ + δs) = ρ * C + C * δs := by ring
  rw [e1] at h3
  rw [e2] at h4
  norm_num at h1 h3 h4 h5 ⊢
  linarith

/-- One axis of the export in binary64 against the `1 / zoom` mapping of the
specification. -/
theorem source_axis_rounding (W z c o cw : ℚ) (hW : 1 ≤ W)
    (hz : 2 ^ (-100 : ℤ) ≤ z)
    (hc : |c| ≤ 2 ^ 100) (ho : |o| ≤ 2 ^ 100) (hcw : |cw| ≤ 2 ^ 100) :
    |max 0 (fl (fl (c - o) * fl (W / fl (W * z)))) - max 0 ((c - o) / z)| ≤
      |c - o| / z / 2 ^ 48 + 2 ^ (-900 : ℤ) ∧
    |min (fl (W - max 0 (fl (fl (c - o) * fl (W / fl (W * z))))))
        (fl (cw * fl (W / fl (W * z)))) -
      min (W - max 0 ((c - o) / z)) (cw / z)| ≤
      (W + |c - o| / z + |cw| / z) / 2 ^ 47 + 2 ^ (-900 : ℤ) ∧
    0 ≤ max 0 (fl (fl (c - o) * fl (W / fl (W * z)))) ∧
    max 0 (fl (fl (c - o) * fl (W / fl (W * z)))) +
      min (fl (W - max 0 (fl (fl (c - o) * fl (W / fl (W * z))))))
        (fl (cw * fl (W / fl (W * z)))) ≤
      W + (W + max 0 (fl (fl (c - o) * fl (W / fl (W * z))))) / 2 ^ 53
        + 2 ^ (-1075 : ℤ) := by
  have hz0 : (0 : ℚ) < z := lt_of_lt_of_le (by positivity) hz
  obtain ⟨hsc0, hsc⟩ := scale_rounding W z hW hz
  have hρ0 : (0 : ℚ) ≤ 1 / z := by positivity
  have hρ : 1 / z ≤ 2 ^ 104 := by
    rw [div_le_iff₀ hz0]
    have h1 : (2 : ℚ) ^ 104 * 2 ^ (-100 : ℤ) ≤ 2 ^ 104 * z :=
      mul_le_mul_of_nonneg_left hz (by positivity)
    have h2 : (2 : ℚ) ^ 104 * 2 ^ (-100 : ℤ) = 16 := by
      rw [← zpow_natCast, ← zpow_add₀ (by norm_num : (2 : ℚ) ≠ 0)]
      norm_num
    linarith
  have hd : |c - o| ≤ 2 ^ 101 := by
    have := abs_sub c o
    norm_num at hc ho this ⊢
    linarith
  have hX := scaled_diff_rounding c o _ (1 / z) hρ0 hρ hd hsc0 hsc
  have hB := scaled_extent_rounding cw _ (1 / z) hρ0 hcw hsc0 hsc
  have e1 : (c - o) / z = (c - o) * (1 / z) := by ring
  have e2 : cw / z = cw * (1 / z) := by ring
  have e3 : |c - o| / z = 1 / z * |c - o| := by ring
  have e4 : |cw| / z = 1 / z * |cw| := by ring
  rw [e1, e2, e3, e4]
  have hmax := abs_max_sub_max_le_abs (fl (fl (c - o) * fl (W / fl (W * z))))
    ((c - o) * (1 / z)) 0
  rw [max_comm _ (0 : ℚ), max_comm _ (0 : ℚ)] at hmax
  have hXX := hmax.trans hX
  have hA := fl_err (W - max 0 (fl (fl (c - o) * fl (W / fl (W * z)))))
  have hx0 : (0 : ℚ) ≤ max 0 (fl (fl (c - o) * fl (W / fl (W * z)))) := le_max_left _ _
  have hx0' : (0 : ℚ) ≤ max 0 ((c - o) * (1 / z)) := le_max_left _ _
  have hx1 : max 0 ((c - o) * (1 / z)) ≤ 1 / z * |c - o| := by
    apply max_le (mul_nonneg hρ0 (abs_nonneg _))
    rw [mul_comm]
    exact mul_le_mul_of_nonneg_left (le_abs_self _) hρ0
  have hWX : |W - max 0 (fl (fl (c - o) * fl (W / fl (W * z))))| ≤
      W + max 0 (fl (fl (c - o) * fl (W / fl (W * z)))) := by
    refine (abs_sub _ _).trans ?_
    rw [abs_of_nonneg (by linarith : (0 : ℚ) ≤ W), abs_of_nonneg hx0]
  have hmin := abs_min_sub_min_le_max
    (fl (W - max 0 (fl (fl (c - o) * fl (W / fl (W * z))))))
    (fl (cw * fl (W / fl (W * z))))
    (W - max 0 ((c - o) * (1 / z))) (cw * (1 / z))
  have hAA : |fl (W - max 0 (fl (fl (c - o) * fl (W / fl (W * z))))) -
      (W - max 0 ((c - o) * (1 / z)))| ≤
      |fl (W - max 0 (fl (fl (c - o) * fl (W / fl (W * z))))) -
        (W - max 0 (fl (fl (c - o) * fl (W / fl (W * z)))))| +
      |max 0 (fl (fl (c - o) * fl (W / fl (W * z)))) - max 0 ((c - o) * (1 / z))| := by
    have e : fl (W - max 0 (fl (fl (c - o) * fl (W / fl (W * z))))) -
        (W - max 0 ((c - o) * (1 / z))) =
        (fl (W - max 0 (fl (fl (c - o) * fl (W / fl (W * z))))) -
          (W - max 0 (fl (fl (c - o) * fl (W / fl (W * z)))))) +
        -(max 0 (fl (fl (c - o) * fl (W / fl (W * z)))) - max 0 ((c - o) * (1 / z))) := by
      ring
    rw [e]
    refine (abs_add _ _).trans ?_
    rw [abs_neg]
  have hminl : min (fl (W - max 0 (fl (fl (c - o) * fl (W / fl (W * z))))))
      (fl (cw * fl (W / fl (W * z)))) ≤
      fl (W - max 0 (fl (fl (c - o) * fl (W / fl (W * z))))) := min_le_left _ _
  have hAl := fl_sub_le (W - max 0 (fl (fl (c - o) * fl (W / fl (W * z)))))
  have ht1 : (2 : ℚ) ^ 110 * 2 ^ (-1075 : ℤ) ≤ 2 ^ (-901 : ℤ) := by
    rw [← zpow_natCast, ← zpow_add₀ (by norm_num : (2 : ℚ) ≠ 0)]
    exact zpow_le_zpow_right₀ (by norm_num) (by norm_num)
  have ht2 : (2 : ℚ) ^ (-900 : ℤ) = 2 * 2 ^ (-901 : ℤ) := by
    rw [show (-900 : ℤ) = 1 + -901 by norm_num, zpow_add₀ (by norm_num : (2 : ℚ) ≠ 0)]
    norm_num
  have hη0 : (0 : ℚ) < 2 ^ (-1075 : ℤ) := by positivity
  have hXn : 0 ≤ 1 / z * |c - o| := mul_nonneg hρ0 (abs_nonneg _)
  have hCn : 0 ≤ 1 / z * |cw| := mul_nonneg hρ0 (abs_nonneg _)
  rw [ht2]
  generalize (2 : ℚ) ^ (-1075 : ℤ) = η at *
  generalize (2 : ℚ) ^ (-901 : ℤ) = τ at *
  generalize 1 / z * |c - o| = XD at *
  generalize 1 / z * |cw| = XC at *
  refine ⟨?_, ?_, hx0, ?_⟩
  · refine hXX.trans ?_
    norm_num at ht1 ⊢
    linarith
  · refine hmin.trans (max_le (hAA.trans ?_) (hB.trans ?_))
    · have := abs_le.1 hXX
      generalize max 0 (fl (fl (c - o) * fl (W / fl (W * z)))) = X at *
      generalize max 0 ((c - o) * (1 / z)) = X' at *
      generalize |W - X| = V at *
      generalize |X - X'| = δX at *
      generalize |fl (W - X) - (W - X)| = δA at *
      norm_num at ht1 hA hXX hWX this ⊢
      linarith [this.1, this.2]
    · norm_num at ht1 ⊢
      linarith
  · generalize max 0 (fl (fl (c - o) * fl (W / fl (W * z)))) = X at *
    generalize |W - X| = V at *
    norm_num at hAl hWX ⊢
    linarith

/-- C8, as amended: in binary64, for every loaded image of 1 to `2 ^ 30` pixels a side,
every zoom in `[2 ^ (-100), 2 ^ 100]` and every offset and crop box of magnitude at most
`2 ^ 100`, `downloadImage` returns a source rectangle that agrees with the `1 / zoom`
mapping of the specification up to rounding (`SourceRectWithin`), starts at
non-negative coordinates and ends inside the image up to the rounding of one
subtraction (`SourceRectInImageWithin`). -/
theorem downloadImage_refines_spec_within (s : State) (img : Image)
    (himg : s.uploadedImage = some img) (hr : ExportInRange s img) :
    ∃ e, Binary64.downloadImage s = some e ∧
      SourceRectWithin img s.zoomLevel s.imagePosition s.cropBox e
        (specSourceRect img s.zoomLevel s.imagePosition s.cropBox) ∧
      SourceRectInImageWithin img e := by
  obtain ⟨⟨hw, -⟩, ⟨hh, -⟩, ⟨hz, -⟩, ⟨hox, hoy⟩, ⟨hcx, hcy⟩, ⟨hcw, hch⟩⟩ := hr
  obtain ⟨x1, x2, x3, x4⟩ := source_axis_rounding img.width s.zoomLevel s.cropBox.x
    s.imagePosition.x s.cropBox.width hw hz hcx hox hcw
  obtain ⟨y1, y2, y3, y4⟩ := source_axis_rounding img.height s.zoomLevel s.cropBox.y
    s.imagePosition.y s.cropBox.height hh hz hcy hoy hch
  unfold Binary64.downloadImage
  simp only [himg]
  exact ⟨_, rfl, ⟨x1, y1, x2, y2⟩, ⟨x3, y3, x4, y4⟩⟩

/-- One axis of the export, mapped back to the canvas, against the crop box. -/
theorem export_axis_within (W z c o cw X Wd : ℚ) (hz : 0 < z)
    (h1 : o ≤ c) (h2 : c + cw ≤ o + z * W)
    (hX : |X - max 0 ((c - o) / z)| ≤ |c - o| / z / 2 ^ 48 + 2 ^ (-900 : ℤ))
    (hW : |Wd - min (W - max 0 ((c - o) / z)) (cw / z)| ≤
      (W + |c - o| / z + |cw| / z) / 2 ^ 47 + 2 ^ (-900 : ℤ)) :
    |o + z * X - c| ≤ |c - o| / 2 ^ 48 + z * 2 ^ (-900 : ℤ) ∧
    |z * Wd - cw| ≤ (z * W + |c - o| + |cw|) / 2 ^ 47 + z * 2 ^ (-900 : ℤ) := by
  have hq : 0 ≤ (c - o) / z := div_nonneg (by linarith) hz.le
  have hle : cw / z ≤ W - (c - o) / z := by
    rw [le_sub_iff_add_le, ← add_div, div_le_iff₀ hz]
    linarith
  rw [max_eq_right hq] at hX hW
  rw [min_eq_right hle] at hW
  have e1 : o + z * X - c = z * (X - (c - o) / z) := by
    field_simp
    ring
  have e2 : z * Wd - cw = z * (Wd - cw / z) := by
    field_simp
    ring
  rw [e1, e2, abs_mul, abs_mul, abs_of_pos hz]
  have hX' := mul_le_mul_of_nonneg_left hX hz.le
  have hW' := mul_le_mul_of_nonneg_left hW hz.le
  have e3 : z * (|c - o| / z / 2 ^ 48 + 2 ^ (-900 : ℤ)) =
      |c - o| / 2 ^ 48 + z * 2 ^ (-900 : ℤ) := by
    field_simp
    ring
  have e4 : z * ((W + |c - o| / z + |cw| / z) / 2 ^ 47 + 2 ^ (-900 : ℤ)) =
      (z * W + |c - o| + |cw|) / 2 ^ 47 + z * 2 ^ (-900 : ℤ) := by
    field_simp
    ring
  rw [e3] at hX'
  rw [e4] at hW'
  exact ⟨hX', hW'⟩

/-- C2, as amended: in binary64, for every state with a loaded image of 1 to `2 ^ 30`
pixels a side, zoom in `[2 ^ (-100), 2 ^ 100]` and offset and crop box of magnitude at
most `2 ^ 100`, if the crop box lies within the displayed image then the source
rectangle that `downloadImage` samples, mapped through
`canvasPt = offset + zoom * imagePt`, is the crop rectangle up to rounding
(`ExportShowsCropBoxWithin`). -/
theorem export_shows_crop_box_within (s : State) (img : Image)
    (himg : s.uploadedImage = some img) (hr : ExportInRange s img)
    (hin : CropBoxInsideImage s img) :
    ∃ e, Binary64.downloadImage s = some e ∧ ExportShowsCropBoxWithin s img e := by
  obtain ⟨⟨hw, -⟩, ⟨hh, -⟩, ⟨hz, -⟩, ⟨hox, hoy⟩, ⟨hcx, hcy⟩, ⟨hcw, hch⟩⟩ := hr
  obtain ⟨i1, i2, i3, i4⟩ := hin
  have hz0 : (0 : ℚ) < s.zoomLevel := lt_of_lt_of_le (by positivity) hz
  obtain ⟨x1, x2, -, -⟩ := source_axis_rounding img.width s.zoomLevel s.cropBox.x
    s.imagePosition.x s.cropBox.width hw hz hcx hox hcw
  obtain ⟨y1, y2, -, -⟩ := source_axis_rounding img.height s.zoomLevel s.cropBox.y
    s.imagePosition.y s.cropBox.height hh hz hcy hoy hch
  obtain ⟨a1, a2⟩ := export_axis_within _ _ _ _ _ _ _ hz0 i1 i3 x1 x2
  obtain ⟨b1, b2⟩ := export_axis_within _ _ _ _ _ _ _ hz0 i2 i4 y1 y2
  unfold Binary64.downloadImage
  simp only [himg]
  exact ⟨_, rfl, a1, b1, a2, b2⟩

/-! ## Aspect ratio under resizing -/

/-- One axis of the final clamp of `resizeCropBox` in binary64: the extent becomes
the smaller of extent and frame size, up to rounding. -/
theorem clamp_axis_rounding (W w x : ℚ) (hW : 0 ≤ W) (hw : 0 ≤ w) :
    |min w (fl (W - max 0 (min x (fl (W - w))))) - min w W| ≤
      W / 2 ^ 52 + 3 * 2 ^ (-1075 : ℤ) := by
  have hD := fl_err (W - w)
  have hE := fl_err (W - max 0 (min x (fl (W - w))))
  have hx0 : (0 : ℚ) ≤ max 0 (min x (fl (W - w))) := le_max_left _ _
  have hx1 : max 0 (min x (fl (W - w))) ≤ max 0 (fl (W - w)) :=
    max_le_max le_rfl (min_le_right _ _)
  have hη0 : (0 : ℚ) < 2 ^ (-1075 : ℤ) := by positivity
  generalize (2 : ℚ) ^ (-1075 : ℤ) = η at *
  have hp : (0 : ℚ) ≤ W / 2 ^ 52 := by positivity
  have hm1 := min_le_left w (fl (W - max 0 (min x (fl (W - w)))))
  have hm2 := min_le_right w (fl (W - max 0 (min x (fl (W - w)))))
  rcases le_or_lt w W with hc | hc
  · have hD0 : 0 ≤ fl (W - w) := fl_nonneg _ (by linarith)
    rw [abs_of_nonneg (by linarith : (0 : ℚ) ≤ W - w)] at hD
    rw [max_eq_right hD0] at hx1
    have hD' := abs_le.1 hD
    have hEa : |W - max 0 (min x (fl (W - w)))| ≤ W + η := by
      rw [abs_le]
      constructor
      · norm_num at hD' ⊢
        linarith [hD'.2]
      · linarith
    have hE' := abs_le.1 hE
    have hlow : w - (W / 2 ^ 52 + 3 * η) ≤ fl (W - max 0 (min x (fl (W - w)))) := by
      norm_num at hD' hE' hEa ⊢
      linarith [hD'.2, hE'.1]
    have hm3 := le_min (by linarith : w - (W / 2 ^ 52 + 3 * η) ≤ w) hlow
    rw [min_eq_left hc, abs_le]
    generalize min w (fl (W - max 0 (min x (fl (W - w))))) = m at *
    constructor <;> linarith
  · rw [abs_of_neg (by linarith : W - w < 0)] at hD
    have hD' := abs_le.1 hD
    have hfD : fl (W - w) ≤ η := by
      norm_num at hD' ⊢
      linarith [hD'.2]
    have hx2 : max 0 (min x (fl (W - w))) ≤ η := hx1.trans (max_le hη0.le hfD)
    have hEa : |W - max 0 (min x (fl (W - w)))| ≤ W + η := by
      rw [abs_le]
      constructor <;> linarith
    have hE' := abs_le.1 hE
    have hlow : W - (W / 2 ^ 52 + 3 * η) ≤ fl (W - max 0 (min x (fl (W - w)))) := by
      norm_num at hE' hEa ⊢
      linarith [hE'.1]
    have hup : fl (W - max 0 (min x (fl (W - w)))) ≤ W + (W / 2 ^ 52 + 3 * η) := by
      norm_num at hE' hEa ⊢
      linarith [hE'.2]
    have hm3 := le_min (by linarith : W - (W / 2 ^ 52 + 3 * η) ≤ w) hlow
    rw [min_eq_right hc.le, abs_le]
    generalize min w (fl (W - max 0 (min x (fl (W - w))))) = m at *
    constructor <;> linarith

/-- Cutting both extents down to the frame keeps the cross-multiplied aspect error
within the same relative tolerance. -/
theorem min_aspect (W H w h τ : ℚ) (hW : 0 < W) (hH : 0 < H) (hh : 0 < h)
    (hτ0 : 0 ≤ τ) (hτ1 : τ ≤ 1) (hr : |w * H - W * h| ≤ τ * (W * h)) :
    |min w W * H - W * min h H| ≤ τ * (W * min h H) := by
  have hr' := abs_le.1 hr
  rcases le_or_lt w W with hc | hc <;> rcases le_or_lt h H with hd | hd
  · rw [min_eq_left hc, min_eq_left hd]
    exact hr
  · rw [min_eq_left hc, min_eq_right hd.le, abs_le]
    have h1 : 0 ≤ (W - w) * H := mul_nonneg (by linarith) hH.le
    have h2 : 0 ≤ (1 - τ) * W * (h - H) :=
      mul_nonneg (mul_nonneg (by linarith) hW.le) (by linarith)
    have h3 : 0 ≤ τ * (W * H) := mul_nonneg hτ0 (mul_nonneg hW.le hH.le)
    constructor <;> nlinarith [hr'.1, hr'.2]
  · rw [min_eq_right hc.le, min_eq_left hd, abs_le]
    have h1 : 0 ≤ (w - W) * H := mul_nonneg (by linarith) hH.le
    have h2 : 0 ≤ W * (H - h) := mul_nonneg hW.le (by linarith)
    have h3 : 0 ≤ τ * (W * h) := mul_nonneg hτ0 (mul_nonneg hW.le hh.le)
    constructor <;> nlinarith [hr'.1, hr'.2]
  · rw [min_eq_right hc.le, min_eq_right hd.le, sub_self, abs_zero]
    positivity

/-- The final clamp of `resizeCropBox` in binary64 keeps the aspect ratio up to
rounding, for frames of at most 2048 pixels and boxes of at least one pixel. -/
theorem clamp_aspect_within (W H x y w h τ : ℚ) (hW : 1 ≤ W)
    (hH : 1 ≤ H) (hH2 : H ≤ 2 ^ 11) (hw : 1 ≤ w) (hh : 1 ≤ h)
    (hτ0 : 0 ≤ τ) (hτ1 : τ ≤ 1) (hr : |w * H - W * h| ≤ τ * (W * h)) :
    |min w (fl (W - max 0 (min x (fl (W - w))))) /
        min h (fl (H - max 0 (min y (fl (H - h))))) - W / H| ≤
      (τ + 1 / 2 ^ 38) * (W / H) := by
  have hW0 : (0 : ℚ) < W := by linarith
  have hH0 : (0 : ℚ) < H := by linarith
  have hm := min_aspect W H w h τ hW0 hH0 (by linarith) hτ0 hτ1 hr
  have hcw := clamp_axis_rounding W w x hW0.le (by linarith)
  have hch := clamp_axis_rounding H h y hH0.le (by linarith)
  have hmh : 1 ≤ min h H := le_min hh hH
  have hη1 : (2 : ℚ) ^ (-1075 : ℤ) ≤ 1 / 2 ^ 60 := by
    rw [one_div, ← zpow_natCast, ← zpow_neg]
    exact zpow_le_zpow_right₀ (by norm_num) (by norm_num)
  have hη0 : (0 : ℚ) < 2 ^ (-1075 : ℤ) := by positivity
  generalize (2 : ℚ) ^ (-1075 : ℤ) = η at *
  generalize min w (fl (W - max 0 (min x (fl (W - w))))) = w2 at *
  generalize min h (fl (H - max 0 (min y (fl (H - h))))) = h2 at *
  generalize min w W = mw at *
  generalize min h H = mh at *
  have hcw' := abs_le.1 hcw
  have hch' := abs_le.1 hch
  have hm' := abs_le.1 hm
  have hh2 : 1 / 2 ≤ h2 := by
    norm_num at hch' hη1 ⊢
    linarith [hch'.1]
  have hh20 : (0 : ℚ) < h2 := by linarith
  -- cross-multiplied form
  have key : |w2 * H - W * h2| ≤ (τ + 1 / 2 ^ 38) * (W * h2) := by
    have e : w2 * H - W * h2 = (mw * H - W * mh) + ((w2 - mw) * H - W * (h2 - mh)) := by ring
    have h1 : |(w2 - mw) * H| ≤ (W / 2 ^ 52 + 3 * η) * H := by
      rw [abs_mul, abs_of_pos hH0]
      exact mul_le_mul_of_nonneg_right hcw hH0.le
    have h2' : |W * (h2 - mh)| ≤ W * (H / 2 ^ 52 + 3 * η) := by
      rw [abs_mul, abs_of_pos hW0]
      exact mul_le_mul_of_nonneg_left hch hW0.le
    have h3 : |w2 * H - W * h2| ≤
        τ * (W * mh) + ((W / 2 ^ 52 + 3 * η) * H + W * (H / 2 ^ 52 + 3 * η)) := by
      rw [e]
      refine (abs_add _ _).trans (add_le_add hm ?_)
      refine (abs_sub _ _).trans (add_le_add h1 h2')
    have h4 : τ * (W * mh) ≤ τ * (W * h2) + W * (H / 2 ^ 52 + 3 * η) := by
      have a1 : W * mh ≤ W * h2 + W * (H / 2 ^ 52 + 3 * η) := by
        rw [← mul_add]
        exact mul_le_mul_of_nonneg_left (by linarith [hch'.2]) hW0.le
      have a2 : 0 ≤ W * (H / 2 ^ 52 + 3 * η) := by positivity
      have a3 : τ * (W * mh) ≤ τ * (W * h2 + W * (H / 2 ^ 52 + 3 * η)) :=
        mul_le_mul_of_nonneg_left a1 hτ0
      have a4 : τ * (W * (H / 2 ^ 52 + 3 * η)) ≤ 1 * (W * (H / 2 ^ 52 + 3 * η)) :=
        mul_le_mul_of_nonneg_right hτ1 a2
      rw [mul_add] at a3
      linarith
    have h5 : W * H ≤ W * 2 ^ 11 := mul_le_mul_of_nonneg_left hH2 hW0.le
    have h6 : W * (1 / 2) ≤ W * h2 := mul_le_mul_of_nonneg_left hh2 hW0.le
    have h7 : η * H ≤ 1 / 2 ^ 60 * 2 ^ 11 :=
      mul_le_mul hη1 hH2 hH0.le (by positivity)
    have h8 : W * η ≤ W * (1 / 2 ^ 60) := mul_le_mul_of_nonneg_left hη1 hW0.le
    have e6 : (W / 2 ^ 52 + 3 * η) * H = W * H / 2 ^ 52 + 3 * (η * H) := by ring
    have e7 : W * (H / 2 ^ 52 + 3 * η) = W * H / 2 ^ 52 + 3 * (W * η) := by ring
    have e3 : (τ + 1 / 2 ^ 38) * (W * h2) = τ * (W * h2) + W * h2 / 2 ^ 38 := by ring
    rw [e6, e7] at h3
    rw [e7] at h4
    rw [e3]
    refine h3.trans ?_
    generalize W * H = WH at *
    generalize W * h2 = Wh at *
    generalize η * H = ηH at *
    generalize W * η = Wη at *
    generalize τ * (W * mh) = T1 at *
    generalize τ * Wh = T2 at *
    norm_num at h5 h6 h7 h8 ⊢
    linarith
  have e4 : w2 / h2 - W / H = (w2 * H - W * h2) / (h2 * H) := by
    field_simp
    ring
  have e5 : (τ + 1 / 2 ^ 38) * (W / H) = (τ + 1 / 2 ^ 38) * (W * h2) / (h2 * H) := by
    field_simp
    ring
  rw [e4, e5, abs_div, abs_of_pos (mul_pos hh20 hH0)]
  exact div_le_div_of_nonneg_right key (mul_pos hh20 hH0).le

/-- A height derived in binary64 from an accepted width has the ratio of the frame up
to rounding, in cross-multiplied form. -/
theorem derived_aspect_within (W H w : ℚ) (hW : 1 ≤ W) (hH : 1 ≤ H) (hH2 : H ≤ 2 ^ 11)
    (hh : 20 < fl (w / fl (W / H))) :
    |w * H - W * fl (w / fl (W / H))| ≤ 1 / 2 ^ 50 * (W * fl (w / fl (W / H))) := by
  have hW0 : (0 : ℚ) < W := by linarith
  have hH0 : (0 : ℚ) < H := by linarith
  have hA0 : 0 < W / H := div_pos hW0 hH0
  have hA1 : 1 / 2 ^ 11 ≤ W / H := by
    rw [div_le_div_iff₀ (by positivity) hH0]
    linarith
  have ha := fl_err (W / H)
  rw [abs_of_pos hA0] at ha
  have hη1 : (2 : ℚ) ^ (-1075 : ℤ) ≤ 1 / 2 ^ 100 := by
    rw [one_div, ← zpow_natCast, ← zpow_neg]
    exact zpow_le_zpow_right₀ (by norm_num) (by norm_num)
  have hη0 : (0 : ℚ) < 2 ^ (-1075 : ℤ) := by positivity
  have hq := fl_err (w / fl (W / H))
  generalize (2 : ℚ) ^ (-1075 : ℤ) = η at *
  have ha' := abs_le.1 ha
  have ha0 : 0 < fl (W / H) := by
    norm_num at ha' hA1 hη1 ⊢
    linarith [ha'.1]
  generalize fl (W / H) = a at *
  -- the accepted quotient is positive
  have hq0 : 0 < w / a := by
    by_contra hneg
    push_neg at hneg
    rw [abs_of_nonpos hneg] at hq
    have := abs_le.1 hq
    norm_num at this hη1 ⊢
    linarith [this.2]
  have hw0 : 0 < w := by
    rcases lt_trichotomy w 0 with h | h | h
    · exact absurd (div_neg_of_neg_of_pos h ha0) (not_lt.2 hq0.le)
    · rw [h, zero_div] at hq0
      exact absurd hq0 (lt_irrefl _)
    · exact h
  rw [abs_of_pos hq0] at hq
  have hq' := abs_le.1 hq
  have hqa : w / a * a = w := div_mul_cancel₀ w ha0.ne'
  have e : w * H - W * fl (w / a) =
      -(H * (W / H * (fl (w / a) - w / a) + (W / H - a) * (w / a))) := by
    have e1 : H * (W / H) = W := by field_simp
    calc w * H - W * fl (w / a)
        = (w / a * a) * H - (H * (W / H)) * fl (w / a) := by rw [hqa, e1]
      _ = -(H * (W / H * (fl (w / a) - w / a) + (W / H - a) * (w / a))) := by ring
  have b1 : |W / H * (fl (w / a) - w / a)| ≤ W / H * (w / a / 2 ^ 53 + η) := by
    rw [abs_mul, abs_of_pos hA0]
    exact mul_le_mul_of_nonneg_left hq hA0.le
  have b2 : |(W / H - a) * (w / a)| ≤ (W / H / 2 ^ 53 + η) * (w / a) := by
    rw [abs_mul, abs_of_pos hq0, abs_sub_comm]
    exact mul_le_mul_of_nonneg_right ha hq0.le
  have b3 : |w * H - W * fl (w / a)| ≤
      H * (W / H * (w / a / 2 ^ 53 + η) + (W / H / 2 ^ 53 + η) * (w / a)) := by
    rw [e, abs_neg, abs_mul, abs_of_pos hH0]
    exact mul_le_mul_of_nonneg_left ((abs_add _ _).trans (add_le_add b1 b2)) hH0.le
  have e2 : H * (W / H * (w / a / 2 ^ 53 + η) + (W / H / 2 ^ 53 + η) * (w / a)) =
      W * (w / a) / 2 ^ 52 + W * η + H * η * (w / a) := by
    field_simp
    ring
  rw [e2] at b3
  refine b3.trans ?_
  have hq2 : w / a ≤ 2 * fl (w / a) := by
    norm_num at hq' hη1 ⊢
    linarith [hq'.1]
  have c1 : W * (w / a) ≤ W * (2 * fl (w / a)) := mul_le_mul_of_nonneg_left hq2 hW0.le
  have c2 : W * η ≤ W * (1 / 2 ^ 100) := mul_le_mul_of_nonneg_left hη1 hW0.le
  have c3 : W * 1 ≤ W * fl (w / a) := mul_le_mul_of_nonneg_left (by linarith) hW0.le
  have c4 : H * η ≤ 2 ^ 11 * (1 / 2 ^ 100) := mul_le_mul hH2 hη1 hη0.le (by positivity)
  have c5 : H * η * (w / a) ≤ 2 ^ 11 * (1 / 2 ^ 100) * (w / a) :=
    mul_le_mul_of_nonneg_right c4 hq0.le
  have c6 : 1 * fl (w / a) ≤ W * fl (w / a) :=
    mul_le_mul_of_nonneg_right hW (by linarith)
  have e3 : W * (2 * fl (w / a)) = 2 * (W * fl (w / a)) := by ring
  rw [e3] at c1
  generalize W * fl (w / a) = Wh at *
  generalize W * (w / a) = Wq at *
  generalize H * η * (w / a) = Hq at *
  generalize W * η = Wη at *
  norm_num at c1 c2 c3 c5 c6 hq2 ⊢
  linarith

/-- The aspect tolerance in ratio form gives the cross-multiplied form. -/
theorem cross_of_aspect_within (W H w h τ : ℚ) (hH : 0 < H) (hh : 0 < h)
    (hr : |w / h - W / H| ≤ τ * (W / H)) : |w * H - W * h| ≤ τ * (W * h) := by
  have e : w * H - W * h = (w / h - W / H) * (h * H) := by
    field_simp
    ring
  have e2 : τ * (W * h) = τ * (W / H) * (h * H) := by
    field_simp
    ring
  rw [e, e2, abs_mul, abs_of_pos (mul_pos hh hH)]
  exact mul_le_mul_of_nonneg_right hr (mul_pos hh hH).le

/-- C4, as amended: in binary64, for each handle, every pointer position and every
frame of 1 to 2048 pixels a side, a crop box of at least one pixel a side whose
`width / height` is within the relative tolerance `τ ≤ 1` of `pxWidth / pxHeight`
has it within `τ + 2 ^ (-37)` after `resizeCropBox`, final clamp and rejected no-op
included. -/
theorem resizeCropBox_keeps_aspect_within (s : State) (handle : HandleType) (x y τ : ℚ)
    (hh : s.resizeHandle = some handle) (hr : ResizeInRange s x)
    (hτ0 : 0 ≤ τ) (hτ1 : τ ≤ 1)
    (ha : HasFormatAspectWithin (getCurrentFormat s) s.cropBox τ) :
    HasFormatAspectWithin (getCurrentFormat s) (Binary64.resizeCropBox s x y).cropBox
      (τ + 1 / 2 ^ 37) := by
  obtain ⟨⟨hW, -⟩, ⟨hH, hH2⟩, ⟨hw, -⟩, ⟨hht, -⟩, -, -⟩ := hr
  have hW0 : (0 : ℚ) < (getCurrentFormat s).pxWidth := by linarith
  have hH0 : (0 : ℚ) < (getCurrentFormat s).pxHeight := by linarith
  have hA0 : 0 < (getCurrentFormat s).pxWidth / (getCurrentFormat s).pxHeight :=
    div_pos hW0 hH0
  unfold HasFormatAspectWithin at ha ⊢
  have hcross := cross_of_aspect_within _ _ _ _ τ hH0 (by linarith) ha
  have hrej : ∀ x0 y0 : ℚ,
      |min s.cropBox.width (fl ((getCurrentFormat s).pxWidth -
          max 0 (min x0 (fl ((getCurrentFormat s).pxWidth - s.cropBox.width))))) /
        min s.cropBox.height (fl ((getCurrentFormat s).pxHeight -
          max 0 (min y0 (fl ((getCurrentFormat s).pxHeight - s.cropBox.height))))) -
        (getCurrentFormat s).pxWidth / (getCurrentFormat s).pxHeight| ≤
      (τ + 1 / 2 ^ 37) * ((getCurrentFormat s).pxWidth / (getCurrentFormat s).pxHeight) := by
    intro x0 y0
    refine (clamp_aspect_within _ _ x0 y0 _ _ τ hW hH hH2 hw hht hτ0 hτ1 hcross).trans ?_
    refine mul_le_mul_of_nonneg_right ?_ hA0.le
    norm_num
  have hacc : ∀ w x0 y0 : ℚ, 20 < w →
      20 < fl (w / fl ((getCurrentFormat s).pxWidth / (getCurrentFormat s).pxHeight)) →
      |min w (fl ((getCurrentFormat s).pxWidth -
          max 0 (min x0 (fl ((getCurrentFormat s).pxWidth - w))))) /
        min (fl (w / fl ((getCurrentFormat s).pxWidth / (getCurrentFormat s).pxHeight)))
          (fl ((getCurrentFormat s).pxHeight - max 0 (min y0
            (fl ((getCurrentFormat s).pxHeight -
              fl (w / fl ((getCurrentFormat s).pxWidth / (getCurrentFormat s).pxHeight))))))) -
        (getCurrentFormat s).pxWidth / (getCurrentFormat s).pxHeight| ≤
      (τ + 1 / 2 ^ 37) * ((getCurrentFormat s).pxWidth / (getCurrentFormat s).pxHeight) := by
    intro w x0 y0 h1 h2
    have hd := derived_aspect_within _ _ w hW hH hH2 h2
    refine (clamp_aspect_within _ _ x0 y0 _ _ (1 / 2 ^ 50) hW hH hH2 (by linarith)
      (by linarith) (by norm_num) (by norm_num) hd).trans ?_
    refine mul_le_mul_of_nonneg_right ?_ hA0.le
    norm_num
    linarith
  unfold Binary64.resizeCropBox
  simp only [hh]
  cases handle <;> dsimp only <;> split_ifs with hc
  · exact hacc _ _ _ hc.1 hc.2
  · exact hrej _ _
  · exact hacc _ _ _ hc.1 hc.2
  · exact hrej _ _
  · exact hacc _ _ _ hc.1 hc.2
  · exact hrej _ _
  · exact hacc _ _ _ hc.1 hc.2
  · exact hrej _ _

/-! ## Initial fit -/

/-- Error propagation through the fit, in numbers: `T` is the scaled size on the
centred axis, `Q` its exact value. -/
theorem fit_arith (F2 η T T1 v1 off Q : ℚ) (hF2 : 0 ≤ F2) (hT0 : 0 ≤ T) (hη0 : 0 < η)
    (hQ : |T - Q| ≤ Q / 2 ^ 53 + 2 ^ 30 * η)
    (hc : F2 * (1 - 1 / 2 ^ 53) ≤ Q * (1 + 1 / 2 ^ 53) + 2 ^ 61 * η)
    (h1 : |T1 - T| ≤ T / 2 ^ 53 + η)
    (h2 : |v1 - (F2 - T1)| ≤ |F2 - T1| / 2 ^ 53 + η)
    (h3 : |off - v1 / 2| ≤ |v1 / 2| / 2 ^ 53 + η) :
    |off - (F2 - T) / 2| ≤ (F2 + T) / 2 ^ 51 + 2 ^ 2 * η ∧
    off ≤ (F2 + T) / 2 ^ 50 + 2 ^ 63 * η ∧
    F2 - ((F2 + T) / 2 ^ 50 + 2 ^ 63 * η) ≤ off + T := by
  have hv : |F2 - T1| ≤ F2 + T + |T1 - T| := by
    have e : F2 - T1 = F2 + (-T + -(T1 - T)) := by ring
    rw [e]
    have := abs_add_neg_neg_le F2 T (T1 - T)
    rw [abs_of_nonneg hF2, abs_of_nonneg hT0] at this
    linarith
  have hv1 : |v1 / 2| ≤ (|F2 - T1| + |v1 - (F2 - T1)|) / 2 := by
    rw [abs_div, abs_of_pos (by norm_num : (0 : ℚ) < 2)]
    have := abs_le_add_abs_sub (F2 - T1) v1
    linarith
  have hcent : |off - (F2 - T) / 2| ≤
      |off - v1 / 2| + (|v1 - (F2 - T1)| / 2 + |T1 - T| / 2) := by
    have e : off - (F2 - T) / 2 =
        (off - v1 / 2) + (-(-(v1 - (F2 - T1)) / 2) + -((T1 - T) / 2)) := by ring
    rw [e]
    refine (abs_add_neg_neg_le _ _ _).trans ?_
    rw [abs_div, abs_neg, abs_div, abs_of_pos (by norm_num : (0 : ℚ) < 2)]
  have hTQ := abs_le.1 hQ
  have key : |off - (F2 - T) / 2| ≤ (F2 + T) / 2 ^ 51 + 2 ^ 2 * η := by
    refine hcent.trans ?_
    generalize |off - v1 / 2| = δ3 at *
    generalize |v1 - (F2 - T1)| = δ2 at *
    generalize |T1 - T| = δ1 at *
    generalize |F2 - T1| = V at *
    generalize |v1 / 2| = V1 at *
    norm_num at h1 h2 h3 hv hv1 ⊢
    linarith
  have keyl := abs_le.1 key
  refine ⟨key, ?_, ?_⟩
  · norm_num at hc hTQ keyl ⊢
    linarith [hTQ.1, hTQ.2, keyl.1, keyl.2]
  · norm_num at hc hTQ keyl ⊢
    linarith [hTQ.1, hTQ.2, keyl.1, keyl.2]

/-- The rounded scale times the size it was computed from is the frame size, up to
rounding. -/
theorem scale_mul_err (F a b η' : ℚ) (hF : 0 ≤ F) (ha : 0 < a) (hb0 : 0 ≤ b)
    (hb : b ≤ 2 ^ 30) (hη : η' = 2 ^ (-1075 : ℤ)) :
    |b * fl (F / a) - b * F / a| ≤ b * F / a / 2 ^ 53 + 2 ^ 30 * η' := by
  have h := fl_err (F / a)
  rw [abs_of_nonneg (div_nonneg hF ha.le), ← hη] at h
  have e : b * fl (F / a) - b * F / a = b * (fl (F / a) - F / a) := by ring
  rw [e, abs_mul, abs_of_nonneg hb0]
  have h1 := mul_le_mul_of_nonneg_left h hb0
  have hη0 : 0 < η' := by rw [hη]; positivity
  have h2 : b * η' ≤ 2 ^ 30 * η' := mul_le_mul_of_nonneg_right hb hη0.le
  have e2 : b * (F / a / 2 ^ 53 + η') = b * F / a / 2 ^ 53 + b * η' := by ring
  rw [e2] at h1
  linarith

/-- What the comparison of the rounded aspect ratios says when the image is not the
wider one: the frame is at most as high as the image scaled to the frame width, up
to rounding. -/
theorem aspect_le_cross (a1 a2 F1 F2 η' : ℚ) (ha1 : 1 ≤ a1) (ha2 : 1 ≤ a2)
    (ha2' : a2 ≤ 2 ^ 30) (hF1 : 1 ≤ F1) (hF2 : 1 ≤ F2) (hF2' : F2 ≤ 2 ^ 30)
    (hη : η' = 2 ^ (-1075 : ℤ))
    (hc : ¬ fl (a1 / a2) > fl (F1 / F2)) :
    F2 * (1 - 1 / 2 ^ 53) ≤ a2 * F1 / a1 * (1 + 1 / 2 ^ 53) + 2 ^ 61 * η' := by
  have hη0 : 0 < η' := by rw [hη]; positivity
  have hα : 0 < a1 / a2 := by positivity
  have hβ : 0 < F1 / F2 := by positivity
  have h1 := sub_fl_le (a1 / a2)
  have h2 := fl_sub_le (F1 / F2)
  rw [abs_of_pos hα, ← hη] at h1
  rw [abs_of_pos hβ, ← hη] at h2
  have h3 : a1 / a2 * (1 - 1 / 2 ^ 53) ≤ F1 / F2 * (1 + 1 / 2 ^ 53) + 2 * η' := by
    have := not_lt.1 hc
    linarith
  have hk : 0 < a2 * F2 / a1 := by positivity
  have h4 := mul_le_mul_of_nonneg_right h3 hk.le
  have e1 : a1 / a2 * (1 - 1 / 2 ^ 53) * (a2 * F2 / a1) = F2 * (1 - 1 / 2 ^ 53) := by
    field_simp
    ring
  have e2 : (F1 / F2 * (1 + 1 / 2 ^ 53) + 2 * η') * (a2 * F2 / a1) =
      a2 * F1 / a1 * (1 + 1 / 2 ^ 53) + 2 * η' * (a2 * F2 / a1) := by
    field_simp
    ring
  rw [e1, e2] at h4
  have hk2 : a2 * F2 / a1 ≤ 2 ^ 60 := by
    rw [div_le_iff₀ (by linarith)]
    have : a2 * F2 ≤ 2 ^ 30 * 2 ^ 30 := mul_le_mul ha2' hF2' (by linarith) (by norm_num)
    nlinarith
  have h5 : 2 * η' * (a2 * F2 / a1) ≤ 2 * η' * 2 ^ 60 :=
    mul_le_mul_of_nonneg_left hk2 (by linarith)
  norm_num at h4 h5 ⊢
  linarith

/-- What the comparison of the rounded aspect ratios says when the image is the wider
one: the frame is at most as wide as the image scaled to the frame height, up to
rounding. -/
theorem aspect_gt_cross (a1 a2 F1 F2 η' : ℚ) (ha1 : 1 ≤ a1) (ha2 : 1 ≤ a2)
    (hF1 : 1 ≤ F1) (hF1' : F1 ≤ 2 ^ 30) (hF2 : 1 ≤ F2)
    (hη : η' = 2 ^ (-1075 : ℤ))
    (hc : fl (a2 / a1) > fl (F2 / F1)) :
    F2 * (1 - 1 / 2 ^ 53) ≤ a2 * F1 / a1 * (1 + 1 / 2 ^ 53) + 2 ^ 61 * η' := by
  have hη0 : 0 < η' := by rw [hη]; positivity
  have hα : 0 < a2 / a1 := by positivity
  have hβ : 0 < F2 / F1 := by positivity
  have h1 := fl_sub_le (a2 / a1)
  have h2 := sub_fl_le (F2 / F1)
  rw [abs_of_pos hα, ← hη] at h1
  rw [abs_of_pos hβ, ← hη] at h2
  have h3 : F2 / F1 * (1 - 1 / 2 ^ 53) ≤ a2 / a1 * (1 + 1 / 2 ^ 53) + 2 * η' := by
    have := hc.le
    linarith
  have hF10 : (0 : ℚ) < F1 := by linarith
  have h4 := mul_le_mul_of_nonneg_right h3 hF10.le
  have e1 : F2 / F1 * (1 - 1 / 2 ^ 53) * F1 = F2 * (1 - 1 / 2 ^ 53) := by
    field_simp
    ring
  have e2 : (a2 / a1 * (1 + 1 / 2 ^ 53) + 2 * η') * F1 =
      a2 * F1 / a1 * (1 + 1 / 2 ^ 53) + 2 * η' * F1 := by
    field_simp
    ring
  rw [e1, e2] at h4
  have h5 : 2 * η' * F1 ≤ 2 * η' * 2 ^ 30 := mul_le_mul_of_nonneg_left hF1' (by linarith)
  norm_num at h4 h5 ⊢
  linarith

/-- The absolute error terms of the fit stay below `2 ^ (-1000)`. -/
theorem eta_le_tiny : (2 : ℚ) ^ 63 * 2 ^ (-1075 : ℤ) ≤ 2 ^ (-1000 : ℤ) := by
  rw [← zpow_natCast, ← zpow_add₀ (by norm_num : (2 : ℚ) ≠ 0)]
  exact zpow_le_zpow_right₀ (by norm_num) (by norm_num)

/-- One branch of the fit: the frame size `F1` is filled by the image size `a1`, the
other axis is centred. -/
theorem fit_branch (a1 a2 F1 F2 : ℚ) (ha1 : 1 ≤ a1) (ha1' : a1 ≤ 2 ^ 30) (ha2 : 1 ≤ a2)
    (ha2' : a2 ≤ 2 ^ 30) (hF1 : 1 ≤ F1) (hF2 : 1 ≤ F2)
    (hc : F2 * (1 - 1 / 2 ^ 53) ≤ a2 * F1 / a1 * (1 + 1 / 2 ^ 53)
      + 2 ^ 61 * 2 ^ (-1075 : ℤ)) :
    |fl (F1 / a1) * a1 - F1| ≤ F1 / 2 ^ 52 + 2 ^ (-1000 : ℤ) ∧
    |fl (fl (F2 - fl (a2 * fl (F1 / a1))) / 2) - (F2 - fl (F1 / a1) * a2) / 2| ≤
      (F2 + fl (F1 / a1) * a2) / 2 ^ 51 + 2 ^ (-1000 : ℤ) ∧
    fl (fl (F2 - fl (a2 * fl (F1 / a1))) / 2) ≤
      (F2 + fl (F1 / a1) * a2) / 2 ^ 50 + 2 ^ (-1000 : ℤ) ∧
    F2 - ((F2 + fl (F1 / a1) * a2) / 2 ^ 50 + 2 ^ (-1000 : ℤ)) ≤
      fl (fl (F2 - fl (a2 * fl (F1 / a1))) / 2) + fl (F1 / a1) * a2 ∧
    (0 : ℚ) ≤ (F1 + fl (F1 / a1) * a1) / 2 ^ 50 + 2 ^ (-1000 : ℤ) ∧
    F1 - ((F1 + fl (F1 / a1) * a1) / 2 ^ 50 + 2 ^ (-1000 : ℤ)) ≤ 0 + fl (F1 / a1) * a1 := by
  have ha10 : (0 : ℚ) < a1 := by linarith
  have hF10 : (0 : ℚ) ≤ F1 := by linarith
  have hS0 : 0 ≤ fl (F1 / a1) := fl_nonneg _ (div_nonneg hF10 ha10.le)
  have hT0 : 0 ≤ a2 * fl (F1 / a1) := mul_nonneg (by linarith) hS0
  have hT1 : 0 ≤ a1 * fl (F1 / a1) := mul_nonneg ha10.le hS0
  have htiny := eta_le_tiny
  have e1 := fl_err (a2 * fl (F1 / a1))
  have e2 := fl_err (F2 - fl (a2 * fl (F1 / a1)))
  have e3 := fl_err (fl (F2 - fl (a2 * fl (F1 / a1))) / 2)
  rw [abs_of_nonneg hT0] at e1
  obtain ⟨η, hη⟩ : ∃ η : ℚ, η = 2 ^ (-1075 : ℤ) := ⟨_, rfl⟩
  obtain ⟨tiny, ht⟩ : ∃ t : ℚ, t = 2 ^ (-1000 : ℤ) := ⟨_, rfl⟩
  have hη0 : 0 < η := by rw [hη]; positivity
  rw [← hη] at hc htiny e1 e2 e3
  rw [← ht] at htiny ⊢
  have hfill := scale_mul_err F1 a1 a1 η hF10 ha10 ha10.le ha1' hη
  have e : a1 * F1 / a1 = F1 := by field_simp
  rw [e] at hfill
  have hQ := scale_mul_err F1 a1 a2 η hF10 ha10 (by linarith) ha2' hη
  obtain ⟨k1, k2, k3⟩ := fit_arith F2 η (a2 * fl (F1 / a1)) _ _ _ (a2 * F1 / a1)
    (by linarith) hT0 hη0 hQ hc e1 e2 e3
  rw [mul_comm (fl (F1 / a1)) a1, mul_comm (fl (F1 / a1)) a2]
  have hfl := abs_le.1 hfill
  refine ⟨?_, ?_, ?_, ?_, ?_, ?_⟩
  · refine hfill.trans ?_
    norm_num at htiny ⊢
    linarith
  · refine k1.trans ?_
    norm_num at htiny ⊢
    linarith
  · refine k2.trans ?_
    norm_num at htiny ⊢
    linarith
  · refine le_trans ?_ k3
    norm_num at htiny ⊢
    linarith
  · norm_num at htiny ⊢
    linarith
  · norm_num at htiny hfl ⊢
    linarith [hfl.1, hfl.2]

/-- C5, as amended: in binary64, for every image and every format with sizes of 1 to
`2 ^ 30` pixels, after the fit computed on image load the scaled image fills the frame
on one axis (offset 0, scaled size within `frame / 2 ^ 52` of the frame size), is
centred on the other axis within `(frame + scaled) / 2 ^ 51`, and covers the frame up
to `(frame + scaled) / 2 ^ 50` on each side, each bound plus `2 ^ (-1000)`. -/
theorem loadImage_fit_covers_frame_within (s : State) (img : Image)
    (hr : SizesInRange (getCurrentFormat s) img) :
    (Binary64.loadImage s img).uploadedImage = some img ∧
    FitCoversFrameWithin (getCurrentFormat s) img (Binary64.loadImage s img) := by
  obtain ⟨⟨hw, hw'⟩, ⟨hh, hh'⟩, ⟨hW, hW'⟩, ⟨hH, hH'⟩⟩ := hr
  have hf : ∀ (z : ℚ) (p : Point) (b : Box), getCurrentFormat
      { s with uploadedImage := some img, zoomLevel := z, imagePosition := p, cropBox := b } =
      getCurrentFormat s := fun _ _ _ => rfl
  unfold Binary64.loadImage FitCoversFrameWithin
  simp only [(b64_showPreview_view _).1, (b64_showPreview_view _).2.1,
    (b64_showPreview_view _).2.2.1, hf]
  split_ifs with hc
  · obtain ⟨b1, b2, b3, b4, b5, b6⟩ := fit_branch img.height img.width
      (getCurrentFormat s).pxHeight (getCurrentFormat s).pxWidth hh hh' hw hw' hH hW
      (aspect_gt_cross _ _ _ _ _ hh hw hH hH' hW rfl hc)
    exact ⟨rfl, Or.inr ⟨rfl, b1, b2⟩, b3, b5, b4, b6⟩
  · obtain ⟨b1, b2, b3, b4, b5, b6⟩ := fit_branch img.width img.height
      (getCurrentFormat s).pxWidth (getCurrentFormat s).pxHeight hw hw' hh hh' hW hH
      (aspect_le_cross _ _ _ _ _ hw hh hh' hW hH hH' rfl hc)
    exact ⟨rfl, Or.inl ⟨rfl, b1, b2⟩, b5, b3, b6, b4⟩

/-! ## Zoom-in at the upper bound -/

/-- The literal `1.2` as a binary64 number. -/
theorem fl_twelve_tenths : fl (12 / 10) = 5404319552844595 / 2 ^ 52 := by decide!

/-- In binary64, the zoom-in button clamps from above only and keeps the image. -/
theorem b64_zoomIn_zoomLevel (s : State) (img : Image) (himg : s.uploadedImage = some img) :
    (Binary64.zoomIn s).zoomLevel = min 5 (fl (s.zoomLevel * fl (12 / 10))) ∧
    (Binary64.zoomIn s).uploadedImage = some img := by
  unfold Binary64.zoomIn
  simp only [himg, (b64_showPreview_view _).1, (b64_showPreview_view _).2.2.1]
  exact ⟨trivial, trivial⟩

/-- One zoom-in step gains at least a tenth, below the bound. -/
theorem zoomIn_step_ge (z : ℚ) (hz : 2 ^ (-1022 : ℤ) ≤ z) :
    min 5 (11 / 10 * z) ≤ min 5 (fl (z * fl (12 / 10))) := by
  have hz0 : (0 : ℚ) < z := lt_of_lt_of_le (by positivity) hz
  have h := sub_fl_le (z * fl (12 / 10))
  rw [fl_twelve_tenths] at h ⊢
  have hpos : 0 ≤ z * (5404319552844595 / 2 ^ 52) := by positivity
  rw [abs_of_nonneg hpos] at h
  have hη : (2 : ℚ) ^ (-1075 : ℤ) ≤ 2 ^ (-1022 : ℤ) / 2 ^ 53 := by
    rw [← zpow_natCast, ← zpow_sub₀ (by norm_num : (2 : ℚ) ≠ 0)]
    exact zpow_le_zpow_right₀ (by norm_num) (by norm_num)
  have hη2 : (2 : ℚ) ^ (-1022 : ℤ) / 2 ^ 53 ≤ z / 2 ^ 53 :=
    div_le_div_of_nonneg_right hz (by positivity)
  apply min_le_min le_rfl
  have : (2 : ℚ) ^ (-1075 : ℤ) ≤ z / 2 ^ 53 := hη.trans hη2
  generalize (2 : ℚ) ^ (-1075 : ℤ) = η at h this
  norm_num at h this ⊢
  linarith

/-- In binary64, `n + 1` presses of the zoom-in button keep the image, stay at or below 5 and
gain at least a factor `1.1 ^ (n + 1)`, below the bound. -/
theorem b64_zoomIn_iterate (s : State) (img : Image) (himg : s.uploadedImage = some img)
    (hz : 2 ^ (-1022 : ℤ) ≤ s.zoomLevel) (n : ℕ) :
    (Binary64.zoomIn^[n + 1] s).uploadedImage = some img ∧
    (Binary64.zoomIn^[n + 1] s).zoomLevel ≤ 5 ∧
    min 5 ((11 / 10) ^ (n + 1) * s.zoomLevel) ≤ (Binary64.zoomIn^[n + 1] s).zoomLevel := by
  have hz0 : (0 : ℚ) < s.zoomLevel := lt_of_lt_of_le (by positivity) hz
  induction n with
  | zero =>
    simp only [zero_add, Function.iterate_one, pow_one]
    obtain ⟨h1, h2⟩ := b64_zoomIn_zoomLevel s img himg
    exact ⟨h2, h1 ▸ min_le_left _ _, h1 ▸ zoomIn_step_ge _ hz⟩
  | succ k ih =>
    obtain ⟨hi, hle, hge⟩ := ih
    rw [Function.iterate_succ_apply']
    obtain ⟨h1, h2⟩ := b64_zoomIn_zoomLevel _ img hi
    refine ⟨h2, h1 ▸ min_le_left _ _, ?_⟩
    rw [h1]
    have hpow : (1 : ℚ) ≤ (11 / 10) ^ (k + 1) := one_le_pow₀ (by norm_num)
    have hlow : 2 ^ (-1022 : ℤ) ≤ (Binary64.zoomIn^[k + 1] s).zoomLevel := by
      refine le_trans ?_ hge
      apply le_min
      · have : (2 : ℚ) ^ (-1022 : ℤ) ≤ 1 := zpow_le_one_of_nonpos₀ (by norm_num) (by norm_num)
        linarith
      · calc (2 : ℚ) ^ (-1022 : ℤ) ≤ s.zoomLevel := hz
          _ = 1 * s.zoomLevel := (one_mul _).symm
          _ ≤ (11 / 10) ^ (k + 1) * s.zoomLevel := mul_le_mul_of_nonneg_right hpow hz0.le
    refine le_trans ?_ (zoomIn_step_ge _ hlow)
    apply le_min (min_le_left _ _)
    rcases le_total 5 ((11 / 10) ^ (k + 1) * s.zoomLevel) with h5 | h5
    · rw [min_eq_left h5] at hge
      have : (5 : ℚ) ≤ (11 / 10) ^ (k + 1 + 1) * s.zoomLevel := by
        rw [pow_succ]; nlinarith
      rw [min_eq_left this]
      linarith
    · rw [min_eq_right h5] at hge
      refine le_trans (min_le_right _ _) ?_
      rw [pow_succ]
      nlinarith

/-- Recomputing an offset through the pivot with zoom ratio 1 moves it by rounding
errors only. -/
theorem recentre_err (c x : ℚ) :
    |fl (c - fl (fl (c - x) * 1)) - x| ≤ (|x| + |c - x|) / 2 ^ 50 + 2 ^ (-1073 : ℤ) := by
  have h1 := fl_err (c - x)
  have h2 := fl_err (fl (c - x) * 1)
  have h3 := fl_err (c - fl (fl (c - x) * 1))
  rw [mul_one] at h2 h3 ⊢
  have t1 : |fl (c - x)| ≤ |c - x| + |fl (c - x) - (c - x)| := by
    have := abs_add (c - x) (fl (c - x) - (c - x))
    simpa using this
  have t2 : |c - fl (fl (c - x))| ≤
      |x| + (|fl (c - x) - (c - x)| + |fl (fl (c - x)) - fl (c - x)|) := by
    have e : c - fl (fl (c - x)) =
        x + (-(fl (c - x) - (c - x)) + -(fl (fl (c - x)) - fl (c - x))) := by ring
    rw [e]
    refine (abs_add _ _).trans (add_le_add le_rfl ?_)
    refine (abs_add _ _).trans ?_
    rw [abs_neg, abs_neg]
  have t3 : |fl (c - fl (fl (c - x))) - x| ≤
      |fl (c - fl (fl (c - x))) - (c - fl (fl (c - x)))| +
        (|fl (c - x) - (c - x)| + |fl (fl (c - x)) - fl (c - x)|) := by
    have e : fl (c - fl (fl (c - x))) - x =
        (fl (c - fl (fl (c - x))) - (c - fl (fl (c - x)))) +
          (-(fl (c - x) - (c - x)) + -(fl (fl (c - x)) - fl (c - x))) := by ring
    rw [e]
    refine (abs_add _ _).trans (add_le_add le_rfl ?_)
    refine (abs_add _ _).trans ?_
    rw [abs_neg, abs_neg]
  have hη : (2 : ℚ) ^ (-1073 : ℤ) = 4 * 2 ^ (-1075 : ℤ) := by
    rw [show (-1073 : ℤ) = -1075 + 2 by norm_num, zpow_add₀ (by norm_num : (2 : ℚ) ≠ 0)]
    norm_num
  have hη0 : (0 : ℚ) < 2 ^ (-1075 : ℤ) := by positivity
  rw [hη]
  generalize (2 : ℚ) ^ (-1075 : ℤ) = η at *
  generalize |fl (c - x) - (c - x)| = δ1 at *
  generalize |fl (fl (c - x)) - fl (c - x)| = δ2 at *
  generalize |fl (c - fl (fl (c - x))) - (c - fl (fl (c - x)))| = δ3 at *
  generalize |fl (c - x)| = D1 at *
  generalize |c - fl (fl (c - x))| = W at *
  have hX := abs_nonneg x
  have hA := abs_nonneg (c - x)
  generalize |x| = X at *
  generalize |c - x| = A at *
  norm_num at h1 h2 h3 ⊢
  linarith

/-- At zoom 5 the zoom-in product is 6 and the zoom ratio is 1, exactly. -/
theorem fl_five_steps : fl (5 * fl (12 / 10)) = 6 ∧ fl (5 / 5) = 1 := by decide!

/-- In binary64, at zoom 5 the zoom-in button leaves the zoom at 5 and moves the offset by
rounding errors only. -/
theorem b64_zoomIn_at_five (t : State) (ht : t.zoomLevel = 5) :
    (Binary64.zoomIn t).zoomLevel = 5 ∧ OffsetKeptWithin t (Binary64.zoomIn t) := by
  unfold OffsetKeptWithin
  unfold Binary64.zoomIn
  split
  · refine ⟨ht, ?_, ?_⟩ <;> rw [sub_self, abs_zero] <;> positivity
  · simp only [(b64_showPreview_view _).1, (b64_showPreview_view _).2.1, ht, fl_five_steps.1]
    have h5 : min (5 : ℚ) 6 = 5 := by norm_num
    rw [h5, fl_five_steps.2]
    exact ⟨rfl, recentre_err _ _, recentre_err _ _⟩

/-- C14, as amended: in binary64, from every state with a loaded image and a zoom of at
least `2 ^ (-1022)` the zoom is exactly 5 after enough successive `zoomIn` calls and
stays 5 from then on; in every state with zoom 5 a further `zoomIn` leaves the zoom
at 5 and the image offset within rounding distance of where it was. -/
theorem zoomIn_converges_idempotent_within (s t : State) (img : Image)
    (himg : s.uploadedImage = some img) (hz : 2 ^ (-1022 : ℤ) ≤ s.zoomLevel)
    (ht : t.zoomLevel = 5) :
    (∃ n, ∀ m, n ≤ m → (Binary64.zoomIn^[m] s).zoomLevel = 5) ∧
    (Binary64.zoomIn t).zoomLevel = 5 ∧ OffsetKeptWithin t (Binary64.zoomIn t) := by
  refine ⟨?_, b64_zoomIn_at_five t ht⟩
  have hz0 : (0 : ℚ) < s.zoomLevel := lt_of_lt_of_le (by positivity) hz
  obtain ⟨n, hn⟩ := pow_unbounded_of_one_lt (5 / s.zoomLevel) (by norm_num : (1 : ℚ) < 11 / 10)
  refine ⟨n + 1, fun m hm => ?_⟩
  obtain ⟨k, rfl⟩ : ∃ k, m = k + 1 := ⟨m - 1, by omega⟩
  obtain ⟨-, hle, hge⟩ := b64_zoomIn_iterate s img himg hz k
  have h1 : (11 / 10 : ℚ) ^ n ≤ (11 / 10) ^ (k + 1) :=
    pow_le_pow_right₀ (by norm_num) (by omega)
  have h2 : 5 / s.zoomLevel < (11 / 10) ^ (k + 1) := lt_of_lt_of_le hn h1
  rw [div_lt_iff₀ hz0] at h2
  rw [min_eq_left h2.le] at hge
  exact le_antisymm hle hge

/-! ## Zoom bounds -/

/-- The initial fit sets the zoom to the fit scale, unclamped. -/
theorem loadImage_zoomLevel (s : State) (img : Image) :
    (loadImage s img).zoomLevel = fitScale (getCurrentFormat s) img := by
  unfold loadImage fitScale
  dsimp only
  rw [showPreview_zoomLevel]
  split_ifs <;> first | rfl | contradiction

/-- With an image loaded, `resetZoom` sets the zoom to the fit scale, unclamped. -/
theorem resetZoom_zoomLevel (s : State) (img : Image) (himg : s.uploadedImage = some img) :
    (resetZoom s).zoomLevel = fitScale (getCurrentFormat s) img := by
  unfold resetZoom fitScale
  simp only [himg]
  rw [showPreview_zoomLevel]
  split_ifs <;> rfl

/-- In binary64, the initial fit sets the zoom to the rounded fit scale, unclamped. -/
theorem b64_loadImage_zoomLevel (s : State) (img : Image) :
    (Binary64.loadImage s img).zoomLevel = Binary64.fitScale (getCurrentFormat s) img := by
  unfold Binary64.loadImage Binary64.fitScale
  dsimp only
  rw [(b64_showPreview_view _).1]
  split_ifs <;> first | rfl | contradiction

/-- In binary64, with an image loaded, `resetZoom` sets the zoom to the rounded fit
scale, unclamped. -/
theorem b64_resetZoom_zoomLevel (s : State) (img : Image)
    (himg : s.uploadedImage = some img) :
    (Binary64.resetZoom s).zoomLevel = Binary64.fitScale (getCurrentFormat s) img := by
  unfold Binary64.resetZoom Binary64.fitScale
  simp only [himg]
  rw [(b64_showPreview_view _).1]
  split_ifs <;> rfl

/-- In binary64, the wheel handler clamps on both sides and keeps the image. -/
theorem b64_wheel_zoomLevel (s : State) (img : Image) (d x y : ℚ)
    (himg : s.uploadedImage = some img) :
    (Binary64.handleCanvasWheel s d x y).zoomLevel =
      clamp (fl (s.zoomLevel * Binary64.wheelFactor d)) (fl (1 / 10)) 5 ∧
    (Binary64.handleCanvasWheel s d x y).uploadedImage = some img := by
  unfold Binary64.handleCanvasWheel
  simp only [himg, (b64_showPreview_view _).1, (b64_showPreview_view _).2.2.1, clamp,
    Binary64.wheelFactor]
  exact ⟨trivial, trivial⟩

/-- In binary64, the zoom-out button clamps from below only and keeps the image. -/
theorem b64_zoomOut_zoomLevel (s : State) (img : Image) (himg : s.uploadedImage = some img) :
    (Binary64.zoomOut s).zoomLevel = max (fl (1 / 10)) (fl (s.zoomLevel * fl (8 / 10))) ∧
    (Binary64.zoomOut s).uploadedImage = some img := by
  unfold Binary64.zoomOut
  simp only [himg, (b64_showPreview_view _).1, (b64_showPreview_view _).2.2.1]
  exact ⟨trivial, trivial⟩

/-- In binary64, from a zoom of at least 0.1 the one-sided clamp of `zoomIn` is the
full clamp. -/
theorem b64_zoomIn_eq_clamp (z : ℚ) (hz : 1 / 10 ≤ z) :
    min 5 (fl (z * fl (12 / 10))) = clamp (fl (z * fl (12 / 10))) (fl (1 / 10)) 5 := by
  unfold clamp
  have h := sub_fl_le (z * fl (12 / 10))
  have hη : (2 : ℚ) ^ (-1075 : ℤ) ≤ 1 / 2 ^ 60 := by
    rw [one_div, ← zpow_natCast, ← zpow_neg]
    exact zpow_le_zpow_right₀ (by norm_num) (by norm_num)
  have hv : fl (1 / 10) ≤ fl (z * fl (12 / 10)) := by
    rw [fl_literals.2.2.2.2] at h ⊢
    rw [fl_literals.1]
    rw [abs_of_nonneg (by positivity)] at h
    generalize (2 : ℚ) ^ (-1075 : ℤ) = η at h hη
    norm_num at h hη ⊢
    linarith
  have h5 : fl (1 / 10) ≤ 5 := by rw [fl_literals.1]; norm_num
  rw [max_eq_right (le_min h5 hv)]

/-- In binary64, from a zoom of at most 5 the one-sided clamp of `zoomOut` is the
full clamp. -/
theorem b64_zoomOut_eq_clamp (z : ℚ) (hz0 : 0 ≤ z) (hz : z ≤ 5) :
    max (fl (1 / 10)) (fl (z * fl (8 / 10))) = clamp (fl (z * fl (8 / 10))) (fl (1 / 10)) 5 := by
  unfold clamp
  have h := fl_mul_eight_tenths_le z hz0
  have h' := fl_sub_le (z * fl (8 / 10))
  have hη : (2 : ℚ) ^ (-1075 : ℤ) ≤ 1 / 2 ^ 60 := by
    rw [one_div, ← zpow_natCast, ← zpow_neg]
    exact zpow_le_zpow_right₀ (by norm_num) (by norm_num)
  have hv : fl (z * fl (8 / 10)) ≤ 5 := by
    rw [fl_literals.2.1] at h' ⊢
    rw [abs_of_nonneg (by positivity)] at h'
    generalize (2 : ℚ) ^ (-1075 : ℤ) = η at h' hη
    norm_num at h' hη ⊢
    linarith
  rw [min_eq_right hv]

/-- A value clamped to `[fl 0.1, 5]` lies in `[0.1, 5]`. -/
theorem b64_clamp_bounds (v : ℚ) :
    1 / 10 ≤ clamp v (fl (1 / 10)) 5 ∧ clamp v (fl (1 / 10)) 5 ≤ 5 := by
  have h1 : (1 / 10 : ℚ) ≤ fl (1 / 10) := by rw [fl_literals.1]; norm_num
  have h5 : fl (1 / 10) ≤ 5 := by rw [fl_literals.1]; norm_num
  exact ⟨h1.trans (le_max_left _ _), max_le h5 (min_le_left _ _)⟩

/-- In binary64, one zoom event keeps the image and the zoom bounds. -/
theorem b64_step_zoom_invariant (s : State) (img : Image) (e : Event)
    (he : e.isZoom = true) (himg : s.uploadedImage = some img) (hb : ZoomInBounds s) :
    (Binary64.step s e).uploadedImage = some img ∧ ZoomInBounds (Binary64.step s e) := by
  have hz0 : (0 : ℚ) ≤ s.zoomLevel := le_trans (by norm_num) hb.1
  cases e <;> simp only [Event.isZoom] at he <;> try exact absurd he (by decide)
  · refine ⟨(b64_wheel_zoomLevel s img _ _ _ himg).2, ?_⟩
    simp only [Binary64.step, ZoomInBounds, (b64_wheel_zoomLevel s img _ _ _ himg).1]
    exact b64_clamp_bounds _
  · refine ⟨(b64_zoomIn_zoomLevel s img himg).2, ?_⟩
    simp only [Binary64.step, ZoomInBounds, (b64_zoomIn_zoomLevel s img himg).1,
      b64_zoomIn_eq_clamp _ hb.1]
    exact b64_clamp_bounds _
  · refine ⟨(b64_zoomOut_zoomLevel s img himg).2, ?_⟩
    simp only [Binary64.step, ZoomInBounds, (b64_zoomOut_zoomLevel s img himg).1,
      b64_zoomOut_eq_clamp _ hz0 hb.2]
    exact b64_clamp_bounds _

/-- In binary64, any sequence of zoom events keeps the image and the zoom bounds. -/
theorem b64_run_zoom_invariant (events : List Event) :
    ∀ (s : State) (img : Image), events.all Event.isZoom = true →
      s.uploadedImage = some img → ZoomInBounds s →
      (Binary64.run s events).uploadedImage = some img ∧
        ZoomInBounds (Binary64.run s events) := by
  induction events with
  | nil => intro s img _ himg hb; exact ⟨himg, hb⟩
  | cons e es ih =>
    intro s img hev himg hb
    simp only [List.all_cons, Bool.and_eq_true] at hev
    have h1 := b64_step_zoom_invariant s img e hev.1 himg hb
    exact ih (Binary64.step s e) img hev.2 h1.1 h1.2

/-- C7, as amended: with an image loaded and the zoom in `[0.1, 5.0]`, each of wheel
zoom, `zoomIn` and `zoomOut` yields `clamp(zoom * factor, 0.1, 5.0)` and the zoom is in
`[0.1, 5.0]` after any sequence of these operations, in exact arithmetic and, with
product and literals rounded, in binary64; the initial fit and `resetZoom` set the
zoom to the fit scale, which is not clamped. -/
theorem zoom_commands_stay_in_bounds (s : State) (img : Image) (deltaY mouseX mouseY : ℚ)
    (events : List Event)
    (himg : s.uploadedImage = some img) (hb : ZoomInBounds s)
    (hev : events.all Event.isZoom = true) :
    ((handleCanvasWheel s deltaY mouseX mouseY).zoomLevel =
        clamp (s.zoomLevel * wheelFactor deltaY) (1 / 10) 5 ∧
      (zoomIn s).zoomLevel = clamp (s.zoomLevel * (12 / 10)) (1 / 10) 5 ∧
      (zoomOut s).zoomLevel = clamp (s.zoomLevel * (8 / 10)) (1 / 10) 5 ∧
      ZoomInBounds (run s events) ∧
      (loadImage s img).zoomLevel = fitScale (getCurrentFormat s) img ∧
      (resetZoom s).zoomLevel = fitScale (getCurrentFormat s) img) ∧
    ((Binary64.handleCanvasWheel s deltaY mouseX mouseY).zoomLevel =
        clamp (fl (s.zoomLevel * Binary64.wheelFactor deltaY)) (fl (1 / 10)) 5 ∧
      (Binary64.zoomIn s).zoomLevel = clamp (fl (s.zoomLevel * fl (12 / 10))) (fl (1 / 10)) 5 ∧
      (Binary64.zoomOut s).zoomLevel = clamp (fl (s.zoomLevel * fl (8 / 10))) (fl (1 / 10)) 5 ∧
      ZoomInBounds (Binary64.run s events) ∧
      (Binary64.loadImage s img).zoomLevel = Binary64.fitScale (getCurrentFormat s) img ∧
      (Binary64.resetZoom s).zoomLevel = Binary64.fitScale (getCurrentFormat s) img) :=
  ⟨⟨wheel_zoomLevel s img _ _ _ himg,
      (zoomIn_zoomLevel s img himg).trans (zoomIn_eq_clamp _ hb.1),
      (zoomOut_zoomLevel s img himg).trans (zoomOut_eq_clamp _ hb.2),
      (run_zoom_invariant events s img hev himg hb).2,
      loadImage_zoomLevel s img, resetZoom_zoomLevel s img himg⟩,
    ⟨(b64_wheel_zoomLevel s img _ _ _ himg).1,
      (b64_zoomIn_zoomLevel s img himg).1.trans (b64_zoomIn_eq_clamp _ hb.1),
      (b64_zoomOut_zoomLevel s img himg).1.trans
        (b64_zoomOut_eq_clamp _ (le_trans (by norm_num) hb.1) hb.2),
      (b64_run_zoom_invariant events s img hev himg hb).2,
      b64_loadImage_zoomLevel s img, b64_resetZoom_zoomLevel s img himg⟩⟩

/-! ## Concrete runs in binary64 -/

/-- C1 fails as stated: in the binary64 numbers of the script, after loading a
1920 × 1080 image into the NAPA format, `zoomOut` does not keep the image point under
the canvas centre `(150, 150)` there; evaluated in binary64 the claimed expression
`offset' + zoom' * ((p - offset) / zoom)` is `149.99999999999997`, not `150`. -/
theorem zoomOut_misses_pivot :
    wideLoaded.uploadedImage = some ⟨1920, 1080⟩ ∧ 0 < wideLoaded.zoomLevel ∧
    fl (wideLoaded.canvasWidth / 2) = 150 ∧ fl (wideLoaded.canvasHeight / 2) = 150 ∧
    ¬ PivotFixed wideLoaded (Binary64.zoomOut wideLoaded) 150 150 ∧
    fl ((Binary64.zoomOut wideLoaded).imagePosition.x +
      fl ((Binary64.zoomOut wideLoaded).zoomLevel *
        fl (fl (150 - wideLoaded.imagePosition.x) / wideLoaded.zoomLevel))) =
      5277655813324799 / 2 ^ 45 ∧
    (5277655813324799 / 2 ^ 45 : ℚ) ≠ 150 := by
  rw [wideLoaded_eq]
  decide!

/-- C1 as amended, at a concrete state: the 1920 × 1080 image in the NAPA format, one
wheel notch at `(10, 20)`. -/
theorem zoom_toward_pivot_rounding_witness :
    wideLoaded.uploadedImage = some ⟨1920, 1080⟩ ∧ ViewInRange wideLoaded ∧
    |(10 : ℚ)| ≤ 2 ^ 100 ∧ |(20 : ℚ)| ≤ 2 ^ 100 ∧
    PivotFixedWithin wideLoaded (Binary64.handleCanvasWheel wideLoaded 1 10 20) 10 20 ∧
    PivotFixedWithin wideLoaded (Binary64.zoomIn wideLoaded)
      (fl (wideLoaded.canvasWidth / 2)) (fl (wideLoaded.canvasHeight / 2)) ∧
    PivotFixedWithin wideLoaded (Binary64.zoomOut wideLoaded)
      (fl (wideLoaded.canvasWidth / 2)) (fl (wideLoaded.canvasHeight / 2)) :=
  ⟨by decide!, by decide!, by decide!, by decide!,
    zoom_toward_pivot_rounding wideLoaded ⟨1920, 1080⟩ 1 10 20 (by decide!) (by decide!)
      (by decide!) (by decide!)⟩

/-- C2 fails as stated, in the binary64 numbers of the script. After loading a
1000 × 1500 image into the NAPA format and two button zoom-outs the image is displayed
on `[54, 246] × [6, 294]` and no longer contains the crop box `[30, 270] × [30, 270]`;
the sampled source rectangle `(0, 125, 1000, 1250)` is displayed from x = 54, not from
x = 30. After loading a 1920 × 1080 image the crop box lies inside the displayed
image, yet the sampled width is `863.9999999999999` and `zoom * sourceWidth` is not
240, neither exactly nor evaluated in binary64 (`239.99999999999997`). -/
theorem export_differs_from_crop_box :
    (zoomedOutTwice.uploadedImage = some ⟨1000, 1500⟩ ∧ 0 < zoomedOutTwice.zoomLevel ∧
      zoomedOutTwice.imagePosition = ⟨54, 6⟩ ∧ zoomedOutTwice.cropBox = ⟨30, 30, 240, 240⟩ ∧
      Binary64.downloadImage zoomedOutTwice = some ⟨300, 300, 0, 125, 1000, 1250⟩ ∧
      ¬ ExportShowsCropBox zoomedOutTwice ⟨300, 300, 0, 125, 1000, 1250⟩) ∧
    (wideLoaded.uploadedImage = some ⟨1920, 1080⟩ ∧ 0 < wideLoaded.zoomLevel ∧
      CropBoxInsideImage wideLoaded ⟨1920, 1080⟩ ∧
      Binary64.downloadImage wideLoaded =
        some ⟨300, 300, 528, 108, 7599824371187711 / 2 ^ 43, 864⟩ ∧
      ¬ ExportShowsCropBox wideLoaded ⟨300, 300, 528, 108, 7599824371187711 / 2 ^ 43, 864⟩ ∧
      fl (wideLoaded.zoomLevel * (7599824371187711 / 2 ^ 43)) = 8444249301319679 / 2 ^ 45 ∧
      (8444249301319679 / 2 ^ 45 : ℚ) ≠ wideLoaded.cropBox.width) := by
  decide!

/-- C2 as amended, at a concrete state: the 1920 × 1080 image in the NAPA format. -/
theorem export_shows_crop_box_within_witness :
    wideLoaded.uploadedImage = some ⟨1920, 1080⟩ ∧ ExportInRange wideLoaded ⟨1920, 1080⟩ ∧
    CropBoxInsideImage wideLoaded ⟨1920, 1080⟩ ∧
    ∃ e, Binary64.downloadImage wideLoaded = some e ∧
      ExportShowsCropBoxWithin wideLoaded ⟨1920, 1080⟩ e :=
  ⟨by decide!, by decide!, by decide!,
    export_shows_crop_box_within wideLoaded ⟨1920, 1080⟩ (by decide!) (by decide!)
      (by decide!)⟩

/-- C4 fails as stated, in the binary64 numbers of the script: in the custom format
(413 × 531) a crop box of 21 × 27, whose ratio is exactly 413 / 531, becomes
25 × 32.14285714285714 when the bottom-right handle is dragged to `x = 25`; its ratio
is not 413 / 531, neither exactly nor evaluated in binary64 (`0.7777777777777779`
against `0.7777777777777778`). -/
theorem resize_breaks_aspect :
    customResized.resizeHandle = some HandleType.se ∧
    (getCurrentFormat customResized).pxWidth = 413 ∧
    (getCurrentFormat customResized).pxHeight = 531 ∧
    customResized.cropBox.width = 21 ∧ customResized.cropBox.height = 27 ∧
    HasFormatAspect (getCurrentFormat customResized) customResized.cropBox ∧
    (Binary64.resizeCropBox customResized 25 531).cropBox.width = 25 ∧
    (Binary64.resizeCropBox customResized 25 531).cropBox.height =
      1130926245712457 / 2 ^ 45 ∧
    ¬ HasFormatAspect (getCurrentFormat customResized)
      (Binary64.resizeCropBox customResized 25 531).cropBox ∧
    fl (25 / (1130926245712457 / 2 ^ 45)) = 3502799710177053 / 2 ^ 52 ∧
    fl (413 / 531) = 7005599420354105 / 2 ^ 53 ∧
    (3502799710177053 / 2 ^ 52 : ℚ) ≠ 7005599420354105 / 2 ^ 53 := by
  decide!

/-- C4 as amended, at a concrete state: the 21 × 27 crop box of the custom format,
bottom-right handle dragged to `x = 25`, with tolerance 0 before the resize. -/
theorem resizeCropBox_keeps_aspect_within_witness :
    customResized.resizeHandle = some HandleType.se ∧ ResizeInRange customResized 25 ∧
    (0 : ℚ) ≤ 0 ∧ (0 : ℚ) ≤ 1 ∧
    HasFormatAspectWithin (getCurrentFormat customResized) customResized.cropBox 0 ∧
    HasFormatAspectWithin (getCurrentFormat customResized)
      (Binary64.resizeCropBox customResized 25 531).cropBox (0 + 1 / 2 ^ 37) :=
  ⟨by decide!, by decide!, by decide!, by decide!, by decide!,
    resizeCropBox_keeps_aspect_within customResized HandleType.se 25 531 0 (by decide!)
      (by decide!) (by decide!) (by decide!) (by decide!)⟩

/-- C5 fails as stated, in the binary64 numbers of the script: a 281 × 281 image
loaded into the NAPA format (300 × 300) gets a zoom with `zoom * 281 < 300`
(`299.99999999999994` evaluated in binary64) and the offset `(0, 2 ^ (-45))`, so the
frame is neither filled exactly nor covered. -/
theorem fit_leaves_gap :
    squareLoaded.uploadedImage = some ⟨281, 281⟩ ∧
    (getCurrentFormat squareLoaded).pxWidth = 300 ∧
    (getCurrentFormat squareLoaded).pxHeight = 300 ∧
    squareLoaded.zoomLevel = 4808113481178465 / 2 ^ 52 ∧
    squareLoaded.imagePosition = ⟨0, 1 / 2 ^ 45⟩ ∧
    squareLoaded.zoomLevel * 281 < 300 ∧
    fl (squareLoaded.zoomLevel * 281) = 5277655813324799 / 2 ^ 44 ∧
    (5277655813324799 / 2 ^ 44 : ℚ) < 300 ∧
    ¬ FitCoversFrame (getCurrentFormat initialState) ⟨281, 281⟩ squareLoaded := by
  decide!

/-- C5 as amended, at a concrete input: the 281 × 281 image in the NAPA format. -/
theorem loadImage_fit_covers_frame_within_witness :
    SizesInRange (getCurrentFormat initialState) ⟨281, 281⟩ ∧
    (Binary64.loadImage initialState ⟨281, 281⟩).uploadedImage = some ⟨281, 281⟩ ∧
    FitCoversFrameWithin (getCurrentFormat initialState) ⟨281, 281⟩
      (Binary64.loadImage initialState ⟨281, 281⟩) :=
  ⟨by decide!, loadImage_fit_covers_frame_within initialState ⟨281, 281⟩ (by decide!)⟩

/-- C7 as amended, at a concrete state: the 1920 × 1080 image in the NAPA format
(zoom 0.2777…) and the sequence zoom-in, wheel, zoom-out. -/
theorem zoom_commands_stay_in_bounds_witness :
    wideLoaded.uploadedImage = some ⟨1920, 1080⟩ ∧ ZoomInBounds wideLoaded ∧
    [Event.zoomInButton, Event.wheel 1 10 20, Event.zoomOutButton].all Event.isZoom = true ∧
    ((handleCanvasWheel wideLoaded 1 10 20).zoomLevel =
        clamp (wideLoaded.zoomLevel * wheelFactor 1) (1 / 10) 5 ∧
      (zoomIn wideLoaded).zoomLevel = clamp (wideLoaded.zoomLevel * (12 / 10)) (1 / 10) 5 ∧
      (zoomOut wideLoaded).zoomLevel = clamp (wideLoaded.zoomLevel * (8 / 10)) (1 / 10) 5 ∧
      ZoomInBounds (run wideLoaded
        [Event.zoomInButton, Event.wheel 1 10 20, Event.zoomOutButton]) ∧
      (loadImage wideLoaded ⟨1920, 1080⟩).zoomLevel =
        fitScale (getCurrentFormat wideLoaded) ⟨1920, 1080⟩ ∧
      (resetZoom wideLoaded).zoomLevel =
        fitScale (getCurrentFormat wideLoaded) ⟨1920, 1080⟩) ∧
    ((Binary64.handleCanvasWheel wideLoaded 1 10 20).zoomLevel =
        clamp (fl (wideLoaded.zoomLevel * Binary64.wheelFactor 1)) (fl (1 / 10)) 5 ∧
      (Binary64.zoomIn wideLoaded).zoomLevel =
        clamp (fl (wideLoaded.zoomLevel * fl (12 / 10))) (fl (1 / 10)) 5 ∧
      (Binary64.zoomOut wideLoaded).zoomLevel =
        clamp (fl (wideLoaded.zoomLevel * fl (8 / 10))) (fl (1 / 10)) 5 ∧
      ZoomInBounds (Binary64.run wideLoaded
        [Event.zoomInButton, Event.wheel 1 10 20, Event.zoomOutButton]) ∧
      (Binary64.loadImage wideLoaded ⟨1920, 1080⟩).zoomLevel =
        Binary64.fitScale (getCurrentFormat wideLoaded) ⟨1920, 1080⟩ ∧
      (Binary64.resetZoom wideLoaded).zoomLevel =
        Binary64.fitScale (getCurrentFormat wideLoaded) ⟨1920, 1080⟩) :=
  ⟨by decide!, by decide!, rfl,
    zoom_commands_stay_in_bounds wideLoaded ⟨1920, 1080⟩ 1 10 20
      [Event.zoomInButton, Event.wheel 1 10 20, Event.zoomOutButton]
      (by decide!) (by decide!) rfl⟩

/-- C8 fails as stated, in the binary64 numbers of the script: after loading a
1920 × 1080 image into the NAPA format the script's `scaleX = width / (width * zoom)`
gives the source width `863.9999999999999`, while the `1 / zoom` mapping of the
specification gives 864 evaluated in binary64 and `240 / zoom` exactly. -/
theorem export_differs_from_spec :
    wideLoaded.uploadedImage = some ⟨1920, 1080⟩ ∧ 0 < wideLoaded.zoomLevel ∧
    Binary64.downloadImage wideLoaded =
      some ⟨300, 300, 528, 108, 7599824371187711 / 2 ^ 43, 864⟩ ∧
    (Binary64.specSourceRect ⟨1920, 1080⟩ wideLoaded.zoomLevel wideLoaded.imagePosition
      wideLoaded.cropBox).srcW = 864 ∧
    (specSourceRect ⟨1920, 1080⟩ wideLoaded.zoomLevel wideLoaded.imagePosition
      wideLoaded.cropBox).srcW = 240 / wideLoaded.zoomLevel ∧
    (7599824371187711 / 2 ^ 43 : ℚ) ≠ 864 ∧
    (7599824371187711 / 2 ^ 43 : ℚ) ≠ 240 / wideLoaded.zoomLevel := by
  decide!

/-- C8 as amended, at a concrete state: the 1920 × 1080 image in the NAPA format. -/
theorem downloadImage_refines_spec_within_witness :
    wideLoaded.uploadedImage = some ⟨1920, 1080⟩ ∧ ExportInRange wideLoaded ⟨1920, 1080⟩ ∧
    ∃ e, Binary64.downloadImage wideLoaded = some e ∧
      SourceRectWithin ⟨1920, 1080⟩ wideLoaded.zoomLevel wideLoaded.imagePosition
        wideLoaded.cropBox e
        (specSourceRect ⟨1920, 1080⟩ wideLoaded.zoomLevel wideLoaded.imagePosition
          wideLoaded.cropBox) ∧
      SourceRectInImageWithin ⟨1920, 1080⟩ e :=
  ⟨by decide!, by decide!,
    downloadImage_refines_spec_within wideLoaded ⟨1920, 1080⟩ (by decide!) (by decide!)⟩

/-- In binary64, at zoom `2 ^ (-1074)` the zoom-in button leaves the zoom where it
is: the product with 1.2 rounds back to `2 ^ (-1074)`. -/
theorem b64_zoomIn_stalls (t : State) (ht : t.zoomLevel = 2 ^ (-1074 : ℤ)) :
    (Binary64.zoomIn t).zoomLevel = 2 ^ (-1074 : ℤ) := by
  have h : min (5 : ℚ) (fl (2 ^ (-1074 : ℤ) * fl (12 / 10))) = 2 ^ (-1074 : ℤ) := by decide!
  unfold Binary64.zoomIn
  split
  · exact ht
  · simp only [(b64_showPreview_view _).1, ht, h]

/-- In binary64, from zoom `2 ^ (-1074)` no number of presses changes the zoom. -/
theorem b64_zoomIn_stalls_iterate (t : State) (ht : t.zoomLevel = 2 ^ (-1074 : ℤ)) (n : ℕ) :
    (Binary64.zoomIn^[n] t).zoomLevel = 2 ^ (-1074 : ℤ) := by
  induction n with
  | zero => exact ht
  | succ k ih =>
    rw [Function.iterate_succ_apply']
    exact b64_zoomIn_stalls _ ih

/-- C14 fails as stated, in the binary64 numbers of the script. A 61 × 61 image
loaded into the NAPA format and zoomed once with the wheel at `(10, 20)` is at zoom 5
with offset `(-0.16666666666666607, -0.33333333333333215)`; a further `zoomIn` keeps
the zoom but moves the offset to `(-0.1666666666666572, -0.3333333333333428)`. And
from the zoom `2 ^ (-1074)`, with an image loaded, no number of `zoomIn` calls
reaches 5. -/
theorem zoomIn_at_five_moves_offset :
    (smallWheeled.uploadedImage = some ⟨61, 61⟩ ∧ smallWheeled.zoomLevel = 5 ∧
      smallWheeled.imagePosition =
        ⟨-93824992236885 / 2 ^ 49, -93824992236885 / 2 ^ 48⟩ ∧
      (Binary64.zoomIn smallWheeled).zoomLevel = 5 ∧
      (Binary64.zoomIn smallWheeled).imagePosition =
        ⟨-5864062014805 / 2 ^ 45, -11728124029611 / 2 ^ 45⟩ ∧
      (Binary64.zoomIn smallWheeled).imagePosition ≠ smallWheeled.imagePosition) ∧
    (tinyZoom.uploadedImage = some ⟨1920, 1080⟩ ∧ 0 < tinyZoom.zoomLevel ∧
      ∀ n, (Binary64.zoomIn^[n] tinyZoom).zoomLevel ≠ 5) := by
  refine ⟨by decide!, by decide!, by decide!, fun n => ?_⟩
  rw [b64_zoomIn_stalls_iterate tinyZoom rfl n]
  decide!

/-- C14 as amended, at concrete states: the 1920 × 1080 image in the NAPA format
(zoom 0.2777…), and the 61 × 61 image wheeled to zoom 5. -/
theorem zoomIn_converges_idempotent_within_witness :
    wideLoaded.uploadedImage = some ⟨1920, 1080⟩ ∧
    (2 : ℚ) ^ (-1022 : ℤ) ≤ wideLoaded.zoomLevel ∧ smallWheeled.zoomLevel = 5 ∧
    (∃ n, ∀ m, n ≤ m → (Binary64.zoomIn^[m] wideLoaded).zoomLevel = 5) ∧
    (Binary64.zoomIn smallWheeled).zoomLevel = 5 ∧
    OffsetKeptWithin smallWheeled (Binary64.zoomIn smallWheeled) :=
  ⟨by decide!, by decide!, by decide!,
    zoomIn_converges_idempotent_within wideLoaded smallWheeled ⟨1920, 1080⟩ (by decide!)
      (by decide!) (by decide!)⟩

end PassportGenerator
